import Mathlib

/-!
# AES67 bridge: RTP engine, sample codec, sample queue and PTP slave

A shallow embedding of `RTPHandler` (src/RTPHandler.h, src/RTPHandler.cpp), of
`AudioConverter` (src/AudioConverter.h, src/AudioConverter.cpp), of the audio
callback, the setters and the two worker loops of `AES67Bridge` (src/AES67Bridge.h,
src/AES67Bridge.cpp) and of the message handling of `PTPSync` (src/PTPSync.h,
src/PTPSync.cpp), with the properties of the packet builder, the packet parser, the
reorder buffer, the sample codec, the sample queue and the clock synchronisation.

Conventions of the embedding

* Machine integers are natural numbers (or integers for signed values) with the
  wrap-around written out: `uint16_t` arithmetic is taken `% 65536`, `uint32_t`
  arithmetic `% 2 ^ 32`, `size_t` arithmetic `% 2 ^ SIZE_BITS`.
* A byte buffer is a `List Nat` whose elements are bytes (`< 256`).
* In the RTP engine a `float` sample is carried as its IEEE-754 binary32 image (a
  32-bit word): `createPacket` only ever copies the raw memory of the samples and
  `parsePacket` only ever writes `0.0f`, whose image is `0`.
* In the codec and the bridge a `float` is the rational number it denotes and every
  `float` operation is the exact operation followed by the rounding `f32` to
  binary32; `f32Bits` gives the binary32 image where the bridge hands samples to
  the RTP engine.
* Undefined behaviour of the C++ code (an out-of-bounds read, an integer division by
  zero, a `float` to integer cast out of range) is the result `none`.
-/

namespace aes67

/-! ## Machine integers and byte order -/

/-- Width of `size_t` in bits (LP64). The two window tests of `addPacketToBuffer`,
the only place where the width decides a branch, come out the same at every width
from 17 bits on, 32 included (`staleTest_iff`, `jumpTest_iff`). -/
def SIZE_BITS : Nat := 64

/-- Conversion of an `int` value to `int16_t`: reduction modulo 2^16 into the
two's-complement range. -/
def toInt16 (x : Int) : Int :=
  let m := x % 65536
  if m < 32768 then m else m - 65536

/-- Conversion of a signed integer to an unsigned type of `w` bits (`size_t` when
`w = SIZE_BITS`): reduction modulo 2^w. -/
def toUnsigned (w : Nat) (x : Int) : Nat := (x % (2 ^ w : Nat)).toNat

/-- Memory image of `htons(v)`: the two bytes of `v`, most significant first. -/
def htons (v : Nat) : List Nat := [v / 256 % 256, v % 256]

/-- Memory image of `htonl(v)`: the four bytes of `v`, most significant first. -/
def htonl (v : Nat) : List Nat :=
  [v / 16777216 % 256, v / 65536 % 256, v / 256 % 256, v % 256]

/-- Host value `ntohs(x)` of the 16-bit field stored at offset `off` of `data`. -/
def ntohs (data : List Nat) (off : Nat) : Nat :=
  data.getD off 0 * 256 + data.getD (off + 1) 0

/-- Host value `ntohl(x)` of the 32-bit field stored at offset `off` of `data`. -/
def ntohl (data : List Nat) (off : Nat) : Nat :=
  data.getD off 0 * 16777216 + data.getD (off + 1) 0 * 65536
    + data.getD (off + 2) 0 * 256 + data.getD (off + 3) 0

/-- Raw memory of one `float` whose binary32 image is `bits` (little-endian host). -/
def floatBytes (bits : Nat) : List Nat :=
  [bits % 256, bits / 256 % 256, bits / 65536 % 256, bits / 16777216 % 256]

/-- Raw memory of a `std::vector<float>`: the bytes `samples.data()` points at. -/
def sampleBytes : List Nat → List Nat
  | [] => []
  | x :: xs => floatBytes x ++ sampleBytes xs

/-! ## Data model -/

/-- The struct `RTPHandler::AudioData`; `samples` holds the binary32 image of each
float. -/
structure AudioData where
  samples : List Nat
  channelCount : Nat
  sampleRate : Nat
  frameCount : Nat
  deriving DecidableEq, Repr

/-- The struct `RTPHandler::PacketEntry`: one slot of the reorder buffer. -/
structure PacketEntry where
  data : List Nat
  sequenceNumber : Nat
  valid : Bool
  deriving DecidableEq, Repr

/-- The value of `sizeof(RTPHeader)`: two `uint8_t`, one `uint16_t`, two `uint32_t`, no padding. -/
def RTP_HEADER_SIZE : Nat := 12

/-- The constant `RTPHandler::MAX_BUFFER_PACKETS`, a `static constexpr size_t`. -/
def MAX_BUFFER_PACKETS : Nat := 32

/-- The member variables of `RTPHandler`. -/
structure RTPHandler where
  ssrc : Nat
  sequenceNumber : Nat
  timestamp : Nat
  sampleRate : Nat
  channelCount : Nat
  payloadType : Nat
  packetBuffer : List PacketEntry
  expectedSequence : Nat
  packetCount : Nat
  droppedPackets : Nat
  outOfOrderPackets : Nat
  deriving DecidableEq, Repr

/-- Every member holds a value of its C++ type, and the `std::array` has its
`MAX_BUFFER_PACKETS` slots. -/
def RTPHandler.WF (h : RTPHandler) : Prop :=
  h.ssrc < 2 ^ 32 ∧ h.sequenceNumber < 65536 ∧ h.timestamp < 2 ^ 32 ∧
  h.sampleRate < 2 ^ 32 ∧ h.channelCount < 65536 ∧ h.payloadType < 65536 ∧
  h.packetBuffer.length = MAX_BUFFER_PACKETS ∧ h.expectedSequence < 65536 ∧
  h.packetCount < 2 ^ 32 ∧ h.droppedPackets < 2 ^ 32 ∧ h.outOfOrderPackets < 2 ^ 32

instance (h : RTPHandler) : Decidable h.WF := by
  unfold RTPHandler.WF; infer_instance

/-- The slot a default-constructed `PacketEntry` holds once the constructor has
cleared `valid`. Its `sequenceNumber` is left uninitialised by the constructor; it
is 0 here, and no test of the code reads it while `valid` is false. -/
def emptyEntry : PacketEntry := { data := [], sequenceNumber := 0, valid := false }

/-- The handler the constructor `RTPHandler::RTPHandler` builds, for the two random
draws `ssrc0` (from 1..2^32-1) and `seq0` (from 0..65535). -/
def RTPHandler.init (ssrc0 seq0 : Nat) : RTPHandler :=
  { ssrc := ssrc0, sequenceNumber := seq0, timestamp := 0,
    sampleRate := 48000, channelCount := 2, payloadType := 96,
    packetBuffer := List.replicate MAX_BUFFER_PACKETS emptyEntry,
    expectedSequence := seq0, packetCount := 0, droppedPackets := 0,
    outOfOrderPackets := 0 }

/-- The configuration call of `RTPHandler` taking `(rate, channels, type)`: the three
setters `setSampleRate`, `setChannelCount`, `setPayloadType` in a row. -/
def initializeRTP (h : RTPHandler) (rate channels ptype : Nat) : RTPHandler :=
  { h with sampleRate := rate % 2 ^ 32, channelCount := channels % 65536,
           payloadType := ptype % 65536 }

/-! ## Building a packet -/

/-- The method `RTPHandler::createPacket(audio, packet)`. The result is `none` when
the `memcpy` would read past the end of `audio.samples` (or, had the `size_t` sum
for `packetSize` wrapped, write past the end of `packet`); otherwise it is the
returned boolean, the `packet` vector after the call and the handler after the
call. -/
def createPacket (h : RTPHandler) (audio : AudioData) (packet : List Nat) :
    Option (Bool × List Nat × RTPHandler) :=
  if audio.samples.isEmpty || audio.channelCount == 0 || audio.frameCount == 0 then
    some (false, packet, h)
  else
    -- `frameCount * channelCount` is a `uint32_t` product, widened by `sizeof(int32_t)`
    let payloadSize := ((audio.frameCount * audio.channelCount) % 2 ^ 32 * 4) % 2 ^ SIZE_BITS
    let packetSize := (RTP_HEADER_SIZE + payloadSize) % 2 ^ SIZE_BITS
    let header := [0x80, (h.payloadType &&& 0x7F) % 256] ++ htons h.sequenceNumber
      ++ htonl h.timestamp ++ htonl h.ssrc
    let src := sampleBytes audio.samples
    if payloadSize ≤ src.length ∧ packetSize = RTP_HEADER_SIZE + payloadSize then
      some (true, header ++ src.take payloadSize,
        { h with sequenceNumber := (h.sequenceNumber + 1) % 65536,
                 timestamp := (h.timestamp + audio.frameCount) % 2 ^ 32,
                 packetCount := (h.packetCount + 1) % 2 ^ 32 })
    else
      none

/-- The number of payload bytes `createPacket` copies for `audio`. -/
def payloadSizeOf (audio : AudioData) : Nat :=
  ((audio.frameCount * audio.channelCount) % 2 ^ 32 * 4) % 2 ^ SIZE_BITS

/-- The input test of `createPacket`: the condition under which it returns `false`. -/
def invalidInput (audio : AudioData) : Prop :=
  audio.samples = [] ∨ audio.channelCount = 0 ∨ audio.frameCount = 0

instance (audio : AudioData) : Decidable (invalidInput audio) := by
  unfold invalidInput; infer_instance

/-- Repeated `createPacket`: one call per element of `audios`, stopping with
`none` at the first call that does not return `true`. The result is the list of
packets built and the handler after the last call. -/
def createPackets (h : RTPHandler) : List AudioData → Option (List (List Nat) × RTPHandler)
  | [] => some ([], h)
  | a :: rest =>
    match createPacket h a [] with
    | some (true, pkt, h1) =>
      match createPackets h1 rest with
      | some (pkts, h2) => some (pkt :: pkts, h2)
      | none => none
    | _ => none

/-! ## Parsing a packet -/

/-- The method `RTPHandler::parsePacket(data, size, audio)` with `size = data.length`.
The result is `none` when the frame count would divide by zero; otherwise it is the
returned boolean, `audio` after the call and the handler after the call. The local
`ts` is read and never used, as in the source. -/
def parsePacket (h : RTPHandler) (data : List Nat) (audio : AudioData) :
    Option (Bool × AudioData × RTPHandler) :=
  let size := data.length
  if size < RTP_HEADER_SIZE then
    some (false, audio, h)
  else if (data.getD 0 0 &&& 0xC0) != 0x80 then
    some (false, audio, h)
  else
    let seq := ntohs data 2
    let _ts := ntohl data 4
    let payloadSize := size - RTP_HEADER_SIZE
    let h1 := if seq != h.expectedSequence then
        { h with outOfOrderPackets := (h.outOfOrderPackets + 1) % 2 ^ 32 } else h
    let h2 := { h1 with expectedSequence := (seq + 1) % 65536 }
    let bytesPerSample := 3
    if h.channelCount * bytesPerSample = 0 then
      none
    else
      let frameCount := payloadSize / (h.channelCount * bytesPerSample)
      some (true,
        { samples := List.replicate (frameCount * h.channelCount) 0,
          channelCount := h.channelCount,
          sampleRate := h.sampleRate,
          frameCount := frameCount % 2 ^ 32 },
        { h2 with packetCount := (h2.packetCount + 1) % 2 ^ 32 })

/-! ## Reorder buffer -/

/-- The method `RTPHandler::getBufferIndex`. -/
def getBufferIndex (sequence : Nat) : Nat := sequence % MAX_BUFFER_PACKETS

/-- The `while` loop of `RTPHandler::processBuffer`, run for at most `fuel`
iterations from the handler `h`. The code hands a processed slot nowhere (it only
clears `valid` and advances `expectedSequence`); `released` records the slots
processed so far, oldest first, so that the order of release can be stated. -/
def processLoop : Nat → RTPHandler → List PacketEntry → RTPHandler × List PacketEntry
  | 0, h, released => (h, released)
  | fuel + 1, h, released =>
    let idx := getBufferIndex h.expectedSequence
    let e := h.packetBuffer.getD idx emptyEntry
    if e.valid && e.sequenceNumber == h.expectedSequence then
      processLoop fuel
        { h with packetBuffer := h.packetBuffer.set idx { e with valid := false },
                 expectedSequence := (h.expectedSequence + 1) % 65536 }
        (released ++ [e])
    else
      (h, released)

/-- The condition of the `while` loop of `processBuffer`, at handler `h`. -/
def processCond (h : RTPHandler) : Bool :=
  let e := h.packetBuffer.getD (getBufferIndex h.expectedSequence) emptyEntry
  e.valid && e.sequenceNumber == h.expectedSequence

/-- The method `RTPHandler::processBuffer`. Every iteration of its loop clears one
valid slot, so `MAX_BUFFER_PACKETS` iterations are enough for the loop to leave on
its own (`processBuffer_exits`). -/
def processBuffer (h : RTPHandler) : RTPHandler × List PacketEntry :=
  processLoop MAX_BUFFER_PACKETS h []

/-- The right-hand side `-MAX_BUFFER_PACKETS/2` of the stale test, with `size_t` of
`w` bits. `MAX_BUFFER_PACKETS` is a `size_t`, so the unary minus is the unsigned
negation modulo 2^w and the division by 2 is unsigned as well. -/
def negMaxBufferHalf (w : Nat) : Nat := (2 ^ w - MAX_BUFFER_PACKETS) % 2 ^ w / 2

/-- The test `seqDiff < -MAX_BUFFER_PACKETS/2`. Its right operand is a `size_t`, so
the usual arithmetic conversions turn the `int16_t` left operand into a `size_t`
too and the comparison is unsigned. -/
def staleTest (w : Nat) (seqDiff : Int) : Bool :=
  decide (toUnsigned w seqDiff < negMaxBufferHalf w)

/-- The test `seqDiff > MAX_BUFFER_PACKETS/2`, an unsigned comparison for the same
reason as `staleTest`. -/
def jumpTest (w : Nat) (seqDiff : Int) : Bool :=
  decide (toUnsigned w seqDiff > MAX_BUFFER_PACKETS / 2)

/-- The method `RTPHandler::addPacketToBuffer(data, size)` with `size = data.length`.
The result is the handler after the call and the slots `processBuffer` released. -/
def addPacketToBuffer (h : RTPHandler) (data : List Nat) : RTPHandler × List PacketEntry :=
  if data.length < RTP_HEADER_SIZE then
    (h, [])
  else
    let seq := ntohs data 2
    let seqDiff : Int := toInt16 ((seq : Int) - (h.expectedSequence : Int))
    if staleTest SIZE_BITS seqDiff then
      ({ h with droppedPackets := (h.droppedPackets + 1) % 2 ^ 32 }, [])
    else
      let h1 := if jumpTest SIZE_BITS seqDiff then
          { h with expectedSequence := seq,
                   droppedPackets := (h.droppedPackets + 1) % 2 ^ 32,
                   packetBuffer := h.packetBuffer.map fun e => { e with valid := false } }
        else h
      let idx := getBufferIndex seq
      let h2 := { h1 with packetBuffer :=
        h1.packetBuffer.set idx { data := data, sequenceNumber := seq, valid := true } }
      let h3 := if seq != h2.expectedSequence && decide (seqDiff > 0) then
          { h2 with outOfOrderPackets := (h2.outOfOrderPackets + 1) % 2 ^ 32 }
        else h2
      processBuffer h3

/-- A run of `addPacketToBuffer` calls, one per packet of `packets` in order. The
result is the final handler and everything released, in order of release. -/
def addPackets (h : RTPHandler) : List (List Nat) → RTPHandler × List PacketEntry
  | [] => (h, [])
  | p :: rest =>
    let r := addPacketToBuffer h p
    let r2 := addPackets r.1 rest
    (r2.1, r.2 ++ r2.2)

/-- An RTP packet as a sender builds it: the 12-byte header for payload type `pt`,
sequence number `seq`, timestamp `ts` and source `ssrc`, then `payload`. -/
def rtpPacket (pt seq ts ssrc : Nat) (payload : List Nat) : List Nat :=
  [0x80, pt % 128] ++ htons seq ++ htonl ts ++ htonl ssrc ++ payload

/-! ## Binary32 arithmetic

A `float` value is carried as the rational number it denotes, and every `float`
operation of the source is the exact operation followed by `f32`, the rounding to
the nearest binary32 value (ties to even, subnormals included). Infinities and NaN
are outside the model: no value below comes near 2^128. A `float` literal of the
source is `floatLit` of its decimal value. -/

/-- Rounding of a rational to the nearest integer, ties to the even one. -/
def roundNearestEven (q : ℚ) : Int :=
  if q - ⌊q⌋ < 1 / 2 then ⌊q⌋
  else if 1 / 2 < q - ⌊q⌋ then ⌊q⌋ + 1
  else if ⌊q⌋ % 2 = 0 then ⌊q⌋ else ⌊q⌋ + 1

/-- The binade of `x` in binary32: the exponent `e` with `2^e ≤ |x| < 2^(e+1)`, and
`-126` for the subnormal range. -/
def f32Exponent (x : ℚ) : Int := max (Int.log 2 |x|) (-126)

/-- Rounding to binary32: the multiple of `2^(e-23)` nearest to `x`, ties to the
even multiple, where `e` is the binade of `x`. -/
def f32 (x : ℚ) : ℚ :=
  (roundNearestEven (x / 2 ^ (f32Exponent x - 23)) : ℚ) * 2 ^ (f32Exponent x - 23)

/-- The value of a `float` literal written as the decimal `x`. -/
def floatLit (x : ℚ) : ℚ := f32 x

/-- Conversion of an integer value to `int32_t`: reduction modulo 2^32 into the
two's-complement range. -/
def toInt32 (x : Int) : Int :=
  let m := x % 4294967296
  if m < 2147483648 then m else m - 4294967296

/-- The cast `static_cast<int32_t>(x)` of a `float`: truncation toward zero, and
undefined behaviour (`none`) when the truncated value is no `int32_t`. -/
@[irreducible]
def floatToInt32 (x : ℚ) : Option Int :=
  let t : Int := if 0 ≤ x then ⌊x⌋ else ⌈x⌉
  if -2147483648 ≤ t ∧ t ≤ 2147483647 then some t else none

/-! ## Sample codec -/

/-- The struct `AudioConverter::DitherState`. -/
structure DitherState where
  error : ℚ
  errorPrev1 : ℚ
  errorPrev2 : ℚ
  random : ℚ
  deriving DecidableEq, Repr

/-- The member variables of `AudioConverter`. -/
structure AudioConverter where
  sampleRate : Nat
  channelCount : Nat
  bitDepth : Nat
  maxIntValue : ℚ
  minIntValue : ℚ
  ditherScale : ℚ
  bytesPerSample : Nat
  ditherStates : List DitherState
  deriving DecidableEq, Repr

/-- The dither state the constructor and `setChannelCount` write: four times `0.0f`. -/
def zeroDither : DitherState :=
  { error := floatLit 0, errorPrev1 := floatLit 0, errorPrev2 := floatLit 0,
    random := floatLit 0 }

/-- The converter the constructor `AudioConverter::AudioConverter` builds. -/
def AudioConverter.init : AudioConverter :=
  { sampleRate := 48000, channelCount := 2, bitDepth := 24,
    maxIntValue := floatLit 8388607, minIntValue := floatLit (-8388608),
    ditherScale := f32 (floatLit 4 / floatLit 8388607), bytesPerSample := 3,
    ditherStates := List.replicate 2 zeroDither }

/-- The method `AudioConverter::setSampleRate`. -/
def AudioConverter.setSampleRate (c : AudioConverter) (rate : Nat) : AudioConverter :=
  { c with sampleRate := rate % 2 ^ 32 }

/-- The method `AudioConverter::setChannelCount`: the dither states are resized and
then all of them are zeroed. -/
def AudioConverter.setChannelCount (c : AudioConverter) (channels : Nat) : AudioConverter :=
  { c with channelCount := channels % 65536,
           ditherStates := List.replicate (channels % 65536) zeroDither }

/-- The method `AudioConverter::setBitDepth(bits)`, `bits` a `uint16_t`. The `default`
branch of its `switch` does not reject: it writes the 24-bit parameters. -/
def AudioConverter.setBitDepth (c : AudioConverter) (bits : Nat) : AudioConverter :=
  if bits = 16 then
    { c with bitDepth := 16, maxIntValue := floatLit 32767, minIntValue := floatLit (-32768),
             ditherScale := f32 (floatLit 4 / floatLit 32767), bytesPerSample := 2 }
  else if bits = 24 then
    { c with bitDepth := 24, maxIntValue := floatLit 8388607,
             minIntValue := floatLit (-8388608),
             ditherScale := f32 (floatLit 4 / floatLit 8388607), bytesPerSample := 3 }
  else if bits = 32 then
    { c with bitDepth := 32, maxIntValue := floatLit 2147483647,
             minIntValue := floatLit (-2147483648),
             ditherScale := f32 (floatLit 4 / floatLit 2147483647), bytesPerSample := 4 }
  else
    { c with bitDepth := 24, maxIntValue := floatLit 8388607,
             minIntValue := floatLit (-8388608),
             ditherScale := f32 (floatLit 4 / floatLit 8388607), bytesPerSample := 3 }

/-- The configuration call of `AudioConverter` taking `(rate, channels, bits)`: the
three setters in a row. -/
def initializeConverter (c : AudioConverter) (rate channels bits : Nat) : AudioConverter :=
  ((c.setSampleRate rate).setChannelCount channels).setBitDepth (bits % 65536)

/-- The `Clip` step of `AudioConverter::floatToInt`: the value of `dithered` after
the `if`/`else if` on `maxIntValue` and `minIntValue`. -/
def clipSample (c : AudioConverter) (dithered : ℚ) : ℚ :=
  if dithered > c.maxIntValue then c.maxIntValue
  else if dithered < c.minIntValue then c.minIntValue
  else dithered

/-- The `switch (bitDepth)` of `AudioConverter::floatToInt` that writes `quantized` to
`dest`: the bytes written, none for a depth the `switch` has no case for. The bytes
are taken from the two's-complement image `w` of `quantized`, on which the
arithmetic shift and the mask of the source read the same bits. -/
def sampleToBytes (bitDepth : Nat) (quantized : Int) : List Nat :=
  let w := toUnsigned 32 quantized
  if bitDepth = 16 then [(w >>> 8) &&& 0xFF, w &&& 0xFF]
  else if bitDepth = 24 then [(w >>> 16) &&& 0xFF, (w >>> 8) &&& 0xFF, w &&& 0xFF]
  else if bitDepth = 32 then
    [(w >>> 24) &&& 0xFF, (w >>> 16) &&& 0xFF, (w >>> 8) &&& 0xFF, w &&& 0xFF]
  else []

/-- The body of the inner loop of `AudioConverter::floatToInt` for one sample: the
input `sample`, the dither state `dither` of its channel and the draw `u` that
`dist(gen)` returns (a value of [-0.5, 0.5)). The result is the bytes written to
`dest` and the dither state after the update, or `none` when the cast to `int32_t`
is undefined. -/
def floatToIntSample (c : AudioConverter) (dither : DitherState) (sample u : ℚ) :
    Option (List Nat × DitherState) :=
  let scaled0 := f32 (sample * c.maxIntValue)
  let scaled := f32 (scaled0 + f32 (f32 (dither.error - dither.errorPrev1) + dither.errorPrev2))
  let random := f32 (u * c.ditherScale)
  let dithered0 := f32 (f32 (scaled + floatLit (1 / 2)) + f32 (random - dither.random))
  let dithered := clipSample c dithered0
  match floatToInt32 dithered with
  | none => none
  | some quantized =>
    some (sampleToBytes c.bitDepth quantized,
      { random := random, errorPrev2 := dither.errorPrev1, errorPrev1 := dither.error,
        error := f32 (scaled - f32 quantized) })

/-- The loop nest of `AudioConverter::floatToInt` from the linear sample index `i`
on, over the samples still to encode. The sample at index `i` belongs to channel
`i % channelCount`; `draws i` is the value `dist(gen)` returns for it. The bytes of
the samples follow each other in `output`. -/
def floatToIntFrom (c : AudioConverter) (draws : Nat → ℚ) :
    Nat → List DitherState → List ℚ → Option (List Nat × List DitherState)
  | _, states, [] => some ([], states)
  | i, states, x :: xs =>
    match states[i % c.channelCount]? with
    | none => none
    | some d =>
      match floatToIntSample c d x (draws i) with
      | none => none
      | some (dest, d') =>
        match floatToIntFrom c draws (i + 1) (states.set (i % c.channelCount) d') xs with
        | none => none
        | some (rest, states') => some (dest ++ rest, states')

/-- The method `AudioConverter::floatToInt(input, output, frameCount)`: the bytes
written to `output` and the converter after the call; `none` when the loop reads
past `input` or a cast is undefined. -/
def AudioConverter.floatToInt (c : AudioConverter) (draws : Nat → ℚ) (input : List ℚ)
    (frameCount : Nat) : Option (List Nat × AudioConverter) :=
  if input.length < frameCount * c.channelCount then none
  else
    match floatToIntFrom c draws 0 c.ditherStates (input.take (frameCount * c.channelCount)) with
    | none => none
    | some (output, states) => some (output, { c with ditherStates := states })

/-- The method `AudioConverter::processFloatToInt(input, output)`: `output` and the
converter after the call; `none` when `input.size() / channelCount` divides by zero
or `floatToInt` is undefined. -/
def AudioConverter.processFloatToInt (c : AudioConverter) (draws : Nat → ℚ) (input : List ℚ) :
    Option (List Nat × AudioConverter) :=
  if input.isEmpty then some ([], c)
  else if c.channelCount = 0 then none
  else c.floatToInt draws input (input.length / c.channelCount)

/-- The integer `value` that the `switch` of `AudioConverter::intToFloat` rebuilds
from the bytes at `src`. -/
def intToFloatValue (bitDepth : Nat) (src : List Nat) : Int :=
  if bitDepth = 16 then
    toInt16 (((src.getD 0 0 <<< 8) ||| src.getD 1 0 : Nat) : Int)
  else if bitDepth = 24 then
    if src.getD 0 0 &&& 0x80 ≠ 0 then
      toInt32 ((0xFF000000 ||| (src.getD 0 0 <<< 16) ||| (src.getD 1 0 <<< 8)
        ||| src.getD 2 0 : Nat) : Int)
    else
      (((src.getD 0 0 <<< 16) ||| (src.getD 1 0 <<< 8) ||| src.getD 2 0 : Nat) : Int)
  else if bitDepth = 32 then
    toInt32 (((src.getD 0 0 <<< 24) ||| (src.getD 1 0 <<< 16) ||| (src.getD 2 0 <<< 8)
      ||| src.getD 3 0 : Nat) : Int)
  else 0

/-- The body of the inner loop of `AudioConverter::intToFloat` for the sample whose
bytes start `src`: rebuild the integer, divide, clip. -/
def intToFloatSample (c : AudioConverter) (src : List Nat) : ℚ :=
  let value := intToFloatValue c.bitDepth src
  let sample := f32 (f32 value / c.maxIntValue)
  if sample > floatLit 1 then floatLit 1
  else if sample < floatLit (-1) then floatLit (-1)
  else sample

/-- The method `AudioConverter::intToFloat(input, output, frameCount)`: the samples
written to `output`; `none` when the loop reads past `input`. -/
def AudioConverter.intToFloat (c : AudioConverter) (input : List Nat) (frameCount : Nat) :
    Option (List ℚ) :=
  if input.length < frameCount * c.channelCount * c.bytesPerSample then none
  else
    some ((List.range (frameCount * c.channelCount)).map fun i =>
      intToFloatSample c (input.drop (i * c.bytesPerSample)))

/-- The unsigned value of the bytes `bytes` read big-endian after the more
significant part `acc`. -/
def bigEndianFrom (acc : Nat) : List Nat → Nat
  | [] => acc
  | b :: rest => bigEndianFrom (acc * 256 + b) rest

/-- The unsigned value of a list of bytes read big-endian. -/
def bigEndian (bytes : List Nat) : Nat := bigEndianFrom 0 bytes

/-- The two's-complement value of the `n` big-endian bytes at the head of `src`. -/
def twosComplementBE (n : Nat) (src : List Nat) : Int :=
  if bigEndian (src.take n) < 2 ^ (8 * n - 1) then (bigEndian (src.take n) : Int)
  else (bigEndian (src.take n) : Int) - 2 ^ (8 * n)

/-- Clamp to [-1, +1]. -/
def clampUnit (x : ℚ) : ℚ := max (-1) (min 1 x)

/-! ## Bridge -/

/-- The binary32 image of a binary32 value `x`: sign bit, biased exponent, fraction.
This is the 32-bit word whose bytes `createPacket` copies for the sample `x`. -/
def f32Bits (x : ℚ) : Nat :=
  let sign : Nat := if x < 0 then 2 ^ 31 else 0
  let e := f32Exponent x
  let m : Nat := ⌊|x| / 2 ^ (e - 23)⌋.toNat
  if m < 2 ^ 23 then sign + m
  else sign + (e + 127).toNat * 2 ^ 23 + (m - 2 ^ 23)

/-- The conversion of a `float` to `size_t`: truncation, undefined (`none`) when the
truncated value is no `size_t`. -/
def floatToSize (x : ℚ) : Option Nat :=
  if -1 < x ∧ x < 2 ^ SIZE_BITS then some ⌊max x 0⌋.toNat else none

/-- The conversion of a `float` to `uint32_t`: truncation, undefined (`none`) when
the truncated value is no `uint32_t`. -/
def floatToUInt32 (x : ℚ) : Option Nat :=
  if -1 < x ∧ x < 2 ^ 32 then some ⌊max x 0⌋.toNat else none

/-- The enum `AES67Bridge::Mode`. -/
inductive Mode where
  | Receive
  | Transmit
  | Inactive
  deriving DecidableEq, Repr

/-- The member variables of `AES67Bridge` that the audio callback, the two worker
loops and the setters read or write, with the `float sampleRate` it inherits from
`JackClient`. The status metric `bufferLevel`, which nothing reads back, and the
network and PTP objects are left out. -/
structure AES67Bridge where
  mode : Mode
  bitDepth : Int
  packetTime : Int
  sampleRate : ℚ
  jackBuffer : List ℚ
  networkBuffer : List Nat
  bufferSize : Nat
  threadRunning : Bool
  networkActive : Bool
  rtp : RTPHandler
  converter : AudioConverter
  deriving DecidableEq, Repr

/-- The bridge the constructor `AES67Bridge::AES67Bridge` builds, for the random draws
of its RTP handler and the sample rate `sr` the JACK setup stores. -/
def AES67Bridge.init (ssrc0 seq0 : Nat) (sr : ℚ) : AES67Bridge :=
  { mode := Mode.Inactive, bitDepth := 24, packetTime := 1000, sampleRate := sr,
    jackBuffer := [], networkBuffer := [], bufferSize := 0, threadRunning := false,
    networkActive := false, rtp := RTPHandler.init ssrc0 seq0,
    converter := AudioConverter.init }

/-- The method `AES67Bridge::setBitDepth(bits)`. -/
def AES67Bridge.setBitDepth (b : AES67Bridge) (bits : Int) : AES67Bridge :=
  if b.networkActive then b
  else if bits ≠ 16 ∧ bits ≠ 24 ∧ bits ≠ 32 then b
  else { b with bitDepth := bits, converter := b.converter.setBitDepth (bits % 65536).toNat }

/-- The method `AES67Bridge::calculatePacketSamples`: `packetTime * sampleRate` and
the division by `1000000` are `float` operations, and the quotient is converted to
`size_t`. -/
def AES67Bridge.calculatePacketSamples (b : AES67Bridge) : Option Nat :=
  floatToSize (f32 (f32 (f32 (b.packetTime : ℚ) * b.sampleRate) / f32 1000000))

/-- The method `AES67Bridge::resizeBuffers(numFrames)`; the two `reserve` calls change
no content. -/
def AES67Bridge.resizeBuffers (b : AES67Bridge) (numFrames : Nat) : AES67Bridge :=
  { b with bufferSize := numFrames }

/-- The samples `source[0][0][i], source[0][1][i]` for `i < numFrames`, interleaved, as
the transmit branch of `process` pushes them. -/
def interleave : List ℚ → List ℚ → List ℚ
  | x :: xs, y :: ys => x :: y :: interleave xs ys
  | _, _ => []

/-- The method `AES67Bridge::process(numFrames)`, `numFrames` a `jack_nframes_t`
(32 bits): the bridge after the call and the two output buffers `sink[0][0]` and
`sink[0][1]`, each of `numFrames` samples. The products `numFrames * 2`, `i * 2` and
`i * 2 + 1` are 32-bit. The result is `none` when the call reads past the queue or
past an input buffer. -/
def AES67Bridge.process (b : AES67Bridge) (numFrames : Nat) (source0 source1 : List ℚ) :
    Option (AES67Bridge × List ℚ × List ℚ) :=
  if b.mode = Mode.Receive ∧ b.networkActive = true then
    if b.jackBuffer.length < numFrames * 2 % 2 ^ 32 then
      some (b, List.replicate numFrames 0, List.replicate numFrames 0)
    else if ∀ i < numFrames, (i * 2 + 1) % 2 ^ 32 < b.jackBuffer.length
        ∧ i * 2 % 2 ^ 32 < b.jackBuffer.length then
      some ({ b with jackBuffer := b.jackBuffer.drop (numFrames * 2 % 2 ^ 32) },
        (List.range numFrames).map (fun i => b.jackBuffer.getD (i * 2 % 2 ^ 32) 0),
        (List.range numFrames).map (fun i => b.jackBuffer.getD ((i * 2 + 1) % 2 ^ 32) 0))
    else none
  else if source0.length < numFrames ∨ source1.length < numFrames then none
  else if b.mode = Mode.Transmit ∧ b.networkActive = true then
    some ({ b with jackBuffer :=
        b.jackBuffer ++ interleave (source0.take numFrames) (source1.take numFrames) },
      source0.take numFrames, source1.take numFrames)
  else
    some (b, source0.take numFrames, source1.take numFrames)

/-- The critical section of `AES67Bridge::networkReceiveLoop` that adds the decoded
samples `audioBuffer` to the playback queue and trims it. -/
def AES67Bridge.enqueueReceived (b : AES67Bridge) (audioBuffer : List ℚ) : AES67Bridge :=
  let appended := b.jackBuffer ++ audioBuffer
  { b with jackBuffer :=
      if appended.length > b.bufferSize * 2 % 2 ^ SIZE_BITS then
        appended.take (b.bufferSize * 2 % 2 ^ SIZE_BITS)
      else appended }

/-- One pass of the `while` loop of `AES67Bridge::networkTransmitLoop`, for the
`packetSamples` the loop computed at its start and the draws `draws` that the
conversion of this pass takes from the random generator: the bridge after the pass
and the packet handed to `sendPacket`, if any. The result is `none` when
`sampleRate` does not convert to `uint32_t` or when `processFloatToInt` or
`createPacket` is undefined. -/
def AES67Bridge.transmitPass (draws : Nat → ℚ) (packetSamples : Nat) (b : AES67Bridge) :
    Option (AES67Bridge × Option (List Nat)) :=
  if b.jackBuffer.length ≥ packetSamples * 2 % 2 ^ SIZE_BITS then
    let audioBuffer := b.jackBuffer.take (packetSamples * 2 % 2 ^ SIZE_BITS)
    let b1 := { b with jackBuffer := b.jackBuffer.drop (packetSamples * 2 % 2 ^ SIZE_BITS) }
    match floatToUInt32 b.sampleRate with
    | none => none
    | some rate =>
      let audio : AudioData :=
        { samples := audioBuffer.map f32Bits, channelCount := 2, sampleRate := rate,
          frameCount := packetSamples % 2 ^ 32 }
      match b1.converter.processFloatToInt draws audioBuffer with
      | none => none
      | some (networkBuffer, converter) =>
        let b2 := { b1 with networkBuffer := networkBuffer, converter := converter }
        match createPacket b2.rtp audio [] with
        | none => none
        | some (true, packet, rtp1) => some ({ b2 with rtp := rtp1 }, some packet)
        | some (false, _, rtp1) => some ({ b2 with rtp := rtp1 }, none)
  else
    some (b, none)

/-- A run of `n` passes of the transmit loop with no other thread in between: the
bridge after the last pass and the packets sent, in order. Pass `k` of the run
takes the draws `draws k`. -/
def AES67Bridge.transmitRun (draws : Nat → Nat → ℚ) (packetSamples : Nat) :
    Nat → AES67Bridge → Option (AES67Bridge × List (List Nat))
  | 0, b => some (b, [])
  | n + 1, b =>
    match b.transmitPass (draws 0) packetSamples with
    | none => none
    | some (b1, sent) =>
      match AES67Bridge.transmitRun (fun k => draws (k + 1)) packetSamples n b1 with
      | none => none
      | some (b2, packets) => some (b2, sent.toList ++ packets)

/-- A step of one of the two threads that touch the sample queue under
`bufferMutex`: a call of the audio callback `process(numFrames)` with its two input
buffers, or the critical section of the receive worker for the decoded samples of
one packet. -/
inductive BridgeStep where
  | callback (numFrames : Nat) (source0 source1 : List ℚ)
  | received (audioBuffer : List ℚ)

/-- The bridge after one step; `none` when the callback is undefined. -/
def AES67Bridge.step (b : AES67Bridge) : BridgeStep → Option AES67Bridge
  | BridgeStep.callback numFrames source0 source1 =>
    (b.process numFrames source0 source1).map Prod.fst
  | BridgeStep.received audioBuffer => some (b.enqueueReceived audioBuffer)

/-- The bridge after a sequence of steps, in the order the mutex serialises them. -/
def AES67Bridge.steps (b : AES67Bridge) : List BridgeStep → Option AES67Bridge
  | [] => some b
  | s :: rest =>
    match b.step s with
    | none => none
    | some b1 => AES67Bridge.steps b1 rest

/-! ## Concrete sessions and inputs -/

/-- A sender session on the brink of both wraps: sequence number 65535 and
timestamp 2^32 - 1, SSRC 0xDEADBEEF. -/
def wrapSession : RTPHandler :=
  { RTPHandler.init 0xDEADBEEF 65535 with timestamp := 4294967295 }

/-- One stereo frame of the sample 0.5 (binary32 image 0x3F000000). -/
def halfFrame : AudioData :=
  { samples := [0x3F000000, 0x3F000000], channelCount := 2, sampleRate := 48000,
    frameCount := 1 }

/-- The packet `createPacket` builds from `wrapSession` and `halfFrame`. -/
def wrapPacket : List Nat :=
  [0x80, 96, 0xFF, 0xFF, 0xFF, 0xFF, 0xFF, 0xFF, 0xDE, 0xAD, 0xBE, 0xEF,
   0, 0, 0, 0x3F, 0, 0, 0, 0x3F]

/-- The session `createPacket` leaves behind after `wrapPacket`: both counters have
wrapped to 0. -/
def wrapSessionNext : RTPHandler :=
  { wrapSession with sequenceNumber := 0, timestamp := 0, packetCount := 1 }

/-- An AudioData with no samples. -/
def emptyAudio : AudioData :=
  { samples := [], channelCount := 2, sampleRate := 48000, frameCount := 48 }

/-- The raw memory of the two samples of `halfFrame`. -/
def halfPayload : List Nat := [0, 0, 0, 0x3F, 0, 0, 0, 0x3F]

/-- Three transmits of `halfFrame` from `wrapSession`: the packets and the session
after the third. -/
def wrapRun : List (List Nat) × RTPHandler :=
  ([wrapPacket, rtpPacket 96 0 0 0xDEADBEEF halfPayload, rtpPacket 96 1 1 0xDEADBEEF halfPayload],
   { wrapSession with sequenceNumber := 2, timestamp := 2, packetCount := 3 })

/-- The payload the L24 encoding of the two samples 0.5 consists of
(q = 4194303 = 0x3FFFFF per sample). -/
def halfPayloadL24 : List Nat := [0x3F, 0xFF, 0xFF, 0x3F, 0xFF, 0xFF]

/-- A receiver as `AES67Bridge::startNetworking` configures it: 48 kHz, 2 channels,
payload type 96. -/
def recvHandler : RTPHandler := initializeRTP (RTPHandler.init 1 0) 48000 2 96

/-- A header-only packet: 12 bytes, version 2. -/
def headerOnlyPacket : List Nat := rtpPacket 96 42 0 0xDEADBEEF []

/-- A packet with a 12-byte payload: three stereo frames of 16-bit samples, or two
stereo frames of 24-bit samples. -/
def twelveBytePacket : List Nat := rtpPacket 96 42 0 0xDEADBEEF (List.replicate 12 0)

/-- A second sender session: another SSRC and another timestamp than `wrapSession`,
the same sequence number. -/
def otherSession : RTPHandler :=
  { RTPHandler.init 0x22222222 65535 with timestamp := 480 }

/-- One stereo frame of the sample -0.5 (binary32 image 0xBF000000). -/
def minusHalfFrame : AudioData :=
  { samples := [0xBF000000, 0xBF000000], channelCount := 2, sampleRate := 48000,
    frameCount := 1 }

/-- The packet `createPacket` builds from `otherSession` and `minusHalfFrame`. -/
def otherPacket : List Nat :=
  [0x80, 96, 0xFF, 0xFF, 0, 0, 0x01, 0xE0, 0x22, 0x22, 0x22, 0x22,
   0, 0, 0, 0xBF, 0, 0, 0, 0xBF]

/-- The AudioData `parsePacket` fills in for `twelveBytePacket` at 2 channels. -/
def twelveByteAudio : AudioData :=
  { samples := [0, 0, 0, 0], channelCount := 2, sampleRate := 48000, frameCount := 2 }

/-- The receiver after it has parsed a packet of sequence number 42. -/
def recvHandlerNext : RTPHandler :=
  { recvHandler with outOfOrderPackets := 1, expectedSequence := 43, packetCount := 1 }

/-- What `parsePacket` hands back for `wrapPacket`, and equally for `otherPacket`:
one stereo frame of zeroed samples, and the receiver expecting sequence number 0. -/
def zeroFrame : AudioData :=
  { samples := [0, 0], channelCount := 2, sampleRate := 48000, frameCount := 1 }

/-- The receiver after it has parsed a packet of sequence number 65535. -/
def recvHandlerWrapped : RTPHandler :=
  { recvHandler with outOfOrderPackets := 1, expectedSequence := 0, packetCount := 1 }

/-- A received packet of sequence number `seq` with a single-sample payload (one
24-bit sample). -/
def seqPacket (seq : Nat) : List Nat := rtpPacket 96 seq 0 0xDEADBEEF [0x3F, 0xFF, 0xFF]

/-- A freshly constructed receiver whose `expectedSequence` is `seq`. -/
def freshReceiver (seq : Nat) : RTPHandler := RTPHandler.init 1 seq

/-- The signed 16-bit difference `seqDiff` that `addPacketToBuffer` computes for the
packet `data` at handler `h`. -/
def seqDiffOf (h : RTPHandler) (data : List Nat) : Int :=
  toInt16 ((ntohs data 2 : Int) - (h.expectedSequence : Int))

/-- The number of filled slots of a reorder buffer. -/
def validCount (buf : List PacketEntry) : Nat := buf.countP fun e => e.valid

/-- The receiver `freshReceiver 100` after the packet of sequence number 60. -/
def receiverAfter60 : RTPHandler :=
  { freshReceiver 100 with
    expectedSequence := 61, droppedPackets := 1,
    packetBuffer := (List.replicate 32 emptyEntry).set 28
      { data := seqPacket 60, sequenceNumber := 60, valid := false } }

/-- The slot invariant of the reorder buffer: a filled slot at index `i` holds a
sequence number whose residue modulo `MAX_BUFFER_PACKETS` is `i`. -/
def slotInvariant (buf : List PacketEntry) : Prop :=
  ∀ (i : Nat) (e : PacketEntry), buf[i]? = some e → e.valid = true →
    e.sequenceNumber % MAX_BUFFER_PACKETS = i

/-- A 16-bit codec for one channel: the converter after `initialize(48000, 1, 16)`. -/
def monoCodec16 : AudioConverter := initializeConverter AudioConverter.init 48000 1 16

/-- A bridge in receive mode with networking active: 48 kHz, 1 ms packets (N = 48),
the queue sized for 20 packets and empty. -/
def receiveBridge : AES67Bridge :=
  { AES67Bridge.init 1 0 48000 with
    mode := Mode.Receive, networkActive := true, threadRunning := true, bufferSize := 960 }

/-- A bridge in transmit mode with networking active: 48 kHz, 1 ms packets (N = 48),
the queue sized for 20 packets and empty. -/
def transmitBridge : AES67Bridge :=
  { AES67Bridge.init 1 0 48000 with
    mode := Mode.Transmit, networkActive := true, threadRunning := true, bufferSize := 960 }

/-- A receive bridge with `bufferSize = 2` whose queue holds the samples 1, 2, 3. -/
def smallReceiveBridge : AES67Bridge :=
  { receiveBridge with bufferSize := 2, jackBuffer := [1, 2, 3] }

/-- The converter is configured so that every call of `floatToInt` is defined: at
least one channel, one dither state for each channel, and clip limits that are
`int32_t` values. The 16-bit and the 24-bit parameters are such limits; the 32-bit
ones are not, their upper limit `2147483647.0f` being 2^31. -/
def AudioConverter.Ready (c : AudioConverter) : Prop :=
  0 < c.channelCount ∧ c.ditherStates.length = c.channelCount ∧
  -2147483648 ≤ c.minIntValue ∧ c.minIntValue ≤ c.maxIntValue ∧
  c.maxIntValue ≤ 2147483647

/-- The transmit bridge with the floats `queue` in its sample queue. -/
def transmitBridgeWith (queue : List ℚ) : AES67Bridge :=
  { transmitBridge with jackBuffer := queue }

/-! ## Bridge setters -/

/-- The method `AES67Bridge::setMode(transmit)`: the returned status and the bridge
after the call. -/
def AES67Bridge.setMode (b : AES67Bridge) (transmit : Bool) : Bool × AES67Bridge :=
  if b.networkActive then (false, b)
  else (true, { b with mode := if transmit then Mode.Transmit else Mode.Receive })

/-- The method `AES67Bridge::setPacketTime(microseconds)`; `none` when the conversion
in `calculatePacketSamples` is undefined. -/
def AES67Bridge.setPacketTime (b : AES67Bridge) (microseconds : Int) : Option AES67Bridge :=
  if b.networkActive then some b
  else if microseconds ≠ 125 ∧ microseconds ≠ 250 ∧ microseconds ≠ 333 ∧
      microseconds ≠ 1000 ∧ microseconds ≠ 4000 then some b
  else
    let b1 := { b with packetTime := microseconds }
    match b1.calculatePacketSamples with
    | none => none
    | some packetSamples => some (b1.resizeBuffers (packetSamples * 20 % 2 ^ SIZE_BITS))

/-- The method `AES67Bridge::setNetworkAddress(address, port)`: the returned status and
the bridge after the call. The method stores neither argument. -/
def AES67Bridge.setNetworkAddress (b : AES67Bridge) (_address : String) (_port : Int) :
    Bool × AES67Bridge :=
  if b.networkActive then (false, b) else (true, b)

/-- The method `AES67Bridge::setNetworkInterface(interface)`: the returned status and
the bridge after the call. When networking is not active the status is what
`network->setInterface(interface)` returns, here `networkStatus`; that call writes
the `NetworkManager` only. -/
def AES67Bridge.setNetworkInterface (b : AES67Bridge) (_interface : String)
    (networkStatus : Bool) : Bool × AES67Bridge :=
  if b.networkActive then (false, b) else (networkStatus, b)

/-! ## PTP slave -/

/-- The value of `sizeof(PTPHeader)`: the fields end at byte 34 and the `int64_t`
member aligns the struct to 8 bytes. The fields lie at the offsets of the PTPv2 wire
header: `messageType` 0, `versionPTP` 1, `domainNumber` 4, `flags` 6,
`sourcePortId` 20, `sequenceId` 30. -/
def PTP_HEADER_SIZE : Nat := 40

/-- The value of `sizeof(PTPTimestamp)`: six bytes, two bytes of padding and a
`uint32_t`. -/
def PTP_TIMESTAMP_SIZE : Nat := 12

/-- The member variables of `PTPSync` that the two receive loops and
`sendDelayRequest` read or write, and `t3`, the member that `sendDelayRequest`
assigns as `this->t3` (the class declaration in PTPSync.h does not list it). The
string `masterClockId` is the list of its character codes. -/
structure PTPSync where
  sampleRate : Nat
  active : Bool
  synchronized : Bool
  masterClockId : List Nat
  clockOffset : Int
  masterTimestamp : Nat
  localTimestamp : Nat
  syncSequence : Nat
  delaySequence : Nat
  t3 : Nat
  deriving DecidableEq, Repr

/-- The local variables `t1`, `t2`, `t3`, `t4` of `PTPSync::generalThreadFunc`, which
live across the iterations of its loop. -/
structure DelayLocals where
  t1 : Nat
  t2 : Nat
  t3 : Nat
  t4 : Nat
  deriving DecidableEq, Repr

/-- The state the constructor `PTPSync::PTPSync` builds; `t3`, which it does not
initialise, is taken as 0. -/
def PTPSync.init : PTPSync :=
  { sampleRate := 48000, active := false, synchronized := false, masterClockId := [],
    clockOffset := 0, masterTimestamp := 0, localTimestamp := 0, syncSequence := 0,
    delaySequence := 0, t3 := 0 }

/-- The locals of `generalThreadFunc` as it enters its loop. -/
def DelayLocals.init : DelayLocals := { t1 := 0, t2 := 0, t3 := 0, t4 := 0 }

/-- The first loop of `PTPSync::ptpToSamples`: the 48-bit seconds field, accumulated
in a `uint64_t`. -/
def ptpSeconds (timestamp : List Nat) : Nat :=
  (List.range 6).foldl
    (fun seconds i => ((seconds <<< 8) % 2 ^ 64) ||| timestamp.getD i 0) 0

/-- The second loop of `PTPSync::ptpToSamples`: the 32-bit nanoseconds field,
accumulated in a `uint32_t`. -/
def ptpNanoseconds (timestamp : List Nat) : Nat :=
  (List.range 4).foldl
    (fun nanoseconds i => (((nanoseconds <<< 8) % 2 ^ 32) ||| timestamp.getD (6 + i) 0)
      % 2 ^ 32) 0

/-- The method `PTPSync::ptpToSamples(timestamp)` at sample rate `sampleRate`: the
product and the sum are `uint64_t` operations. -/
def ptpToSamples (sampleRate : Nat) (timestamp : List Nat) : Nat :=
  let samples := ptpSeconds timestamp * sampleRate % 2 ^ 64
  (samples + ptpNanoseconds timestamp * sampleRate % 2 ^ 64 / 1000000000) % 2 ^ 64

/-- The expression `count() * sampleRate / 1000000` that turns a reading `micros` of
the steady clock (microseconds, an `int64_t`) into samples: the product is a signed
64-bit product, undefined (`none`) when it overflows. -/
def clockSamples (micros sampleRate : Nat) : Option Nat :=
  if micros * sampleRate < 2 ^ 63 then some (micros * sampleRate / 1000000) else none

/-- The character code that `%02X` prints for the hexadecimal digit `d`. -/
def hexDigit (d : Nat) : Nat := if d < 10 then 48 + d else 55 + d

/-- The two characters that `%02X` prints for the byte `b`. -/
def hexByte (b : Nat) : List Nat := [hexDigit (b / 16 % 16), hexDigit (b % 16)]

/-- The string `snprintf` writes to `clockId`: the first eight bytes of
`sourcePortId` in the format `%02X-%02X-%02X-%02X-%02X-%02X-%02X-%02X`. -/
def formatClockId (msg : List Nat) : List Nat :=
  hexByte (msg.getD 20 0) ++ [45] ++ hexByte (msg.getD 21 0) ++ [45]
    ++ hexByte (msg.getD 22 0) ++ [45] ++ hexByte (msg.getD 23 0) ++ [45]
    ++ hexByte (msg.getD 24 0) ++ [45] ++ hexByte (msg.getD 25 0) ++ [45]
    ++ hexByte (msg.getD 26 0) ++ [45] ++ hexByte (msg.getD 27 0)

/-- The header that `sendDelayRequest` fills in for the sequence number `seq`: 40
bytes, all zero but `messageType = 1`, `versionPTP = 2`,
`messageLength = htons(52)` and `sequenceId = htons(seq)`. The 12 bytes that follow
it in the packet are never written. -/
def delayRequestHeader (seq : Nat) : List Nat :=
  [1, 2] ++ htons 52 ++ List.replicate 26 0 ++ htons seq ++ List.replicate 8 0

/-- The method `PTPSync::sendDelayRequest`: the state after the call and the
packets passed to a `send` that succeeded. `sendOk` tells whether `send` succeeds and
`sendNow` is the reading of the steady clock after it. -/
def PTPSync.sendDelayRequest (p : PTPSync) (sendOk : Bool) (sendNow : Nat) :
    Option (PTPSync × List (List Nat)) :=
  if !p.synchronized then some (p, [])
  else
    let p1 := { p with delaySequence := (p.delaySequence + 1) % 65536 }
    if !sendOk then some (p1, [])
    else
      match clockSamples sendNow p1.sampleRate with
      | none => none
      | some t3 => some ({ p1 with t3 := t3 }, [delayRequestHeader p1.delaySequence])

/-- The tests every received PTP message passes before its type is looked at: a
length of at least `sizeof(PTPHeader)`, version 2 and domain 0. -/
def ptpAccepted (msg : List Nat) : Bool :=
  decide (PTP_HEADER_SIZE ≤ msg.length) && (msg.getD 1 0 &&& 0x0F == 2) && (msg.getD 4 0 == 0)

/-- One iteration of the loop of `PTPSync::eventThreadFunc` for the received datagram
`msg` (an empty `msg` stands for `len <= 0`): the state after it and the packets
sent. `now` is the reading of the steady clock taken for `localTimestamp`. -/
def PTPSync.eventStep (p : PTPSync) (msg : List Nat) (now : Nat) (sendOk : Bool)
    (sendNow : Nat) : Option (PTPSync × List (List Nat)) :=
  if !ptpAccepted msg then some (p, [])
  else if msg.getD 0 0 &&& 0x0F == 0 then
    let clockId := formatClockId msg
    let p1 := if p.masterClockId != clockId then
        { p with masterClockId := clockId, synchronized := false } else p
    let twoStep := ntohs msg 6 &&& 0x0200 != 0
    if twoStep then
      some ({ p1 with syncSequence := ntohs msg 30 }, [])
    else if msg.length ≥ PTP_HEADER_SIZE + PTP_TIMESTAMP_SIZE then
      let p2 := { p1 with masterTimestamp := ptpToSamples p1.sampleRate (msg.drop PTP_HEADER_SIZE) }
      match clockSamples now p2.sampleRate with
      | none => none
      | some local0 =>
        match ({ p2 with localTimestamp := local0 }).sendDelayRequest sendOk sendNow with
        | none => none
        | some (p3, sent) => some ({ p3 with synchronized := true }, sent)
    else some (p1, [])
  else some (p, [])

/-- Conversion of an unsigned 64-bit value to `int64_t`. -/
def toInt64 (x : Nat) : Int :=
  if x % 18446744073709551616 < 9223372036854775808 then (x % 18446744073709551616 : Nat)
  else ((x % 18446744073709551616 : Nat) : Int) - 18446744073709551616

/-- The result of a signed 64-bit operation whose exact value is `x`: undefined
(`none`) when `x` is no `int64_t`. -/
def int64Result (x : Int) : Option Int :=
  if -9223372036854775808 ≤ x ∧ x ≤ 9223372036854775807 then some x else none

/-- The expression `((int64_t)t2 - (int64_t)t1 + ((int64_t)t4 - (int64_t)t3)) / 2` of
the Delay-Resp branch: signed 64-bit arithmetic, the division truncating toward
zero. -/
def delayOffset (t1 t2 t3 t4 : Nat) : Option Int :=
  match int64Result (toInt64 t2 - toInt64 t1), int64Result (toInt64 t4 - toInt64 t3) with
  | some a, some b =>
    match int64Result (a + b) with
    | some s => some (Int.tdiv s 2)
    | none => none
  | _, _ => none

/-- One iteration of the loop of `PTPSync::generalThreadFunc` for the received
datagram `msg`, with the locals `loc` of the function: the state and the locals
after it and the packets sent. -/
def PTPSync.generalStep (p : PTPSync) (loc : DelayLocals) (msg : List Nat) (now : Nat)
    (sendOk : Bool) (sendNow : Nat) : Option (PTPSync × DelayLocals × List (List Nat)) :=
  if !ptpAccepted msg then some (p, loc, [])
  else if msg.getD 0 0 &&& 0x0F == 8 then
    if ntohs msg 30 == p.syncSequence then
      if msg.length ≥ PTP_HEADER_SIZE + PTP_TIMESTAMP_SIZE then
        let t1 := ptpToSamples p.sampleRate (msg.drop PTP_HEADER_SIZE)
        match clockSamples now p.sampleRate with
        | none => none
        | some t2 =>
          let p1 := { p with masterTimestamp := t1, localTimestamp := t2 }
          match p1.sendDelayRequest sendOk sendNow with
          | none => none
          | some (p2, sent) =>
            some ({ p2 with synchronized := true }, { loc with t1 := t1, t2 := t2 }, sent)
      else some (p, loc, [])
    else some (p, loc, [])
  else if msg.getD 0 0 &&& 0x0F == 9 then
    if ntohs msg 30 == p.delaySequence then
      if msg.length ≥ PTP_HEADER_SIZE + PTP_TIMESTAMP_SIZE then
        let t4 := ptpToSamples p.sampleRate (msg.drop PTP_HEADER_SIZE)
        match delayOffset loc.t1 loc.t2 loc.t3 t4 with
        | none => none
        | some offset => some ({ p with clockOffset := offset }, { loc with t4 := t4 }, [])
      else some (p, loc, [])
    else some (p, loc, [])
  else some (p, loc, [])

/-- A PTP message as the two loops read it: message type `mtype`, version 2, domain
0, the flags `flags`, the ten bytes `portId` of the source port identity, the
sequence number `seq`, and `body` from byte `sizeof(PTPHeader)` on. -/
def ptpMessage (mtype flags : Nat) (portId : List Nat) (seq : Nat) (body : List Nat) :
    List Nat :=
  [mtype, 2, 0, 0, 0, 0] ++ htons flags ++ List.replicate 12 0 ++ portId.take 10
    ++ List.replicate (10 - portId.length) 0 ++ htons seq ++ List.replicate 8 0 ++ body

/-- The twelve bytes of a `PTPTimestamp` read by `ptpToSamples`: `seconds` in six
bytes and `nanoseconds` in four, most significant first, then two bytes that are
not read. -/
def ptpTimestamp (seconds nanoseconds : Nat) : List Nat :=
  [seconds / 1099511627776 % 256, seconds / 4294967296 % 256] ++ htonl seconds
    ++ htonl nanoseconds ++ [0, 0]

/-- A step of one of the two PTP receive loops: an iteration of `eventThreadFunc` or
of `generalThreadFunc` for a received datagram, with the clock reading at receipt,
the outcome of `send` and the clock reading after it. -/
inductive PTPEvent where
  | event (msg : List Nat) (now : Nat) (sendOk : Bool) (sendNow : Nat)
  | general (msg : List Nat) (now : Nat) (sendOk : Bool) (sendNow : Nat)

/-- A run of the two loops over the steps `events`, in the order they happen: the
state, the locals of `generalThreadFunc` and the packets sent, in order. -/
def ptpRun (p : PTPSync) (loc : DelayLocals) :
    List PTPEvent → Option (PTPSync × DelayLocals × List (List Nat))
  | [] => some (p, loc, [])
  | PTPEvent.event msg now sendOk sendNow :: rest =>
    match p.eventStep msg now sendOk sendNow with
    | none => none
    | some (p1, sent) =>
      match ptpRun p1 loc rest with
      | none => none
      | some (p2, loc2, sent2) => some (p2, loc2, sent ++ sent2)
  | PTPEvent.general msg now sendOk sendNow :: rest =>
    match p.generalStep loc msg now sendOk sendNow with
    | none => none
    | some (p1, loc1, sent) =>
      match ptpRun p1 loc1 rest with
      | none => none
      | some (p2, loc2, sent2) => some (p2, loc2, sent ++ sent2)

/-- The PTP slave once `initialize` has started its threads, at 48 kHz. -/
def ptpStarted : PTPSync := { PTPSync.init with active := true }

/-- The source port identity of a grandmaster: clock identity
00-1D-C1-FF-FE-00-00-01, port 1. -/
def grandmasterPortId : List Nat := [0x00, 0x1D, 0xC1, 0xFF, 0xFE, 0x00, 0x00, 0x01, 0x00, 0x01]

/-- A two-step Sync of the grandmaster with sequence number `seq`. -/
def syncTwoStep (seq : Nat) : List Nat :=
  ptpMessage 0 0x0200 grandmasterPortId seq (ptpTimestamp 0 0)

/-- A one-step Sync of the grandmaster with sequence number `seq` and the timestamp
`seconds`, `nanoseconds`. -/
def syncOneStep (seq seconds nanoseconds : Nat) : List Nat :=
  ptpMessage 0 0 grandmasterPortId seq (ptpTimestamp seconds nanoseconds)

/-- A Follow-Up of the grandmaster. -/
def followUp (seq seconds nanoseconds : Nat) : List Nat :=
  ptpMessage 8 0 grandmasterPortId seq (ptpTimestamp seconds nanoseconds)

/-- A Delay-Resp of the grandmaster. -/
def delayResp (seq seconds nanoseconds : Nat) : List Nat :=
  ptpMessage 9 0 grandmasterPortId seq (ptpTimestamp seconds nanoseconds)

/-- Two exchanges with a two-step grandmaster, up to the Delay-Request of the second:
Sync 7 and its Follow-Up (received at 50 ms), then Sync 8 and its Follow-Up with
timestamp 0 (received at 100 ms, t2 = 4800 samples), after which the Delay-Request
goes out and the clock reads 200 ms (9600 samples). -/
def twoStepExchange : List PTPEvent :=
  [PTPEvent.event (syncTwoStep 7) 40000 true 40000,
   PTPEvent.general (followUp 7 0 0) 50000 true 60000,
   PTPEvent.event (syncTwoStep 8) 90000 true 90000,
   PTPEvent.general (followUp 8 0 0) 100000 true 200000]

/-! ## Receive worker -/

/-- The value of `sizeof(RTPHandler)` on an LP64 target with libstdc++, the offset
that `AES67Bridge::networkReceiveLoop` adds to `packetBuffer.data()`. The member
`std::array<PacketEntry, 32>` alone takes 32 entries of 32 bytes there (a 24-byte
`std::vector`, a `uint16_t` and a `bool`); on an ILP32 target the entries are 16
bytes and the value is about 572. On either target the offset is far past the
12-byte RTP header. -/
def SIZEOF_RTPHANDLER : Nat := 1104

/-- The locals `packetBuffer` and `audioBuffer` of `AES67Bridge::networkReceiveLoop`,
which live across the passes of its loop. -/
structure ReceiveWorker where
  packetBuffer : List Nat
  audioBuffer : List ℚ
  deriving DecidableEq, Repr

/-- The locals as the loop declares them: 2048 zero bytes and no samples. -/
def ReceiveWorker.init : ReceiveWorker :=
  { packetBuffer := List.replicate 2048 0, audioBuffer := [] }

/-- The call `audioBuffer.resize(n)` on a `std::vector<float>`: the first `n` elements
are kept and new elements are `0.0f`. -/
def resizeFloats (v : List ℚ) (n : Nat) : List ℚ :=
  v.take n ++ List.replicate (n - v.length) 0

/-- One pass of the `while` loop of `AES67Bridge::networkReceiveLoop`, for the
datagram that `NetworkManager::receivePacket` finds, if any: `recv` copies at most
`packetBuffer.size()` of its bytes to the start of `packetBuffer` and leaves the
rest of the buffer as it was. The result is the bridge and the locals after the
pass; it is `none` when `parsePacket` divides by zero, when `intToFloat` reads past
the end of `packetBuffer` or when it writes past the end of `audioBuffer`. -/
def AES67Bridge.receivePass (b : AES67Bridge) (w : ReceiveWorker)
    (datagram : Option (List Nat)) : Option (AES67Bridge × ReceiveWorker) :=
  match datagram with
  | none => some (b, w)
  | some d =>
    let bytesReceived := min d.length w.packetBuffer.length
    let packetBuffer := d.take bytesReceived ++ w.packetBuffer.drop bytesReceived
    match parsePacket b.rtp (packetBuffer.take bytesReceived) emptyAudio with
    | none => none
    | some (false, _, rtp1) =>
      some ({ b with rtp := rtp1 }, { w with packetBuffer := packetBuffer })
    | some (true, audio, rtp1) =>
      let resized :=
        resizeFloats w.audioBuffer (audio.frameCount * audio.channelCount % 2 ^ 32)
      match b.converter.intToFloat (packetBuffer.drop SIZEOF_RTPHANDLER) audio.frameCount with
      | none => none
      | some decoded =>
        if resized.length < decoded.length then none
        else
          let audioBuffer := decoded ++ resized.drop decoded.length
          some (({ b with rtp := rtp1 }).enqueueReceived audioBuffer,
            { packetBuffer := packetBuffer, audioBuffer := audioBuffer })

/-- The RTP packet with sequence number `seq`, timestamp 0 and source 0xDEADBEEF
whose payload is `frames` stereo frames of the L24 bytes 3F FF FF. -/
def l24Packet (seq frames : Nat) : List Nat :=
  rtpPacket 96 seq 0 0xDEADBEEF (List.replicate frames halfPayloadL24).flatten

/-! # Properties -/

/-! ## Lemmas on the builder -/

theorem createPacket_invalid (h : RTPHandler) (audio : AudioData) (packet : List Nat)
    (hbad : invalidInput audio) : createPacket h audio packet = some (false, packet, h) := by
  have hc : (audio.samples.isEmpty || audio.channelCount == 0 || audio.frameCount == 0) = true := by
    rcases hbad with hb | hb | hb <;> simp [hb]
  simp [createPacket, hc]

theorem createPacket_valid (h : RTPHandler) (audio : AudioData) (packet : List Nat)
    (hgood : ¬ invalidInput audio) :
    createPacket h audio packet =
      if payloadSizeOf audio ≤ (sampleBytes audio.samples).length then
        some (true,
          [0x80, (h.payloadType &&& 0x7F) % 256] ++ htons h.sequenceNumber
            ++ htonl h.timestamp ++ htonl h.ssrc
            ++ (sampleBytes audio.samples).take (payloadSizeOf audio),
          { h with sequenceNumber := (h.sequenceNumber + 1) % 65536,
                   timestamp := (h.timestamp + audio.frameCount) % 2 ^ 32,
                   packetCount := (h.packetCount + 1) % 2 ^ 32 })
      else none := by
  have hc : (audio.samples.isEmpty || audio.channelCount == 0 || audio.frameCount == 0) = false := by
    simp only [invalidInput, not_or] at hgood
    obtain ⟨h1, h2, h3⟩ := hgood
    simp [h1, h2, h3, List.isEmpty_iff]
  have hlt : (audio.frameCount * audio.channelCount) % 2 ^ 32 * 4 < 2 ^ 64 := by
    have := Nat.mod_lt (audio.frameCount * audio.channelCount) (show 0 < 2 ^ 32 by norm_num)
    omega
  have hps : payloadSizeOf audio = (audio.frameCount * audio.channelCount) % 2 ^ 32 * 4 := by
    unfold payloadSizeOf SIZE_BITS
    exact Nat.mod_eq_of_lt hlt
  have hpk : (RTP_HEADER_SIZE + payloadSizeOf audio) % 2 ^ SIZE_BITS
      = RTP_HEADER_SIZE + payloadSizeOf audio := by
    rw [hps]; unfold SIZE_BITS RTP_HEADER_SIZE
    apply Nat.mod_eq_of_lt
    have := Nat.mod_lt (audio.frameCount * audio.channelCount) (show 0 < 2 ^ 32 by norm_num)
    omega
  unfold createPacket
  simp only [hc, Bool.false_eq_true, if_false]
  change (if payloadSizeOf audio ≤ (sampleBytes audio.samples).length ∧
      (RTP_HEADER_SIZE + payloadSizeOf audio) % 2 ^ SIZE_BITS
        = RTP_HEADER_SIZE + payloadSizeOf audio then _ else _) = _
  simp only [hpk, and_true]
  rfl

theorem createPacket_true_inv {h : RTPHandler} {audio : AudioData} {packet0 packet : List Nat}
    {h' : RTPHandler} (hok : createPacket h audio packet0 = some (true, packet, h')) :
    ¬ invalidInput audio ∧ payloadSizeOf audio ≤ (sampleBytes audio.samples).length ∧
    packet = [0x80, (h.payloadType &&& 0x7F) % 256] ++ htons h.sequenceNumber
        ++ htonl h.timestamp ++ htonl h.ssrc
        ++ (sampleBytes audio.samples).take (payloadSizeOf audio) ∧
    h' = { h with sequenceNumber := (h.sequenceNumber + 1) % 65536,
                  timestamp := (h.timestamp + audio.frameCount) % 2 ^ 32,
                  packetCount := (h.packetCount + 1) % 2 ^ 32 } := by
  by_cases hbad : invalidInput audio
  · rw [createPacket_invalid h audio packet0 hbad] at hok
    simp at hok
  · rw [createPacket_valid h audio packet0 hbad] at hok
    by_cases hlen : payloadSizeOf audio ≤ (sampleBytes audio.samples).length
    · rw [if_pos hlen] at hok
      simp only [Option.some.injEq, Prod.mk.injEq, true_and] at hok
      exact ⟨hbad, hlen, hok.1.symm, hok.2.symm⟩
    · rw [if_neg hlen] at hok
      simp at hok

theorem land_7F_lt (x : Nat) : x &&& 0x7F < 128 :=
  lt_of_le_of_lt Nat.and_le_right (by norm_num)

/-! ## The fixed header (C1) -/

theorem createPacket_reads (h : RTPHandler) (audio : AudioData) (packet0 packet : List Nat)
    (h' : RTPHandler) (hwf : h.WF)
    (hok : createPacket h audio packet0 = some (true, packet, h')) :
    ntohs packet 2 = h.sequenceNumber ∧ ntohl packet 4 = h.timestamp ∧
    ntohl packet 8 = h.ssrc := by
  obtain ⟨_, _, hp, _⟩ := createPacket_true_inv hok
  obtain ⟨hs, hq, ht, _⟩ := hwf
  subst hp
  simp only [htons, htonl, List.cons_append, List.nil_append, ntohs, ntohl,
    List.getD_cons_succ, List.getD_cons_zero]
  refine ⟨?_, ?_, ?_⟩ <;> omega

/-- C1: for every AudioData that createPacket accepts, the first 12 bytes of the
packet are 0x80, then payloadType & 0x7F (so the marker bit is 0), then the
sequence number, the timestamp and the SSRC the session held before the call, each
big-endian. -/
theorem createPacket_header (h : RTPHandler) (audio : AudioData) (packet0 packet : List Nat)
    (h' : RTPHandler) (hwf : h.WF)
    (hok : createPacket h audio packet0 = some (true, packet, h')) :
    packet.take 12 =
      [0x80, h.payloadType &&& 0x7F,
       h.sequenceNumber / 256, h.sequenceNumber % 256,
       h.timestamp / 16777216, h.timestamp / 65536 % 256, h.timestamp / 256 % 256,
       h.timestamp % 256,
       h.ssrc / 16777216, h.ssrc / 65536 % 256, h.ssrc / 256 % 256, h.ssrc % 256] ∧
    packet.getD 1 0 < 128 ∧
    ntohs packet 2 = h.sequenceNumber ∧ ntohl packet 4 = h.timestamp ∧
    ntohl packet 8 = h.ssrc := by
  obtain ⟨_, _, hp, _⟩ := createPacket_true_inv hok
  obtain ⟨hs, hq, ht, _⟩ := hwf
  have hpt := land_7F_lt h.payloadType
  have hpt2 : (h.payloadType &&& 0x7F) % 256 = h.payloadType &&& 0x7F :=
    Nat.mod_eq_of_lt (by omega)
  subst hp
  simp only [htons, htonl, hpt2, List.cons_append, List.nil_append, List.take_succ_cons,
    List.take_zero, ntohs, ntohl, List.getD_cons_succ, List.getD_cons_zero]
  refine ⟨?_, hpt, ?_, ?_, ?_⟩
  · have e1 : h.sequenceNumber / 256 % 256 = h.sequenceNumber / 256 :=
      Nat.mod_eq_of_lt (by omega)
    have e2 : h.timestamp / 16777216 % 256 = h.timestamp / 16777216 :=
      Nat.mod_eq_of_lt (by omega)
    have e3 : h.ssrc / 16777216 % 256 = h.ssrc / 16777216 :=
      Nat.mod_eq_of_lt (by omega)
    rw [e1, e2, e3]
  · omega
  · omega
  · omega

/-- Witness of C1 at the wrapping session: the header of `wrapPacket`. -/
theorem createPacket_header_witness :
    wrapSession.WF ∧ createPacket wrapSession halfFrame [] = some (true, wrapPacket, wrapSessionNext) ∧
    (wrapPacket.take 12 = [0x80, 96, 0xFF, 0xFF, 0xFF, 0xFF, 0xFF, 0xFF, 0xDE, 0xAD, 0xBE, 0xEF] ∧
     wrapPacket.getD 1 0 < 128 ∧ ntohs wrapPacket 2 = 65535 ∧ ntohl wrapPacket 4 = 4294967295 ∧
     ntohl wrapPacket 8 = 0xDEADBEEF) :=
  ⟨by decide, by decide,
   createPacket_header wrapSession halfFrame [] wrapPacket wrapSessionNext (by decide) (by decide)⟩

/-! ## Counter advance (C2) -/

theorem createPacket_WF {h : RTPHandler} {audio : AudioData} {packet0 packet : List Nat}
    {h' : RTPHandler} (hwf : h.WF)
    (hok : createPacket h audio packet0 = some (true, packet, h')) : h'.WF := by
  obtain ⟨_, _, _, hh⟩ := createPacket_true_inv hok
  obtain ⟨w1, _, _, w4, w5, w6, w7, w8, _, w10, w11⟩ := hwf
  subst hh
  exact ⟨w1, Nat.mod_lt _ (by norm_num), Nat.mod_lt _ (by norm_num), w4, w5, w6, w7, w8,
    Nat.mod_lt _ (by norm_num), w10, w11⟩

/-- C2: from every starting session, after n successful createPacket calls that
each carry N frames the sequence number is (start_seq + n) mod 2^16 and the
timestamp is (start_ts + n*N) mod 2^32, wraps included. -/
theorem createPackets_counters (h : RTPHandler) (N : Nat) (audios : List AudioData)
    (pkts : List (List Nat)) (h' : RTPHandler) (hwf : h.WF)
    (hN : ∀ a ∈ audios, a.frameCount = N)
    (hrun : createPackets h audios = some (pkts, h')) :
    h'.sequenceNumber = (h.sequenceNumber + audios.length) % 65536 ∧
    h'.timestamp = (h.timestamp + audios.length * N) % 2 ^ 32 := by
  induction audios generalizing h pkts h' with
  | nil =>
    simp only [createPackets, Option.some.injEq, Prod.mk.injEq] at hrun
    obtain ⟨_, hh⟩ := hrun
    subst hh
    simp only [List.length_nil, Nat.add_zero, Nat.zero_mul]
    exact ⟨(Nat.mod_eq_of_lt hwf.2.1).symm, (Nat.mod_eq_of_lt hwf.2.2.1).symm⟩
  | cons a rest ih =>
    simp only [createPackets] at hrun
    cases hc : createPacket h a [] with
    | none => rw [hc] at hrun; simp at hrun
    | some r =>
      obtain ⟨ok, pkt, h1⟩ := r
      cases ok with
      | false => rw [hc] at hrun; simp at hrun
      | true =>
        rw [hc] at hrun
        simp only at hrun
        cases hr : createPackets h1 rest with
        | none => rw [hr] at hrun; simp at hrun
        | some r2 =>
          obtain ⟨pkts2, h2⟩ := r2
          rw [hr] at hrun
          simp only [Option.some.injEq, Prod.mk.injEq] at hrun
          obtain ⟨_, hh⟩ := hrun
          subst hh
          obtain ⟨_, _, _, hh1⟩ := createPacket_true_inv hc
          have hfa : a.frameCount = N := hN a (List.mem_cons_self a rest)
          obtain ⟨e1, e2⟩ := ih h1 pkts2 h2 (createPacket_WF hwf hc)
            (fun b hb => hN b (List.mem_cons_of_mem a hb)) hr
          have hq : h1.sequenceNumber = (h.sequenceNumber + 1) % 65536 := by rw [hh1]
          have hts : h1.timestamp = (h.timestamp + N) % 2 ^ 32 := by rw [hh1, hfa]
          refine ⟨?_, ?_⟩
          · rw [e1, hq, List.length_cons]; omega
          · rw [e2, hts, List.length_cons, Nat.succ_mul, Nat.mod_add_mod]
            congr 1; omega

/-- Witness of C2 across both wraps: three one-frame transmits starting at sequence
number 65535 and timestamp 2^32 - 1 end at sequence number 2 and timestamp 2. -/
theorem createPackets_counters_witness :
    wrapSession.WF ∧ (∀ a ∈ [halfFrame, halfFrame, halfFrame], a.frameCount = 1) ∧
    createPackets wrapSession [halfFrame, halfFrame, halfFrame] = some wrapRun ∧
    (wrapRun.2.sequenceNumber = (65535 + 3) % 65536 ∧
     wrapRun.2.timestamp = (4294967295 + 3 * 1) % 2 ^ 32) :=
  ⟨by decide, by decide, by decide,
   createPackets_counters wrapSession 1 [halfFrame, halfFrame, halfFrame] wrapRun.1 wrapRun.2
     (by decide) (by decide) (by decide)⟩

/-! ## Rejected input (C7) -/

/-- C7: createPacket returns false exactly when the sample vector is empty or
channelCount is 0 or frameCount is 0, and a call that returns false hands back the
packet vector and the whole session (sequence number, timestamp and packets-sent
counter included) as they were. -/
theorem createPacket_fails_iff (h : RTPHandler) (audio : AudioData) (packet : List Nat) :
    ((createPacket h audio packet).map Prod.fst = some false ↔
      (audio.samples = [] ∨ audio.channelCount = 0 ∨ audio.frameCount = 0)) ∧
    ((createPacket h audio packet).map Prod.fst = some false ↔
      createPacket h audio packet = some (false, packet, h)) := by
  have key : (createPacket h audio packet).map Prod.fst = some false ↔ invalidInput audio := by
    constructor
    · intro hf
      by_contra hgood
      rw [createPacket_valid h audio packet hgood] at hf
      by_cases hlen : payloadSizeOf audio ≤ (sampleBytes audio.samples).length
      · rw [if_pos hlen] at hf; simp at hf
      · rw [if_neg hlen] at hf; simp at hf
    · intro hbad
      rw [createPacket_invalid h audio packet hbad]; rfl
  refine ⟨key, ?_⟩
  constructor
  · intro hf
    exact createPacket_invalid h audio packet (key.mp hf)
  · intro he
    rw [he]; rfl

/-! ## Packet length and payload (C4) -/

theorem sampleBytes_length (samples : List Nat) : (sampleBytes samples).length = 4 * samples.length := by
  induction samples with
  | nil => rfl
  | cons x xs ih => simp only [sampleBytes, floatBytes, List.length_append, List.length_cons,
      List.length_nil, ih]; omega

/-- Every packet createPacket builds is 12 + 4 * (frameCount * channelCount mod 2^32)
bytes long: four bytes a sample, whatever the bit depth of the stream. -/
theorem createPacket_length {h : RTPHandler} {audio : AudioData} {packet0 packet : List Nat}
    {h' : RTPHandler} (hok : createPacket h audio packet0 = some (true, packet, h')) :
    packet.length = 12 + 4 * ((audio.frameCount * audio.channelCount) % 2 ^ 32) := by
  obtain ⟨_, hlen, hp, _⟩ := createPacket_true_inv hok
  have hlt : (audio.frameCount * audio.channelCount) % 2 ^ 32 * 4 < 2 ^ 64 := by
    have := Nat.mod_lt (audio.frameCount * audio.channelCount) (show 0 < 2 ^ 32 by norm_num)
    omega
  have hps : payloadSizeOf audio = (audio.frameCount * audio.channelCount) % 2 ^ 32 * 4 := by
    unfold payloadSizeOf SIZE_BITS
    exact Nat.mod_eq_of_lt hlt
  subst hp
  simp only [htons, htonl, List.length_append, List.length_cons, List.length_nil,
    List.length_take, Nat.min_eq_left hlen]
  omega

/-- C4 at one stereo frame of the sample 0.5 in a 24-bit stream: createPacket builds
a packet of 20 bytes (not 12 + 1*2*(24/8) = 18) whose payload is the raw memory of
the two floats (not the big-endian 24-bit PCM bytes 3F FF FF 3F FF FF). -/
theorem createPacket_payload_is_raw_float :
    createPacket wrapSession halfFrame [] = some (true, wrapPacket, wrapSessionNext) ∧
    wrapPacket.length = 20 ∧ wrapPacket.length ≠ 12 + 1 * 2 * (24 / 8) ∧
    wrapPacket.drop 12 = [0, 0, 0, 0x3F, 0, 0, 0, 0x3F] ∧
    wrapPacket.drop 12 ≠ halfPayloadL24 := by
  decide

/-! ## Lemmas on the parser -/

theorem parsePacket_short (h : RTPHandler) (data : List Nat) (audio : AudioData)
    (hlen : data.length < 12) : parsePacket h data audio = some (false, audio, h) := by
  simp [parsePacket, RTP_HEADER_SIZE, hlen]

theorem parsePacket_badVersion (h : RTPHandler) (data : List Nat) (audio : AudioData)
    (hlen : 12 ≤ data.length) (hv : data.getD 0 0 &&& 0xC0 ≠ 0x80) :
    parsePacket h data audio = some (false, audio, h) := by
  have h1 : ¬ data.length < 12 := by omega
  simp only [List.getD_eq_getElem?_getD] at hv
  simp [parsePacket, RTP_HEADER_SIZE, h1, hv]

theorem parsePacket_divZero (h : RTPHandler) (data : List Nat) (audio : AudioData)
    (hlen : 12 ≤ data.length) (hv : data.getD 0 0 &&& 0xC0 = 0x80) (hC : h.channelCount = 0) :
    parsePacket h data audio = none := by
  have h1 : ¬ data.length < 12 := by omega
  simp only [List.getD_eq_getElem?_getD] at hv
  simp [parsePacket, RTP_HEADER_SIZE, h1, hv, hC]

theorem parsePacket_accept (h : RTPHandler) (data : List Nat) (audio : AudioData)
    (hlen : 12 ≤ data.length) (hv : data.getD 0 0 &&& 0xC0 = 0x80) (hC : 1 ≤ h.channelCount) :
    parsePacket h data audio = some (true,
      { samples := List.replicate ((data.length - 12) / (h.channelCount * 3) * h.channelCount) 0,
        channelCount := h.channelCount,
        sampleRate := h.sampleRate,
        frameCount := (data.length - 12) / (h.channelCount * 3) % 2 ^ 32 },
      { h with
        outOfOrderPackets :=
          if ntohs data 2 = h.expectedSequence then h.outOfOrderPackets
          else (h.outOfOrderPackets + 1) % 2 ^ 32,
        expectedSequence := (ntohs data 2 + 1) % 65536,
        packetCount := (h.packetCount + 1) % 2 ^ 32 }) := by
  have h1 : ¬ data.length < 12 := by omega
  have h2 : ¬ h.channelCount = 0 := by omega
  simp only [List.getD_eq_getElem?_getD] at hv
  by_cases hq : ntohs data 2 = h.expectedSequence
  · simp [parsePacket, RTP_HEADER_SIZE, h1, hv, h2, hq]
  · simp [parsePacket, RTP_HEADER_SIZE, h1, hv, h2, hq]

/-! ## Header check (C5) -/

/-- C5: with a configured channel count of at least 1, parsePacket returns, and it
returns false exactly when size < 12 or (data[0] & 0xC0) != 0x80; so every input
of at least 12 bytes whose version bits are 2 is accepted. -/
theorem parsePacket_rejects_iff (h : RTPHandler) (data : List Nat) (audio : AudioData)
    (hC : 1 ≤ h.channelCount) :
    ∃ ok audio' h', parsePacket h data audio = some (ok, audio', h') ∧
      (ok = false ↔ (data.length < 12 ∨ data.getD 0 0 &&& 0xC0 ≠ 0x80)) := by
  by_cases hlen : data.length < 12
  · exact ⟨false, audio, h, parsePacket_short h data audio hlen, by simp [hlen]⟩
  · have hlen2 : 12 ≤ data.length := by omega
    by_cases hv : data.getD 0 0 &&& 0xC0 = 0x80
    · refine ⟨true, _, _, parsePacket_accept h data audio hlen2 hv hC, ?_⟩
      constructor
      · intro hf; cases hf
      · rintro (hl | hb)
        · exact absurd hl hlen
        · exact absurd hv hb
    · exact ⟨false, audio, h, parsePacket_badVersion h data audio hlen2 hv,
        ⟨fun _ => Or.inr hv, fun _ => rfl⟩⟩

theorem parsePacket_true_inv {h : RTPHandler} {data : List Nat} {audio audio' : AudioData}
    {h' : RTPHandler} (hok : parsePacket h data audio = some (true, audio', h')) :
    12 ≤ data.length ∧ data.getD 0 0 &&& 0xC0 = 0x80 ∧ 1 ≤ h.channelCount := by
  by_cases hlen : data.length < 12
  · rw [parsePacket_short h data audio hlen] at hok; simp at hok
  · have hlen2 : 12 ≤ data.length := by omega
    by_cases hv : data.getD 0 0 &&& 0xC0 = 0x80
    · by_cases hC : h.channelCount = 0
      · rw [parsePacket_divZero h data audio hlen2 hv hC] at hok; simp at hok
      · exact ⟨hlen2, hv, by omega⟩
    · rw [parsePacket_badVersion h data audio hlen2 hv] at hok; simp at hok

/-- Witness of C5 at the shortest accepted input, a header-only packet of version 2. -/
theorem parsePacket_rejects_iff_witness :
    1 ≤ recvHandler.channelCount ∧
    ∃ ok audio' h', parsePacket recvHandler headerOnlyPacket emptyAudio = some (ok, audio', h') ∧
      (ok = false ↔
        (headerOnlyPacket.length < 12 ∨ headerOnlyPacket.getD 0 0 &&& 0xC0 ≠ 0x80)) :=
  ⟨by decide, parsePacket_rejects_iff recvHandler headerOnlyPacket emptyAudio (by decide)⟩

/-! ## Frame count (C6) -/

/-- C6 as stated fails at bit depth 16: a 24-byte packet parsed with 2 channels gets
frameCount 2, while (size - 12) / (C * B/8) is 3 for B = 16. -/
theorem parsePacket_frameCount_ignores_depth :
    (parsePacket recvHandler twelveBytePacket emptyAudio).map
        (fun r => (r.1, r.2.1.frameCount)) = some (true, 2) ∧
    (twelveBytePacket.length - 12) / (recvHandler.channelCount * (16 / 8)) = 3 := by
  decide

/-- C6 amended: for every accepted packet of `size` bytes, parsePacket populates
AudioData with frameCount = (size - 12) / (C * 3), three bytes a sample whatever
the bit depth of the stream (the value is stored in 32 bits, which changes nothing
for size < 2^32), channelCount = C and sampleRate = R. -/
theorem parsePacket_frameCount (h : RTPHandler) (data : List Nat) (audio audio' : AudioData)
    (h' : RTPHandler) (hok : parsePacket h data audio = some (true, audio', h')) :
    audio'.frameCount = (data.length - 12) / (h.channelCount * 3) % 2 ^ 32 ∧
    (data.length < 2 ^ 32 → audio'.frameCount = (data.length - 12) / (h.channelCount * 3)) ∧
    audio'.channelCount = h.channelCount ∧ audio'.sampleRate = h.sampleRate := by
  obtain ⟨hlen, hv, hC⟩ := parsePacket_true_inv hok
  rw [parsePacket_accept h data audio hlen hv hC] at hok
  simp only [Option.some.injEq, Prod.mk.injEq, true_and] at hok
  obtain ⟨ha, _⟩ := hok
  subst ha
  refine ⟨rfl, ?_, rfl, rfl⟩
  intro hsz
  apply Nat.mod_eq_of_lt
  calc (data.length - 12) / (h.channelCount * 3) ≤ data.length - 12 := Nat.div_le_self _ _
    _ < 2 ^ 32 := by omega

/-- Witness of C6 amended: the 24-byte packet, 2 channels, 48 kHz. -/
theorem parsePacket_frameCount_witness :
    parsePacket recvHandler twelveBytePacket emptyAudio
      = some (true, twelveByteAudio, recvHandlerNext) ∧
    (twelveByteAudio.frameCount
        = (twelveBytePacket.length - 12) / (recvHandler.channelCount * 3) % 2 ^ 32 ∧
     (twelveBytePacket.length < 2 ^ 32 → twelveByteAudio.frameCount
        = (twelveBytePacket.length - 12) / (recvHandler.channelCount * 3)) ∧
     twelveByteAudio.channelCount = recvHandler.channelCount ∧
     twelveByteAudio.sampleRate = recvHandler.sampleRate) :=
  ⟨by decide,
   parsePacket_frameCount recvHandler twelveBytePacket emptyAudio twelveByteAudio
     recvHandlerNext (by decide)⟩

/-! ## Build, then parse (C3) -/

/-- C3 as stated fails: two packets built with different timestamps, different
SSRCs and different payloads get the very same result from parsePacket, whose
AudioData holds zeroed samples, so the result recovers none of the three. -/
theorem parsePacket_forgets_fields :
    createPacket wrapSession halfFrame [] = some (true, wrapPacket, wrapSessionNext) ∧
    (createPacket otherSession minusHalfFrame []).map (fun r => (r.1, r.2.1))
      = some (true, otherPacket) ∧
    wrapSession.timestamp ≠ otherSession.timestamp ∧
    wrapSession.ssrc ≠ otherSession.ssrc ∧
    wrapPacket.drop 12 ≠ otherPacket.drop 12 ∧
    parsePacket recvHandler wrapPacket emptyAudio = some (true, zeroFrame, recvHandlerWrapped) ∧
    parsePacket recvHandler otherPacket emptyAudio = some (true, zeroFrame, recvHandlerWrapped) := by
  decide

/-- C3 amended: for every packet createPacket builds, parsePacket (channel count at
least 1) succeeds and recovers the sequence number exactly: the sequence number it
reads is the one built in, and the receiver then expects that number + 1 mod 2^16.
The timestamp, the SSRC and the payload are not handed back by parsePacket; they
stay in the packet, whose bytes 4-7 and 8-11 read big-endian as the timestamp and
the SSRC built in and whose bytes from 12 on are the payload bytes built in. -/
theorem createPacket_parsePacket (s : RTPHandler) (audio : AudioData) (packet0 packet : List Nat)
    (s' : RTPHandler) (r : RTPHandler) (audio0 : AudioData) (hwf : s.WF)
    (hC : 1 ≤ r.channelCount)
    (hok : createPacket s audio packet0 = some (true, packet, s')) :
    ∃ audio' r', parsePacket r packet audio0 = some (true, audio', r') ∧
      ntohs packet 2 = s.sequenceNumber ∧
      r'.expectedSequence = (s.sequenceNumber + 1) % 65536 ∧
      ntohl packet 4 = s.timestamp ∧ ntohl packet 8 = s.ssrc ∧
      packet.drop 12 = (sampleBytes audio.samples).take (payloadSizeOf audio) := by
  obtain ⟨hseq, hts, hssrc⟩ := createPacket_reads s audio packet0 packet s' hwf hok
  obtain ⟨_, _, hp, _⟩ := createPacket_true_inv hok
  have hlen : 12 ≤ packet.length := by
    rw [createPacket_length hok]; omega
  have hv : packet.getD 0 0 &&& 0xC0 = 0x80 := by
    rw [hp]
    simp only [List.cons_append, List.getD_cons_zero]
    decide
  refine ⟨_, _, parsePacket_accept r packet audio0 hlen hv hC, hseq, ?_, hts, hssrc, ?_⟩
  · simp only [hseq]
  · rw [hp]
    simp [htons, htonl]

/-- Witness of C3 amended: the packet built at sequence number 65535 parses, and the
receiver then expects sequence number 0. -/
theorem createPacket_parsePacket_witness :
    wrapSession.WF ∧ 1 ≤ recvHandler.channelCount ∧
    createPacket wrapSession halfFrame [] = some (true, wrapPacket, wrapSessionNext) ∧
    ∃ audio' r', parsePacket recvHandler wrapPacket emptyAudio = some (true, audio', r') ∧
      ntohs wrapPacket 2 = wrapSession.sequenceNumber ∧
      r'.expectedSequence = (wrapSession.sequenceNumber + 1) % 65536 ∧
      ntohl wrapPacket 4 = wrapSession.timestamp ∧ ntohl wrapPacket 8 = wrapSession.ssrc ∧
      wrapPacket.drop 12 = (sampleBytes halfFrame.samples).take (payloadSizeOf halfFrame) :=
  ⟨by decide, by decide, by decide,
   createPacket_parsePacket wrapSession halfFrame [] wrapPacket wrapSessionNext recvHandler
     emptyAudio (by decide) (by decide) (by decide)⟩

/-! ## Reorder buffer: the two window tests -/

theorem toInt16_range (x : Int) : -32768 ≤ toInt16 x ∧ toInt16 x < 32768 := by
  unfold toInt16
  have h1 := Int.emod_nonneg x (show (65536 : Int) ≠ 0 by norm_num)
  have h2 := Int.emod_lt_of_pos x (show (0 : Int) < 65536 by norm_num)
  simp only
  split <;> omega

theorem two_pow_ge (w : Nat) (hw : 17 ≤ w) : 131072 ≤ 2 ^ w :=
  calc 131072 = 2 ^ 17 := by norm_num
    _ ≤ 2 ^ w := Nat.pow_le_pow_right (by norm_num) hw

theorem toUnsigned_nonneg (w : Nat) (hw : 17 ≤ w) (d : Int) (h0 : 0 ≤ d) (h1 : d < 32768) :
    toUnsigned w d = d.toNat := by
  have hP := two_pow_ge w hw
  unfold toUnsigned
  congr 1
  apply Int.emod_eq_of_lt h0
  omega

theorem toUnsigned_neg (w : Nat) (hw : 17 ≤ w) (d : Int) (h0 : d < 0) (h1 : -32768 ≤ d) :
    toUnsigned w d = 2 ^ w - (-d).toNat := by
  have hP := two_pow_ge w hw
  unfold toUnsigned
  have e : d % ((2 ^ w : Nat) : Int) = d + ((2 ^ w : Nat) : Int) := by
    rw [← Int.add_emod_self]
    apply Int.emod_eq_of_lt <;> omega
  rw [e]
  omega

theorem negMaxBufferHalf_eq (w : Nat) (hw : 17 ≤ w) : negMaxBufferHalf w = (2 ^ w - 32) / 2 := by
  have hP := two_pow_ge w hw
  unfold negMaxBufferHalf MAX_BUFFER_PACKETS
  rw [Nat.mod_eq_of_lt (by omega)]

/-- The stale test of `addPacketToBuffer` holds exactly for the non-negative
differences, whatever the width of `size_t` (17 bits or more, so 32 and 64): a
negative `seqDiff` converts to a `size_t` in the upper half of its range. -/
theorem staleTest_iff (w : Nat) (hw : 17 ≤ w) (d : Int) (hlo : -32768 ≤ d) (hhi : d < 32768) :
    staleTest w d = true ↔ 0 ≤ d := by
  have hP := two_pow_ge w hw
  unfold staleTest
  rw [decide_eq_true_iff, negMaxBufferHalf_eq w hw]
  constructor
  · intro hlt
    by_contra hd
    rw [toUnsigned_neg w hw d (by omega) hlo] at hlt
    omega
  · intro hd
    rw [toUnsigned_nonneg w hw d hd hhi]
    omega

/-- The jump test of `addPacketToBuffer` holds exactly for the negative differences
and for those above 16, whatever the width of `size_t` (17 bits or more). -/
theorem jumpTest_iff (w : Nat) (hw : 17 ≤ w) (d : Int) (hlo : -32768 ≤ d) (hhi : d < 32768) :
    jumpTest w d = true ↔ (d < 0 ∨ 16 < d) := by
  have hP := two_pow_ge w hw
  unfold jumpTest MAX_BUFFER_PACKETS
  rw [decide_eq_true_iff]
  by_cases hd : 0 ≤ d
  · rw [toUnsigned_nonneg w hw d hd hhi]
    omega
  · rw [toUnsigned_neg w hw d (by omega) hlo]
    omega

/-! ## Reorder buffer: the drain loop leaves on its own -/

theorem validCount_clear (buf : List PacketEntry) :
    ∀ (idx : Nat) (e : PacketEntry), buf.getD idx emptyEntry = e → e.valid = true →
      validCount (buf.set idx { e with valid := false }) + 1 = validCount buf := by
  induction buf with
  | nil =>
    intro idx e hget hv
    simp only [List.getD_nil] at hget
    subst hget
    simp [emptyEntry] at hv
  | cons x xs ih =>
    intro idx e hget hv
    cases idx with
    | zero =>
      simp only [List.getD_cons_zero] at hget
      subst hget
      simp [validCount, List.set_cons_zero, List.countP_cons, hv]
    | succ n =>
      simp only [List.getD_cons_succ] at hget
      have := ih n e hget hv
      simp only [validCount, List.set_cons_succ, List.countP_cons] at this ⊢
      omega

theorem processCond_of_validCount_zero (h : RTPHandler) (hz : validCount h.packetBuffer = 0) :
    processCond h = false := by
  unfold processCond
  simp only [validCount, List.countP_eq_zero] at hz
  have hv : (h.packetBuffer.getD (getBufferIndex h.expectedSequence) emptyEntry).valid = false := by
    rw [List.getD_eq_getElem?_getD]
    cases hg : h.packetBuffer[getBufferIndex h.expectedSequence]? with
    | none => simp [emptyEntry]
    | some e =>
      have hm : e ∈ h.packetBuffer := List.getElem?_mem hg
      have := hz e hm
      simpa using this
  show ((h.packetBuffer.getD (getBufferIndex h.expectedSequence) emptyEntry).valid &&
    (h.packetBuffer.getD (getBufferIndex h.expectedSequence) emptyEntry).sequenceNumber
      == h.expectedSequence) = false
  rw [hv]
  rfl

theorem processLoop_exits (fuel : Nat) :
    ∀ (h : RTPHandler) (released : List PacketEntry), validCount h.packetBuffer ≤ fuel →
      processCond (processLoop fuel h released).1 = false := by
  induction fuel with
  | zero =>
    intro h released hle
    simp only [processLoop]
    exact processCond_of_validCount_zero h (by omega)
  | succ n ih =>
    intro h released hle
    by_cases hc : processCond h = true
    · have hc2 := hc
      unfold processCond at hc2
      simp only [Bool.and_eq_true] at hc2
      have hstep := validCount_clear h.packetBuffer (getBufferIndex h.expectedSequence)
        (h.packetBuffer.getD (getBufferIndex h.expectedSequence) emptyEntry) rfl hc2.1
      unfold processCond at hc
      simp only [processLoop, hc, if_true]
      apply ih
      simp only
      omega
    · have hc3 : processCond h = false := by simpa using hc
      have hc4 := hc3
      unfold processCond at hc4
      simp only [processLoop, hc4, Bool.false_eq_true, if_false]
      exact hc3

/-- The fuel `MAX_BUFFER_PACKETS` of `processBuffer` is never what stops the loop:
when `processBuffer` returns, the loop condition is false. -/
theorem processBuffer_exits (h : RTPHandler) (hlen : h.packetBuffer.length = MAX_BUFFER_PACKETS) :
    processCond (processBuffer h).1 = false := by
  unfold processBuffer
  apply processLoop_exits
  have := List.countP_le_length (fun e : PacketEntry => e.valid) (l := h.packetBuffer)
  unfold validCount
  omega

/-! ## Reorder buffer: what an insertion does -/

/-- Every packet whose signed difference is non-negative (the expected packet
included) takes the stale branch: the drop counter goes up and nothing else
happens. -/
theorem addPacketToBuffer_of_nonneg (h : RTPHandler) (data : List Nat)
    (hlen : 12 ≤ data.length) (hd : 0 ≤ seqDiffOf h data) :
    addPacketToBuffer h data
      = ({ h with droppedPackets := (h.droppedPackets + 1) % 2 ^ 32 }, []) := by
  have hr := toInt16_range ((ntohs data 2 : Int) - (h.expectedSequence : Int))
  have hst : staleTest SIZE_BITS (toInt16 ((ntohs data 2 : Int) - (h.expectedSequence : Int)))
      = true := (staleTest_iff SIZE_BITS (by decide) _ hr.1 hr.2).mpr hd
  have h1 : ¬ data.length < 12 := by omega
  simp only [addPacketToBuffer, RTP_HEADER_SIZE, h1, if_false, hst, if_true]

/-- Every packet whose signed difference is negative takes the jump branch: the
buffer is cleared, `expectedSequence` becomes the packet's number, the drop counter
goes up, the packet is stored and `processBuffer` runs. -/
theorem addPacketToBuffer_of_neg (h : RTPHandler) (data : List Nat)
    (hlen : 12 ≤ data.length) (hd : seqDiffOf h data < 0) :
    addPacketToBuffer h data
      = processBuffer
          { h with
            expectedSequence := ntohs data 2,
            droppedPackets := (h.droppedPackets + 1) % 2 ^ 32,
            packetBuffer := (h.packetBuffer.map fun e => { e with valid := false }).set
              (getBufferIndex (ntohs data 2))
              { data := data, sequenceNumber := ntohs data 2, valid := true } } := by
  have hr := toInt16_range ((ntohs data 2 : Int) - (h.expectedSequence : Int))
  have hd2 : toInt16 ((ntohs data 2 : Int) - (h.expectedSequence : Int)) < 0 := hd
  have hst : staleTest SIZE_BITS (toInt16 ((ntohs data 2 : Int) - (h.expectedSequence : Int)))
      = false := by
    rw [← Bool.not_eq_true, staleTest_iff SIZE_BITS (by decide) _ hr.1 hr.2]
    omega
  have hj : jumpTest SIZE_BITS (toInt16 ((ntohs data 2 : Int) - (h.expectedSequence : Int)))
      = true := (jumpTest_iff SIZE_BITS (by decide) _ hr.1 hr.2).mpr (Or.inl hd2)
  have h1 : ¬ data.length < 12 := by omega
  simp only [addPacketToBuffer, RTP_HEADER_SIZE, h1, if_false, hst, hj, if_true,
    Bool.false_eq_true, bne_self_eq_false, Bool.false_and]

theorem processLoop_stop (n : Nat) (h : RTPHandler) (released : List PacketEntry)
    (hc : processCond h = false) : processLoop (n + 1) h released = (h, released) := by
  unfold processCond at hc
  simp only [processLoop, hc, Bool.false_eq_true, if_false]

theorem validCount_map_clear (buf : List PacketEntry) :
    validCount (buf.map fun e => { e with valid := false }) = 0 := by
  simp [validCount, List.countP_eq_zero]

theorem validCount_set_of_zero (buf : List PacketEntry) (e : PacketEntry) (he : e.valid = false) :
    ∀ idx : Nat, validCount buf = 0 → validCount (buf.set idx e) = 0 := by
  induction buf with
  | nil => intro idx hz; simpa using hz
  | cons x xs ih =>
    intro idx hz
    simp only [validCount, List.countP_cons] at hz
    cases idx with
    | zero =>
      simp only [validCount, List.set_cons_zero, List.countP_cons, he, Bool.false_eq_true,
        if_false]
      omega
    | succ n =>
      have := ih n (by simp only [validCount]; omega)
      simp only [validCount, List.set_cons_succ, List.countP_cons] at this ⊢
      omega

/-- What the jump branch comes to: a packet whose signed difference is negative is
released at once, alone, and leaves every slot empty and `expectedSequence` one past
its own number. -/
theorem addPacketToBuffer_of_neg_releases (h : RTPHandler) (data : List Nat)
    (hlen : 12 ≤ data.length) (hbuf : h.packetBuffer.length = MAX_BUFFER_PACKETS)
    (hd : seqDiffOf h data < 0) :
    addPacketToBuffer h data
      = ({ h with
           expectedSequence := (ntohs data 2 + 1) % 65536,
           droppedPackets := (h.droppedPackets + 1) % 2 ^ 32,
           packetBuffer := (h.packetBuffer.map fun e => { e with valid := false }).set
             (getBufferIndex (ntohs data 2))
             { data := data, sequenceNumber := ntohs data 2, valid := false } },
         [{ data := data, sequenceNumber := ntohs data 2, valid := true }]) := by
  rw [addPacketToBuffer_of_neg h data hlen hd]
  have hidx : getBufferIndex (ntohs data 2)
      < (h.packetBuffer.map fun e => { e with valid := false }).length := by
    rw [List.length_map, hbuf]
    exact Nat.mod_lt _ (by decide)
  have hget : ((h.packetBuffer.map fun e => { e with valid := false }).set
      (getBufferIndex (ntohs data 2))
      { data := data, sequenceNumber := ntohs data 2, valid := true }).getD
        (getBufferIndex (ntohs data 2)) emptyEntry
      = { data := data, sequenceNumber := ntohs data 2, valid := true } := by
    rw [List.getD_eq_getElem?_getD, List.getElem?_set_self hidx]
    rfl
  unfold processBuffer MAX_BUFFER_PACKETS
  rw [processLoop]
  simp only [hget, beq_self_eq_true, Bool.and_self, if_true, List.set_set, List.nil_append]
  apply processLoop_stop
  apply processCond_of_validCount_zero
  exact validCount_set_of_zero _ _ rfl _ (validCount_map_clear h.packetBuffer)

/-! ## Reorder then drain (C8) -/

/-- C8 at its scenario: a fresh receiver expecting 10 is given seq 10, 11, 13, 12.
Each of the four packets takes the stale branch, so nothing is released (not 10,
11, 12, 13), droppedPackets is 4 and outOfOrderPackets is 0 (not 1). -/
theorem addPackets_reorder_scenario :
    addPackets (freshReceiver 10) [seqPacket 10, seqPacket 11, seqPacket 13, seqPacket 12]
      = ({ freshReceiver 10 with droppedPackets := 4 }, []) ∧
    [seqDiffOf (freshReceiver 10) (seqPacket 10), seqDiffOf (freshReceiver 10) (seqPacket 11),
     seqDiffOf (freshReceiver 10) (seqPacket 13), seqDiffOf (freshReceiver 10) (seqPacket 12)]
      = [0, 1, 3, 2] := by
  decide

/-! ## Stale packets (C9) -/

/-- C9 at its scenario: a fresh receiver expecting 100 is given seq 60 (difference
-40). The packet takes the jump branch: droppedPackets becomes 1, but
expectedSequence moves from 100 to 61, slot 28 is overwritten and the packet is
released downstream. -/
theorem addPacketToBuffer_stale_scenario :
    seqDiffOf (freshReceiver 100) (seqPacket 60) = -40 ∧
    addPacketToBuffer (freshReceiver 100) (seqPacket 60)
      = (receiverAfter60, [{ data := seqPacket 60, sequenceNumber := 60, valid := true }]) ∧
    receiverAfter60.droppedPackets = 1 ∧
    receiverAfter60.expectedSequence ≠ (freshReceiver 100).expectedSequence ∧
    receiverAfter60.packetBuffer ≠ (freshReceiver 100).packetBuffer := by
  decide

/-! ## Forward jumps (C10) -/

/-- C10 at its scenario: a fresh receiver expecting 100 is given seq 200 (difference
+100). The packet takes the stale branch: droppedPackets becomes 1, expectedSequence
stays 100 (not 200) and slot 200 mod 32 = 8 stays empty. -/
theorem addPacketToBuffer_jump_scenario :
    seqDiffOf (freshReceiver 100) (seqPacket 200) = 100 ∧
    addPacketToBuffer (freshReceiver 100) (seqPacket 200)
      = ({ freshReceiver 100 with droppedPackets := 1 }, []) ∧
    (addPacketToBuffer (freshReceiver 100) (seqPacket 200)).1.expectedSequence = 100 ∧
    (addPacketToBuffer (freshReceiver 100) (seqPacket 200)).1.packetBuffer.getD
        (getBufferIndex 200) emptyEntry = emptyEntry ∧
    getBufferIndex 200 = 8 := by
  decide

/-! ## Slot invariant (C11) -/

theorem slotInvariant_of_validCount_zero (buf : List PacketEntry) (hz : validCount buf = 0) :
    slotInvariant buf := by
  intro i e hget hv
  simp only [validCount, List.countP_eq_zero] at hz
  exact absurd hv (hz e (List.getElem?_mem hget))

theorem slotInvariant_set (buf : List PacketEntry) (idx : Nat) (e : PacketEntry)
    (hinv : slotInvariant buf) (he : e.valid = true → e.sequenceNumber % MAX_BUFFER_PACKETS = idx) :
    slotInvariant (buf.set idx e) := by
  intro i e2 hget hv
  by_cases hi : idx = i
  · subst hi
    by_cases hlt : idx < buf.length
    · rw [List.getElem?_set_self hlt] at hget
      simp only [Option.some.injEq] at hget
      subst hget
      exact he hv
    · have hnone : (buf.set idx e)[idx]? = none := by
        apply List.getElem?_eq_none
        rw [List.length_set]
        omega
      rw [hnone] at hget
      cases hget
  · rw [List.getElem?_set_ne hi] at hget
    exact hinv i e2 hget hv

theorem slotInvariant_processLoop (fuel : Nat) :
    ∀ (h : RTPHandler) (released : List PacketEntry), slotInvariant h.packetBuffer →
      slotInvariant (processLoop fuel h released).1.packetBuffer := by
  induction fuel with
  | zero => intro h released hinv; exact hinv
  | succ n ih =>
    intro h released hinv
    by_cases hc : processCond h = true
    · unfold processCond at hc
      simp only [processLoop, hc, if_true]
      apply ih
      exact slotInvariant_set _ _ _ hinv (fun hv => by simp at hv)
    · have hc3 : processCond h = false := by simpa using hc
      rw [processLoop_stop n h released hc3]
      exact hinv

/-- One call of `addPacketToBuffer` keeps the slot invariant, whichever branch the
packet takes. -/
theorem slotInvariant_addPacketToBuffer (h : RTPHandler) (data : List Nat)
    (hinv : slotInvariant h.packetBuffer) :
    slotInvariant (addPacketToBuffer h data).1.packetBuffer := by
  unfold addPacketToBuffer
  by_cases hlen : data.length < RTP_HEADER_SIZE
  · simp only [hlen, if_true]
    exact hinv
  · simp only [hlen, if_false]
    by_cases hst : staleTest SIZE_BITS
        (toInt16 ((ntohs data 2 : Int) - (h.expectedSequence : Int))) = true
    · simp only [hst, if_true]
      exact hinv
    · simp only [hst, Bool.false_eq_true, if_false]
      unfold processBuffer
      apply slotInvariant_processLoop
      by_cases hj : jumpTest SIZE_BITS
          (toInt16 ((ntohs data 2 : Int) - (h.expectedSequence : Int))) = true
      · simp only [hj, if_true]
        split <;>
          exact slotInvariant_set _ _ _
            (slotInvariant_of_validCount_zero _ (validCount_map_clear h.packetBuffer))
            (fun _ => rfl)
      · simp only [hj, Bool.false_eq_true, if_false]
        split <;> exact slotInvariant_set _ _ _ hinv (fun _ => rfl)

theorem slotInvariant_addPackets (packets : List (List Nat)) :
    ∀ h : RTPHandler, slotInvariant h.packetBuffer →
      slotInvariant (addPackets h packets).1.packetBuffer := by
  induction packets with
  | nil => intro h hinv; exact hinv
  | cons p rest ih =>
    intro h hinv
    simp only [addPackets]
    exact ih _ (slotInvariant_addPacketToBuffer h p hinv)

/-- C11: in every state reached from a freshly constructed RTPHandler by any run of
addPacketToBuffer calls, every filled slot at index i holds a sequenceNumber with
sequenceNumber mod 32 = i, so two filled slots never hold the same residue of
seq mod 32. -/
theorem reachable_slotInvariant (ssrc0 seq0 : Nat) (packets : List (List Nat)) :
    (∀ (i : Nat) (e : PacketEntry),
      (addPackets (RTPHandler.init ssrc0 seq0) packets).1.packetBuffer[i]? = some e →
      e.valid = true → e.sequenceNumber % 32 = i) ∧
    (∀ (i j : Nat) (e1 e2 : PacketEntry),
      (addPackets (RTPHandler.init ssrc0 seq0) packets).1.packetBuffer[i]? = some e1 →
      (addPackets (RTPHandler.init ssrc0 seq0) packets).1.packetBuffer[j]? = some e2 →
      e1.valid = true → e2.valid = true →
      e1.sequenceNumber % 32 = e2.sequenceNumber % 32 → i = j) := by
  have hinit : slotInvariant (RTPHandler.init ssrc0 seq0).packetBuffer := by
    apply slotInvariant_of_validCount_zero
    simp [RTPHandler.init, validCount, List.countP_eq_zero, emptyEntry]
  have hinv := slotInvariant_addPackets packets _ hinit
  refine ⟨fun i e hget hv => hinv i e hget hv, ?_⟩
  intro i j e1 e2 h1 h2 hv1 hv2 hres
  have a1 := hinv i e1 h1 hv1
  have a2 := hinv j e2 h2 hv2
  unfold MAX_BUFFER_PACKETS at a1 a2
  omega

/-! ## Inserting a packet twice (C12) -/

/-- C12 at a fresh receiver expecting 100 and the packet of sequence number 60:
inserted once the packet is released once, inserted twice in a row it is released
twice, because the second copy (difference -1) takes the jump branch again. -/
theorem addPacketToBuffer_twice_scenario :
    (addPackets (freshReceiver 100) [seqPacket 60]).2.map (fun e => e.sequenceNumber) = [60] ∧
    (addPackets (freshReceiver 100) [seqPacket 60, seqPacket 60]).2.map
      (fun e => e.sequenceNumber) = [60, 60] ∧
    seqDiffOf (addPacketToBuffer (freshReceiver 100) (seqPacket 60)).1 (seqPacket 60) = -1 := by
  decide

/-! ## Binary32 rounding -/

theorem roundNearestEven_sub_le (q : ℚ) : |(roundNearestEven q : ℚ) - q| ≤ 1 / 2 := by
  have h1 := Int.floor_le q
  have h2 := Int.lt_floor_add_one q
  unfold roundNearestEven
  split
  · rw [abs_le]; constructor <;> linarith
  · split
    · push_cast; rw [abs_le]; constructor <;> linarith
    · split
      · rw [abs_le]; constructor <;> linarith
      · push_cast; rw [abs_le]; constructor <;> linarith

theorem roundNearestEven_intCast (n : Int) : roundNearestEven (n : ℚ) = n := by
  unfold roundNearestEven
  simp

theorem roundNearestEven_bounds (q : ℚ) : ⌊q⌋ ≤ roundNearestEven q ∧ roundNearestEven q ≤ ⌊q⌋ + 1 := by
  unfold roundNearestEven
  split
  · omega
  · split
    · omega
    · split <;> omega

theorem f32_zero : f32 0 = 0 := by
  simp [f32, roundNearestEven]

theorem f32Exponent_ge (x : ℚ) : -126 ≤ f32Exponent x := le_max_right _ _

theorem abs_lt_zpow_f32Exponent (x : ℚ) : |x| < 2 ^ (f32Exponent x + 1) := by
  have h1 : |x| < ((2 : ℕ) : ℚ) ^ (Int.log 2 |x| + 1) := Int.lt_zpow_succ_log_self (by norm_num) _
  have h2 : Int.log 2 |x| + 1 ≤ f32Exponent x + 1 := by
    unfold f32Exponent
    have := le_max_left (Int.log 2 |x|) (-126)
    omega
  calc |x| < ((2 : ℕ) : ℚ) ^ (Int.log 2 |x| + 1) := h1
    _ = (2 : ℚ) ^ (Int.log 2 |x| + 1) := by norm_num
    _ ≤ 2 ^ (f32Exponent x + 1) := zpow_le_zpow_right₀ (by norm_num) h2

theorem f32Exponent_lt (x : ℚ) (k : Int) (h0 : x ≠ 0) (hk : -125 ≤ k) (hx : |x| < 2 ^ k) :
    f32Exponent x < k := by
  unfold f32Exponent
  rw [max_lt_iff]
  refine ⟨?_, by omega⟩
  have hpos : 0 < |x| := abs_pos.mpr h0
  exact (Int.lt_zpow_iff_log_lt (R := ℚ) (b := 2) (by norm_num) (x := k) hpos).mp (by simpa using hx)

theorem f32_sub_eq (x : ℚ) :
    f32 x - x = ((roundNearestEven (x / 2 ^ (f32Exponent x - 23)) : ℚ)
      - x / 2 ^ (f32Exponent x - 23)) * 2 ^ (f32Exponent x - 23) := by
  have hu : (2 : ℚ) ^ (f32Exponent x - 23) ≠ 0 := zpow_ne_zero _ (by norm_num)
  unfold f32
  rw [sub_mul, div_mul_cancel₀ _ hu]

/-- Half an ulp of the binade below `2 ^ k` bounds the rounding error. -/
theorem f32_err_of_lt (x : ℚ) (k : Int) (hk : -125 ≤ k) (hx : |x| < 2 ^ k) :
    |f32 x - x| ≤ 2 ^ (k - 25) := by
  by_cases h0 : x = 0
  · subst h0
    rw [f32_zero]
    simp only [sub_self, abs_zero]
    positivity
  · have he := f32Exponent_lt x k h0 hk hx
    have hupos : (0 : ℚ) < 2 ^ (f32Exponent x - 23) := by positivity
    rw [f32_sub_eq, abs_mul, abs_of_pos hupos]
    have hr := roundNearestEven_sub_le (x / 2 ^ (f32Exponent x - 23))
    calc |(roundNearestEven (x / 2 ^ (f32Exponent x - 23)) : ℚ) - x / 2 ^ (f32Exponent x - 23)|
          * 2 ^ (f32Exponent x - 23)
        ≤ 1 / 2 * 2 ^ (f32Exponent x - 23) := mul_le_mul_of_nonneg_right hr hupos.le
      _ = 2 ^ (f32Exponent x - 24) := by
          rw [show f32Exponent x - 23 = (f32Exponent x - 24) + 1 by ring, zpow_add_one₀ (by norm_num)]
          ring
      _ ≤ 2 ^ (k - 25) := zpow_le_zpow_right₀ (by norm_num) (by omega)

theorem f32_of_dyadic_lt (m j : Int) (hm : |m| < 2 ^ 24) (hj : -149 ≤ j) :
    f32 ((m : ℚ) * 2 ^ j) = (m : ℚ) * 2 ^ j := by
  by_cases h0 : m = 0
  · subst h0; simp [f32_zero]
  · have hx0 : (m : ℚ) * 2 ^ j ≠ 0 := mul_ne_zero (by exact_mod_cast h0) (zpow_ne_zero _ (by norm_num))
    have habs : |(m : ℚ) * 2 ^ j| < 2 ^ (j + 24) := by
      rw [abs_mul, abs_of_pos (show (0 : ℚ) < 2 ^ j by positivity), zpow_add₀ (by norm_num), mul_comm]
      apply mul_lt_mul_of_pos_left _ (by positivity)
      have : ((|m| : Int) : ℚ) < ((2 ^ 24 : Int) : ℚ) := by exact_mod_cast hm
      rw [Int.cast_abs] at this
      calc |(m : ℚ)| < ((2 ^ 24 : Int) : ℚ) := this
        _ = 2 ^ (24 : Int) := by norm_num
    have he := f32Exponent_lt _ (j + 24) hx0 (by omega) habs
    obtain ⟨d, hd⟩ : ∃ d : ℕ, j = f32Exponent ((m : ℚ) * 2 ^ j) - 23 + d :=
      ⟨(j - (f32Exponent ((m : ℚ) * 2 ^ j) - 23)).toNat, by omega⟩
    have hu : (2 : ℚ) ^ (f32Exponent ((m : ℚ) * 2 ^ j) - 23) ≠ 0 := zpow_ne_zero _ (by norm_num)
    have hq : (m : ℚ) * 2 ^ j / 2 ^ (f32Exponent ((m : ℚ) * 2 ^ j) - 23)
        = ((m * 2 ^ d : Int) : ℚ) := by
      rw [div_eq_iff hu]
      push_cast
      conv_lhs => rw [hd]
      rw [zpow_add₀ (by norm_num), zpow_natCast]
      ring
    unfold f32
    rw [hq, roundNearestEven_intCast, ← hq, div_mul_cancel₀ _ hu]

theorem f32_of_dyadic (m j : Int) (hm : |m| ≤ 2 ^ 24) (hj : -149 ≤ j) :
    f32 ((m : ℚ) * 2 ^ j) = (m : ℚ) * 2 ^ j := by
  by_cases hlt : |m| < 2 ^ 24
  · exact f32_of_dyadic_lt m j hlt hj
  · have heq : |m| = 2 ^ 24 := le_antisymm hm (not_lt.mp hlt)
    rcases abs_eq (show (0 : Int) ≤ 2 ^ 24 by norm_num) |>.mp heq with h | h
    · have := f32_of_dyadic_lt 1 (j + 24) (by norm_num) (by omega)
      have e : ((m : Int) : ℚ) * 2 ^ j = ((1 : Int) : ℚ) * 2 ^ (j + 24) := by
        rw [h, zpow_add₀ (by norm_num)]; push_cast; ring
      rw [e]; exact this
    · have := f32_of_dyadic_lt (-1) (j + 24) (by norm_num) (by omega)
      have e : ((m : Int) : ℚ) * 2 ^ j = ((-1 : Int) : ℚ) * 2 ^ (j + 24) := by
        rw [h, zpow_add₀ (by norm_num)]; push_cast; ring
      rw [e]; exact this

theorem f32_intCast (n : Int) (hn : |n| ≤ 2 ^ 24) : f32 (n : ℚ) = n := by
  have := f32_of_dyadic n 0 hn (by norm_num)
  simpa using this

theorem f32_form (x : ℚ) :
    ∃ m : Int, |m| ≤ 2 ^ 24 ∧ f32 x = (m : ℚ) * 2 ^ (f32Exponent x - 23) := by
  refine ⟨roundNearestEven (x / 2 ^ (f32Exponent x - 23)), ?_, rfl⟩
  have hupos : (0 : ℚ) < 2 ^ (f32Exponent x - 23) := by positivity
  have hlt := abs_lt_zpow_f32Exponent x
  have hq : |x / 2 ^ (f32Exponent x - 23)| < 2 ^ 24 := by
    rw [abs_div, abs_of_pos hupos, div_lt_iff₀ hupos]
    calc |x| < 2 ^ (f32Exponent x + 1) := hlt
      _ = 2 ^ 24 * 2 ^ (f32Exponent x - 23) := by
          rw [show f32Exponent x + 1 = (24 : Int) + (f32Exponent x - 23) by ring,
            zpow_add₀ (by norm_num)]
          norm_num
  obtain ⟨hlo, hhi⟩ := roundNearestEven_bounds (x / 2 ^ (f32Exponent x - 23))
  rw [abs_lt] at hq
  have h1 : (-(2 ^ 24) : Int) ≤ ⌊x / 2 ^ (f32Exponent x - 23)⌋ := by
    rw [Int.le_floor]; push_cast; linarith [hq.1]
  have h2 : ⌊x / 2 ^ (f32Exponent x - 23)⌋ < 2 ^ 24 := by
    rw [Int.floor_lt]; push_cast; linarith [hq.2]
  rw [abs_le]
  constructor <;> omega

theorem f32_idem (x : ℚ) : f32 (f32 x) = f32 x := by
  obtain ⟨m, hm, hf⟩ := f32_form x
  rw [hf]
  exact f32_of_dyadic m _ hm (by have := f32Exponent_ge x; omega)

theorem f32_exact (x : ℚ) (m j : Int) (hm : |m| ≤ 2 ^ 24) (hj : -149 ≤ j)
    (hx : x = (m : ℚ) * 2 ^ j) : f32 x = x := by
  rw [hx]; exact f32_of_dyadic m j hm hj

theorem f32Exponent_eq (x : ℚ) (e : Int) (he : -126 ≤ e) (hlo : 2 ^ e ≤ |x|)
    (hhi : |x| < 2 ^ (e + 1)) : f32Exponent x = e := by
  have hpos : 0 < |x| := lt_of_lt_of_le (by positivity) hlo
  have h1 : e ≤ Int.log 2 |x| :=
    (Int.zpow_le_iff_le_log (R := ℚ) (b := 2) (by norm_num) (x := e) hpos).mp (by simpa using hlo)
  have h2 : Int.log 2 |x| < e + 1 :=
    (Int.lt_zpow_iff_log_lt (R := ℚ) (b := 2) (by norm_num) (x := e + 1) hpos).mp
      (by simpa using hhi)
  unfold f32Exponent
  rw [max_eq_left (by omega)]
  omega

theorem roundNearestEven_eq (q : ℚ) (n : Int) (h : |q - n| < 1 / 2) : roundNearestEven q = n := by
  rw [abs_lt] at h
  have hf : ⌊q⌋ = n ∨ ⌊q⌋ = n - 1 := by
    by_cases hq : (n : ℚ) ≤ q
    · left; rw [Int.floor_eq_iff]; constructor <;> linarith [h.1, h.2]
    · right; rw [Int.floor_eq_iff]; push_cast; constructor <;> linarith [h.1, h.2]
  unfold roundNearestEven
  rcases hf with hf | hf
  · rw [hf, if_pos (by linarith [h.2])]
  · rw [hf]
    push_cast
    rw [if_neg (by linarith [h.1]), if_pos (by linarith [h.1])]
    omega

/-- The value of an inexact rounding, from its binade and its nearest multiple. -/
theorem f32_eq (x : ℚ) (e n : Int) (he : -126 ≤ e) (hlo : 2 ^ e ≤ |x|)
    (hhi : |x| < 2 ^ (e + 1)) (hn : |x / 2 ^ (e - 23) - n| < 1 / 2) :
    f32 x = (n : ℚ) * 2 ^ (e - 23) := by
  unfold f32
  rw [f32Exponent_eq x e he hlo hhi, roundNearestEven_eq _ n hn]

/-! ## Float literals of the codec -/

theorem floatLit_zero : floatLit 0 = 0 := f32_zero

theorem floatLit_one : floatLit 1 = 1 :=
  f32_exact 1 1 0 (by norm_num) (by norm_num) (by norm_num)

theorem floatLit_neg_one : floatLit (-1) = -1 :=
  f32_exact (-1) (-1) 0 (by norm_num) (by norm_num) (by norm_num)

theorem floatLit_half : floatLit (1 / 2) = 1 / 2 :=
  f32_exact (1 / 2) 1 (-1) (by norm_num) (by norm_num) (by norm_num)

theorem floatLit_four : floatLit 4 = 4 :=
  f32_exact 4 4 0 (by norm_num) (by norm_num) (by norm_num)

theorem floatLit_32767 : floatLit 32767 = 32767 :=
  f32_exact 32767 32767 0 (by norm_num) (by norm_num) (by norm_num)

theorem floatLit_neg_32768 : floatLit (-32768) = -32768 :=
  f32_exact (-32768) (-32768) 0 (by norm_num) (by norm_num) (by norm_num)

theorem floatLit_8388607 : floatLit 8388607 = 8388607 :=
  f32_exact 8388607 8388607 0 (by norm_num) (by norm_num) (by norm_num)

theorem floatLit_neg_8388608 : floatLit (-8388608) = -8388608 :=
  f32_exact (-8388608) (-8388608) 0 (by norm_num) (by norm_num) (by norm_num)

theorem floatLit_neg_2147483648 : floatLit (-2147483648) = -2147483648 :=
  f32_exact (-2147483648) (-1) 31 (by norm_num) (by norm_num) (by norm_num)

/-- The literal `2147483647.0f` is no binary32 value: it denotes 2^31. -/
theorem floatLit_2147483647 : floatLit 2147483647 = 2147483648 := by
  unfold floatLit
  rw [f32_eq 2147483647 30 16777216 (by norm_num) (by norm_num) (by norm_num)
    (by norm_num [abs_lt])]
  norm_num

/-! ## Decoding: bytes to integer to float (C13) -/

theorem shl_or_eq (a b k : Nat) (hb : b < 2 ^ k) : (a <<< k) ||| b = a * 2 ^ k + b := by
  rw [Nat.shiftLeft_eq, Nat.mul_comm a, Nat.mul_add_lt_is_or hb]

theorem lit_or_eq (b : Nat) (hb : b < 2 ^ 24) : 0xFF000000 ||| b = 0xFF000000 + b := by
  have := Nat.mul_add_lt_is_or hb 255
  norm_num at this ⊢
  exact this.symm

theorem and_80_ne_zero_iff (b : Nat) (hb : b < 256) : (b &&& 0x80 ≠ 0 ↔ 128 ≤ b) := by
  have h : b &&& 2 ^ 7 = (b.testBit 7).toNat * 2 ^ 7 := Nat.and_two_pow b 7
  have ht : b.testBit 7 = decide (b / 2 ^ 7 % 2 = 1) := Nat.testBit_to_div_mod
  norm_num at h ht
  rw [h]
  by_cases hge : 128 ≤ b
  · have : b / 128 % 2 = 1 := by omega
    simp [ht, this, hge]
  · have : ¬ (b / 128 % 2 = 1) := by omega
    simp [ht, this, hge]

theorem exists_two_of_length (src : List Nat) (h : 2 ≤ src.length) :
    ∃ b0 b1 rest, src = b0 :: b1 :: rest := by
  match src, h with
  | b0 :: b1 :: rest, _ => exact ⟨b0, b1, rest, rfl⟩

theorem exists_three_of_length (src : List Nat) (h : 3 ≤ src.length) :
    ∃ b0 b1 b2 rest, src = b0 :: b1 :: b2 :: rest := by
  match src, h with
  | b0 :: b1 :: b2 :: rest, _ => exact ⟨b0, b1, b2, rest, rfl⟩

theorem exists_four_of_length (src : List Nat) (h : 4 ≤ src.length) :
    ∃ b0 b1 b2 b3 rest, src = b0 :: b1 :: b2 :: b3 :: rest := by
  match src, h with
  | b0 :: b1 :: b2 :: b3 :: rest, _ => exact ⟨b0, b1, b2, b3, rest, rfl⟩

theorem be16_eq (b0 b1 : Nat) (h1 : b1 < 256) : (b0 <<< 8) ||| b1 = b0 * 256 + b1 := by
  have := shl_or_eq b0 b1 8 (by simpa using h1)
  simpa using this

theorem be24_eq (b0 b1 b2 : Nat) (h1 : b1 < 256) (h2 : b2 < 256) :
    (b0 <<< 16) ||| (b1 <<< 8) ||| b2 = (b0 * 256 + b1) * 256 + b2 := by
  have e1 : (b0 <<< 16) ||| (b1 <<< 8) = (b0 * 256 + b1) <<< 8 := by
    have := shl_or_eq b0 (b1 <<< 8) 16 (by rw [Nat.shiftLeft_eq]; omega)
    rw [this, Nat.shiftLeft_eq, Nat.shiftLeft_eq]; ring
  rw [e1, shl_or_eq _ b2 8 (by simpa using h2)]
  norm_num

theorem be32_eq (b0 b1 b2 b3 : Nat) (h1 : b1 < 256) (h2 : b2 < 256) (h3 : b3 < 256) :
    (b0 <<< 24) ||| (b1 <<< 16) ||| (b2 <<< 8) ||| b3 = ((b0 * 256 + b1) * 256 + b2) * 256 + b3 := by
  have e1 : (b0 <<< 24) ||| (b1 <<< 16) = (b0 * 256 + b1) <<< 16 := by
    have := shl_or_eq b0 (b1 <<< 16) 24 (by rw [Nat.shiftLeft_eq]; omega)
    rw [this, Nat.shiftLeft_eq, Nat.shiftLeft_eq]; ring
  have e2 : ((b0 * 256 + b1) <<< 16) ||| (b2 <<< 8) = ((b0 * 256 + b1) * 256 + b2) <<< 8 := by
    have := shl_or_eq (b0 * 256 + b1) (b2 <<< 8) 16 (by rw [Nat.shiftLeft_eq]; omega)
    rw [this, Nat.shiftLeft_eq, Nat.shiftLeft_eq]; ring
  rw [e1, e2, shl_or_eq _ b3 8 (by simpa using h3)]
  norm_num

theorem intToFloatValue_16 (src : List Nat) (hbytes : ∀ b ∈ src, b < 256)
    (hlen : 2 ≤ src.length) : intToFloatValue 16 src = twosComplementBE 2 src := by
  obtain ⟨b0, b1, rest, rfl⟩ := exists_two_of_length src hlen
  have h0 : b0 < 256 := hbytes b0 (by simp)
  have h1 : b1 < 256 := hbytes b1 (by simp)
  have e : intToFloatValue 16 (b0 :: b1 :: rest)
      = toInt16 (((b0 <<< 8) ||| b1 : Nat) : Int) := by
    simp [intToFloatValue]
  have hb : bigEndian (List.take 2 (b0 :: b1 :: rest)) = b0 * 256 + b1 := by
    simp [bigEndian, bigEndianFrom]
  rw [e, twosComplementBE, hb, be16_eq b0 b1 h1]
  simp only [toInt16]
  norm_num
  split_ifs <;> omega

theorem intToFloatValue_24 (src : List Nat) (hbytes : ∀ b ∈ src, b < 256)
    (hlen : 3 ≤ src.length) : intToFloatValue 24 src = twosComplementBE 3 src := by
  obtain ⟨b0, b1, b2, rest, rfl⟩ := exists_three_of_length src hlen
  have h0 : b0 < 256 := hbytes b0 (by simp)
  have h1 : b1 < 256 := hbytes b1 (by simp)
  have h2 : b2 < 256 := hbytes b2 (by simp)
  have hv : (b0 * 256 + b1) * 256 + b2 < 2 ^ 24 := by omega
  have hs := and_80_ne_zero_iff b0 h0
  have e : intToFloatValue 24 (b0 :: b1 :: b2 :: rest)
      = if b0 &&& 0x80 ≠ 0 then
          toInt32 ((0xFF000000 ||| (b0 <<< 16) ||| (b1 <<< 8) ||| b2 : Nat) : Int)
        else (((b0 <<< 16) ||| (b1 <<< 8) ||| b2 : Nat) : Int) := by
    simp [intToFloatValue]
  have hb : bigEndian (List.take 3 (b0 :: b1 :: b2 :: rest)) = (b0 * 256 + b1) * 256 + b2 := by
    simp [bigEndian, bigEndianFrom]
  rw [e, twosComplementBE, hb]
  by_cases hneg : 128 ≤ b0
  · rw [if_pos (hs.mpr hneg)]
    rw [Nat.lor_assoc, Nat.lor_assoc, ← Nat.lor_assoc (b0 <<< 16), be24_eq b0 b1 b2 h1 h2,
      lit_or_eq _ hv]
    simp only [toInt32]
    norm_num
    split_ifs <;> omega
  · rw [if_neg (fun h => hneg (hs.mp h)), be24_eq b0 b1 b2 h1 h2]
    norm_num
    split_ifs <;> omega

theorem intToFloatValue_32 (src : List Nat) (hbytes : ∀ b ∈ src, b < 256)
    (hlen : 4 ≤ src.length) : intToFloatValue 32 src = twosComplementBE 4 src := by
  obtain ⟨b0, b1, b2, b3, rest, rfl⟩ := exists_four_of_length src hlen
  have h0 : b0 < 256 := hbytes b0 (by simp)
  have h1 : b1 < 256 := hbytes b1 (by simp)
  have h2 : b2 < 256 := hbytes b2 (by simp)
  have h3 : b3 < 256 := hbytes b3 (by simp)
  have e : intToFloatValue 32 (b0 :: b1 :: b2 :: b3 :: rest)
      = toInt32 (((b0 <<< 24) ||| (b1 <<< 16) ||| (b2 <<< 8) ||| b3 : Nat) : Int) := by
    simp [intToFloatValue]
  have hb : bigEndian (List.take 4 (b0 :: b1 :: b2 :: b3 :: rest))
      = ((b0 * 256 + b1) * 256 + b2) * 256 + b3 := by
    simp [bigEndian, bigEndianFrom]
  rw [e, twosComplementBE, hb, be32_eq b0 b1 b2 b3 h1 h2 h3]
  simp only [toInt32]
  norm_num
  split_ifs <;> omega

theorem clampUnit_eq_ite (s : ℚ) :
    (if s > floatLit 1 then floatLit 1 else if s < floatLit (-1) then floatLit (-1) else s)
      = clampUnit s := by
  rw [floatLit_one, floatLit_neg_one]
  unfold clampUnit
  simp only [max_def, min_def]
  split_ifs <;> first | rfl | linarith

theorem clampUnit_bounds (s : ℚ) : -1 ≤ clampUnit s ∧ clampUnit s ≤ 1 := by
  unfold clampUnit
  exact ⟨le_max_left _ _, max_le (by norm_num) (min_le_left _ _)⟩

theorem clampUnit_lipschitz (a b : ℚ) : |clampUnit a - clampUnit b| ≤ |a - b| := by
  unfold clampUnit
  simp only [max_def, min_def]
  rw [abs_le]
  have h1 := neg_abs_le (a - b)
  have h2 := le_abs_self (a - b)
  split_ifs <;> constructor <;> linarith

/-- Rounding error of a quotient below 2 in magnitude. -/
theorem f32_div_err (q M : ℚ) (hM : 0 < M) (hq : |q| < 2 * M) :
    |f32 (q / M) - q / M| ≤ 1 / 2 ^ 24 := by
  have hMpos : 0 < M := hM
  have hy : |q / M| < 2 ^ (1 : Int) := by
    rw [abs_div, abs_of_pos hMpos, div_lt_iff₀ hMpos]
    norm_num
    linarith
  have := f32_err_of_lt (q / M) 1 (by norm_num) hy
  norm_num at this ⊢
  exact this

theorem decode_err_exact (q : Int) (M : ℚ) (hM : 32767 ≤ M) (hq : |(q : ℚ)| ≤ M + 1)
    (hq24 : |q| ≤ 2 ^ 24) :
    |clampUnit (f32 (f32 (q : ℚ) / M)) - clampUnit ((q : ℚ) / M)| ≤ 1 / 2 ^ 22 := by
  rw [f32_intCast q hq24]
  calc |clampUnit (f32 ((q : ℚ) / M)) - clampUnit ((q : ℚ) / M)|
      ≤ |f32 ((q : ℚ) / M) - (q : ℚ) / M| := clampUnit_lipschitz _ _
    _ ≤ 1 / 2 ^ 24 := f32_div_err _ M (by linarith) (by linarith)
    _ ≤ 1 / 2 ^ 22 := by norm_num

theorem decode_err_32 (q : Int) (hlo : -2147483648 ≤ q) (hhi : q ≤ 2147483647) :
    |clampUnit (f32 (f32 (q : ℚ) / 2147483648)) - clampUnit ((q : ℚ) / 2147483647)|
      ≤ 1 / 2 ^ 22 := by
  have hqa : |(q : ℚ)| ≤ 2147483648 := by
    rw [abs_le]; constructor
    · have : ((-2147483648 : Int) : ℚ) ≤ q := by exact_mod_cast hlo
      simpa using this
    · have : (q : ℚ) ≤ ((2147483647 : Int) : ℚ) := by exact_mod_cast hhi
      norm_num at this; linarith
  have h1 : |f32 (q : ℚ) - q| ≤ 128 := by
    have := f32_err_of_lt (q : ℚ) 32 (by norm_num) (by norm_num; linarith)
    norm_num at this
    exact this
  have hfq : |f32 (q : ℚ)| ≤ 2147483648 + 128 := by
    have := abs_sub_abs_le_abs_sub (f32 (q : ℚ)) q
    linarith
  have h2 := f32_div_err (f32 (q : ℚ)) 2147483648 (by norm_num) (by linarith)
  have h3 : |f32 (q : ℚ) / 2147483648 - (q : ℚ) / 2147483647| ≤ 1 / 2 ^ 23 := by
    have e : f32 (q : ℚ) / 2147483648 - (q : ℚ) / 2147483647
        = (f32 (q : ℚ) - q) / 2147483648 - (q : ℚ) / (2147483648 * 2147483647) := by
      field_simp; ring
    rw [e]
    have a1 : |(f32 (q : ℚ) - q) / 2147483648| ≤ 128 / 2147483648 := by
      rw [abs_div]
      norm_num
      linarith
    have a2 : |(q : ℚ) / (2147483648 * 2147483647)| ≤ 2147483648 / (2147483648 * 2147483647) := by
      rw [abs_div]
      norm_num
      linarith
    have := abs_sub (((f32 (q : ℚ) - q) / 2147483648)) ((q : ℚ) / (2147483648 * 2147483647))
    norm_num at a1 a2 this ⊢
    linarith
  calc |clampUnit (f32 (f32 (q : ℚ) / 2147483648)) - clampUnit ((q : ℚ) / 2147483647)|
      ≤ |f32 (f32 (q : ℚ) / 2147483648) - (q : ℚ) / 2147483647| := clampUnit_lipschitz _ _
    _ ≤ |f32 (f32 (q : ℚ) / 2147483648) - f32 (q : ℚ) / 2147483648|
          + |f32 (q : ℚ) / 2147483648 - (q : ℚ) / 2147483647| := abs_sub_le _ _ _
    _ ≤ 1 / 2 ^ 24 + 1 / 2 ^ 23 := add_le_add h2 h3
    _ ≤ 1 / 2 ^ 22 := by norm_num

theorem bigEndianFrom_lt (l : List Nat) (hbytes : ∀ b ∈ l, b < 256) :
    ∀ acc : Nat, bigEndianFrom acc l < (acc + 1) * 256 ^ l.length := by
  induction l with
  | nil => intro acc; simp [bigEndianFrom]
  | cons b rest ih =>
    intro acc
    have hb : b < 256 := hbytes b (by simp)
    have := ih (fun x hx => hbytes x (List.mem_cons_of_mem b hx)) (acc * 256 + b)
    simp only [bigEndianFrom, List.length_cons, pow_succ]
    calc bigEndianFrom (acc * 256 + b) rest < (acc * 256 + b + 1) * 256 ^ rest.length := this
      _ ≤ ((acc + 1) * 256) * 256 ^ rest.length := Nat.mul_le_mul_right _ (by omega)
      _ = (acc + 1) * (256 ^ rest.length * 256) := by ring

theorem bigEndian_take_lt (n : Nat) (src : List Nat) (hbytes : ∀ b ∈ src, b < 256)
    (hlen : n ≤ src.length) : bigEndian (src.take n) < 2 ^ (8 * n) := by
  have := bigEndianFrom_lt (src.take n) (fun b hb => hbytes b (List.mem_of_mem_take hb)) 0
  rw [List.length_take, Nat.min_eq_left hlen] at this
  unfold bigEndian
  calc bigEndianFrom 0 (src.take n) < (0 + 1) * 256 ^ n := this
    _ = 2 ^ (8 * n) := by rw [pow_mul]; norm_num

theorem twosComplementBE_range (n : Nat) (hn : 0 < n) (src : List Nat)
    (hbytes : ∀ b ∈ src, b < 256) (hlen : n ≤ src.length) :
    -(2 ^ (8 * n - 1) : Int) ≤ twosComplementBE n src ∧
      twosComplementBE n src < 2 ^ (8 * n - 1) := by
  have hb := bigEndian_take_lt n src hbytes hlen
  have hpowI : (2 : Int) ^ (8 * n) = 2 * 2 ^ (8 * n - 1) := by
    rw [← pow_succ']; congr 1; omega
  have hpos : (0 : Int) < 2 ^ (8 * n - 1) := by positivity
  unfold twosComplementBE
  split_ifs with h
  · constructor
    · omega
    · exact_mod_cast h
  · have h2 : 2 ^ (8 * n - 1) ≤ bigEndian (src.take n) := not_lt.mp h
    have h2' : (2 : Int) ^ (8 * n - 1) ≤ (bigEndian (src.take n) : Int) := by exact_mod_cast h2
    have h3' : (bigEndian (src.take n) : Int) < 2 ^ (8 * n) := by exact_mod_cast hb
    constructor <;> omega

theorem intToFloatSample_16 (c : AudioConverter) (src : List Nat) :
    intToFloatSample (c.setBitDepth 16) src
      = clampUnit (f32 (f32 (intToFloatValue 16 src) / 32767)) := by
  unfold intToFloatSample
  simp only [AudioConverter.setBitDepth, if_true]
  rw [clampUnit_eq_ite, floatLit_32767]

theorem intToFloatSample_24 (c : AudioConverter) (src : List Nat) :
    intToFloatSample (c.setBitDepth 24) src
      = clampUnit (f32 (f32 (intToFloatValue 24 src) / 8388607)) := by
  unfold intToFloatSample
  simp only [AudioConverter.setBitDepth, if_true, Nat.reduceEqDiff, if_false]
  rw [clampUnit_eq_ite, floatLit_8388607]

theorem intToFloatSample_32 (c : AudioConverter) (src : List Nat) :
    intToFloatSample (c.setBitDepth 32) src
      = clampUnit (f32 (f32 (intToFloatValue 32 src) / 2147483648)) := by
  unfold intToFloatSample
  simp only [AudioConverter.setBitDepth, if_true, Nat.reduceEqDiff, if_false]
  rw [clampUnit_eq_ite, floatLit_2147483647]

/-- C13: for every B in {16, 24, 32} and every B/8-byte sample, the integer that
intToFloat rebuilds is the two's-complement value q of the big-endian bytes and the
sample it yields is clamp(q / S_max, -1, +1) as binary32 arithmetic evaluates it (q
and S_max = 2^(B-1) - 1 taken as floats, the quotient rounded to nearest), which is
within 2^-22 of the exact clamp(q / S_max, -1, +1); every decoded value lies in
[-1, +1], and at B = 24 the bytes 3F FF FF give q = 4194303 and a value within
[0.4999, 0.5001]. -/
theorem intToFloat_yields (c : AudioConverter) (B : Nat) (hB : B = 16 ∨ B = 24 ∨ B = 32)
    (src : List Nat) (hbytes : ∀ b ∈ src, b < 256) (hlen : B / 8 ≤ src.length) :
    intToFloatValue B src = twosComplementBE (B / 8) src ∧
    intToFloatSample (c.setBitDepth B) src
      = clampUnit (f32 (f32 (twosComplementBE (B / 8) src) / floatLit (2 ^ (B - 1) - 1))) ∧
    |intToFloatSample (c.setBitDepth B) src
        - clampUnit ((twosComplementBE (B / 8) src : ℚ) / (2 ^ (B - 1) - 1))| ≤ 1 / 2 ^ 22 ∧
    -1 ≤ intToFloatSample (c.setBitDepth B) src ∧ intToFloatSample (c.setBitDepth B) src ≤ 1 ∧
    intToFloatValue 24 [0x3F, 0xFF, 0xFF] = 4194303 ∧
    4999 / 10000 ≤ intToFloatSample (c.setBitDepth 24) [0x3F, 0xFF, 0xFF] ∧
    intToFloatSample (c.setBitDepth 24) [0x3F, 0xFF, 0xFF] ≤ 5001 / 10000 := by
  have hex : intToFloatValue 24 [0x3F, 0xFF, 0xFF] = 4194303 := by decide
  have hsample : intToFloatSample (c.setBitDepth 24) [0x3F, 0xFF, 0xFF]
      = clampUnit (f32 ((4194303 : ℚ) / 8388607)) := by
    rw [intToFloatSample_24, hex]
    have := f32_intCast 4194303 (by norm_num)
    norm_num at this ⊢
    rw [this]
  have herr := f32_err_of_lt ((4194303 : ℚ) / 8388607) 0 (by norm_num)
    (by rw [abs_of_pos (by norm_num)]; norm_num)
  rw [abs_le] at herr
  norm_num at herr
  have hclamp : clampUnit (f32 ((4194303 : ℚ) / 8388607)) = f32 ((4194303 : ℚ) / 8388607) := by
    unfold clampUnit
    rw [min_eq_right (by linarith [herr.2]), max_eq_right (by linarith [herr.1])]
  refine ⟨?_, ?_, ?_, ?_, ?_, hex, ?_, ?_⟩
  · rcases hB with rfl | rfl | rfl
    · exact intToFloatValue_16 src hbytes hlen
    · exact intToFloatValue_24 src hbytes hlen
    · exact intToFloatValue_32 src hbytes hlen
  · rcases hB with rfl | rfl | rfl
    · rw [intToFloatSample_16, intToFloatValue_16 src hbytes hlen]
      norm_num [floatLit_32767]
    · rw [intToFloatSample_24, intToFloatValue_24 src hbytes hlen]
      norm_num [floatLit_8388607]
    · rw [intToFloatSample_32, intToFloatValue_32 src hbytes hlen]
      norm_num [floatLit_2147483647]
  · rcases hB with rfl | rfl | rfl
    · rw [intToFloatSample_16, intToFloatValue_16 src hbytes hlen]
      obtain ⟨hlo, hhi⟩ := twosComplementBE_range 2 (by norm_num) src hbytes hlen
      norm_num at hlo hhi
      have hq : |((twosComplementBE 2 src : Int) : ℚ)| ≤ 32767 + 1 := by
        rw [abs_le]; constructor
        · have : ((-32768 : Int) : ℚ) ≤ twosComplementBE 2 src := by exact_mod_cast hlo
          norm_num at this ⊢; linarith
        · have : ((twosComplementBE 2 src : Int) : ℚ) ≤ ((32768 : Int) : ℚ) := by
            exact_mod_cast hhi.le
          norm_num at this ⊢; linarith
      have := decode_err_exact (twosComplementBE 2 src) 32767 (by norm_num) hq
        (by rw [abs_le]; constructor <;> omega)
      norm_num at this ⊢
      exact this
    · rw [intToFloatSample_24, intToFloatValue_24 src hbytes hlen]
      obtain ⟨hlo, hhi⟩ := twosComplementBE_range 3 (by norm_num) src hbytes hlen
      norm_num at hlo hhi
      have hq : |((twosComplementBE 3 src : Int) : ℚ)| ≤ 8388607 + 1 := by
        rw [abs_le]; constructor
        · have : ((-8388608 : Int) : ℚ) ≤ twosComplementBE 3 src := by exact_mod_cast hlo
          norm_num at this ⊢; linarith
        · have : ((twosComplementBE 3 src : Int) : ℚ) ≤ ((8388608 : Int) : ℚ) := by
            exact_mod_cast hhi.le
          norm_num at this ⊢; linarith
      have := decode_err_exact (twosComplementBE 3 src) 8388607 (by norm_num) hq
        (by rw [abs_le]; constructor <;> omega)
      norm_num at this ⊢
      exact this
    · rw [intToFloatSample_32, intToFloatValue_32 src hbytes hlen]
      obtain ⟨hlo, hhi⟩ := twosComplementBE_range 4 (by norm_num) src hbytes hlen
      norm_num at hlo hhi
      have := decode_err_32 (twosComplementBE 4 src) hlo (by omega)
      norm_num at this ⊢
      exact this
  · rcases hB with rfl | rfl | rfl
    · rw [intToFloatSample_16]; exact (clampUnit_bounds _).1
    · rw [intToFloatSample_24]; exact (clampUnit_bounds _).1
    · rw [intToFloatSample_32]; exact (clampUnit_bounds _).1
  · rcases hB with rfl | rfl | rfl
    · rw [intToFloatSample_16]; exact (clampUnit_bounds _).2
    · rw [intToFloatSample_24]; exact (clampUnit_bounds _).2
    · rw [intToFloatSample_32]; exact (clampUnit_bounds _).2
  · rw [hsample, hclamp]; linarith [herr.1]
  · rw [hsample, hclamp]; linarith [herr.2]

/-- Witness of C13 at the bytes 3F FF FF of a 24-bit stream. -/
theorem intToFloat_yields_witness :
    ((24 : Nat) = 16 ∨ (24 : Nat) = 24 ∨ (24 : Nat) = 32) ∧
    (∀ b ∈ [0x3F, 0xFF, 0xFF], b < 256) ∧ 24 / 8 ≤ [0x3F, 0xFF, 0xFF].length ∧
    intToFloatValue 24 [0x3F, 0xFF, 0xFF] = twosComplementBE (24 / 8) [0x3F, 0xFF, 0xFF] ∧
    -1 ≤ intToFloatSample (AudioConverter.init.setBitDepth 24) [0x3F, 0xFF, 0xFF] ∧
    intToFloatSample (AudioConverter.init.setBitDepth 24) [0x3F, 0xFF, 0xFF] ≤ 1 :=
  have h := intToFloat_yields AudioConverter.init 24 (by decide) [0x3F, 0xFF, 0xFF]
    (by decide) (by decide)
  ⟨by decide, by decide, by decide, h.1, h.2.2.2.1, h.2.2.2.2.1⟩

/-! ## Unsupported bit depth (C16) -/

theorem setBitDepth_fallback (c : AudioConverter) (n : Nat) (h16 : n ≠ 16) (h24 : n ≠ 24)
    (h32 : n ≠ 32) : c.setBitDepth n = c.setBitDepth 24 := by
  simp [AudioConverter.setBitDepth, h16, h24, h32]

theorem bridge_setBitDepth_invalid (b : AES67Bridge) (bits : Int)
    (h : bits ≠ 16 ∧ bits ≠ 24 ∧ bits ≠ 32) : b.setBitDepth bits = b := by
  unfold AES67Bridge.setBitDepth
  by_cases ha : b.networkActive = true
  · rw [if_pos ha]
  · rw [if_neg ha, if_pos h]

/-- C16 as stated fails on the codec: a converter configured for 16 bits that is
then given the unsupported depth 20 is not left alone; it is rewritten to the 24-bit
parameters. -/
theorem setBitDepth_unsupported_mutates :
    (AudioConverter.init.setBitDepth 16).bitDepth = 16 ∧
    ((AudioConverter.init.setBitDepth 16).setBitDepth 20).bitDepth = 24 ∧
    (AudioConverter.init.setBitDepth 16).bytesPerSample = 2 ∧
    ((AudioConverter.init.setBitDepth 16).setBitDepth 20).bytesPerSample = 3 ∧
    (AudioConverter.init.setBitDepth 16).maxIntValue = 32767 ∧
    ((AudioConverter.init.setBitDepth 16).setBitDepth 20).maxIntValue = 8388607 :=
  ⟨by decide, by decide, by decide, by decide, floatLit_32767, floatLit_8388607⟩

/-- C16 amended: a bit depth outside {16, 24, 32} given to AES67Bridge::setBitDepth is
rejected and mutates nothing, neither the bridge nor its codec (bitDepth,
maxIntValue, minIntValue, ditherScale and bytesPerSample keep their values);
AudioConverter::setBitDepth itself does not reject such a depth: it configures the
codec for 24 bits. -/
theorem setBitDepth_unsupported (b : AES67Bridge) (c : AudioConverter) (bits : Int) (n : Nat)
    (hbits : bits ≠ 16 ∧ bits ≠ 24 ∧ bits ≠ 32) (hn : n ≠ 16 ∧ n ≠ 24 ∧ n ≠ 32) :
    b.setBitDepth bits = b ∧ (b.setBitDepth bits).converter = b.converter ∧
    c.setBitDepth n = c.setBitDepth 24 ∧
    (c.setBitDepth n).bitDepth = 24 ∧ (c.setBitDepth n).bytesPerSample = 3 ∧
    (c.setBitDepth n).maxIntValue = 8388607 ∧ (c.setBitDepth n).minIntValue = -8388608 := by
  have hb := bridge_setBitDepth_invalid b bits hbits
  have hc := setBitDepth_fallback c n hn.1 hn.2.1 hn.2.2
  refine ⟨hb, by rw [hb], hc, ?_, ?_, ?_, ?_⟩
  · rw [hc]; simp [AudioConverter.setBitDepth]
  · rw [hc]; simp [AudioConverter.setBitDepth]
  · rw [hc]; simp [AudioConverter.setBitDepth, floatLit_8388607]
  · rw [hc]; simp [AudioConverter.setBitDepth, floatLit_neg_8388608]

/-- Witness of C16 amended: depth 20 at a fresh bridge and at a 16-bit codec. -/
theorem setBitDepth_unsupported_witness :
    ((20 : Int) ≠ 16 ∧ (20 : Int) ≠ 24 ∧ (20 : Int) ≠ 32) ∧
    ((20 : Nat) ≠ 16 ∧ (20 : Nat) ≠ 24 ∧ (20 : Nat) ≠ 32) ∧
    (AES67Bridge.init 1 0 48000).setBitDepth 20 = AES67Bridge.init 1 0 48000 ∧
    ((AudioConverter.init.setBitDepth 16).setBitDepth 20).bitDepth = 24 :=
  have h := setBitDepth_unsupported (AES67Bridge.init 1 0 48000)
    (AudioConverter.init.setBitDepth 16) 20 20 (by decide) (by decide)
  ⟨by decide, by decide, h.1, h.2.2.2.1⟩

/-! ## Encoding one sample -/

theorem clipSample_of_gt (c : AudioConverter) (t : ℚ) (h : t > c.maxIntValue) :
    clipSample c t = c.maxIntValue := by
  unfold clipSample; rw [if_pos h]

theorem clipSample_of_mem (c : AudioConverter) (t : ℚ) (h1 : t ≤ c.maxIntValue)
    (h2 : c.minIntValue ≤ t) : clipSample c t = t := by
  unfold clipSample; rw [if_neg (not_lt.mpr h1), if_neg (not_lt.mpr h2)]

theorem clipSample_of_lt (c : AudioConverter) (t : ℚ) (h1 : t ≤ c.maxIntValue)
    (h2 : t < c.minIntValue) : clipSample c t = c.minIntValue := by
  unfold clipSample; rw [if_neg (not_lt.mpr h1), if_pos h2]

theorem floatToIntSample_eval (c : AudioConverter) (d : DitherState) (sample u : ℚ)
    (fb scaled random t dithered : ℚ) (q : Int)
    (h0 : f32 (f32 (d.error - d.errorPrev1) + d.errorPrev2) = fb)
    (hs : f32 (f32 (sample * c.maxIntValue) + fb) = scaled)
    (hr : f32 (u * c.ditherScale) = random)
    (ht : f32 (f32 (scaled + 1 / 2) + f32 (random - d.random)) = t)
    (hd : clipSample c t = dithered)
    (hq : floatToInt32 dithered = some q) :
    floatToIntSample c d sample u
      = some (sampleToBytes c.bitDepth q,
          { random := random, errorPrev2 := d.errorPrev1, errorPrev1 := d.error,
            error := f32 (scaled - f32 q) }) := by
  subst h0 hs hr
  have ht2 : f32 (f32 (f32 (f32 (sample * c.maxIntValue)
      + f32 (f32 (d.error - d.errorPrev1) + d.errorPrev2)) + floatLit (1 / 2))
      + f32 (f32 (u * c.ditherScale) - d.random)) = t := by
    rw [floatLit_half, ← ht]
  unfold floatToIntSample
  simp only [ht2, hd, hq]


theorem floatToInt32_of_nonneg (x : ℚ) (n : Int) (h0 : 0 ≤ x) (hn : (n : ℚ) ≤ x)
    (hn1 : x < n + 1) (hr : n ≤ 2147483647) : floatToInt32 x = some n := by
  have hf : ⌊x⌋ = n := by rw [Int.floor_eq_iff]; exact ⟨hn, hn1⟩
  have hn0 : 0 ≤ n := by rw [← hf]; exact Int.floor_nonneg.mpr h0
  unfold floatToInt32
  simp only [if_pos h0, hf]
  rw [if_pos ⟨by omega, hr⟩]

theorem floatToInt32_of_neg (x : ℚ) (n : Int) (h0 : x < 0) (hn : (n : ℚ) - 1 < x)
    (hn1 : x ≤ n) (hr : -2147483648 ≤ n) : floatToInt32 x = some n := by
  have hf : ⌈x⌉ = n := by rw [Int.ceil_eq_iff]; exact ⟨hn, hn1⟩
  have hn0 : n ≤ 0 := by rw [← hf]; exact Int.ceil_le.mpr (by simpa using h0.le)
  unfold floatToInt32
  simp only [if_neg (not_le.mpr h0), hf]
  rw [if_pos ⟨hr, by omega⟩]

theorem f32_dyadic (m : Int) (k : Nat) (hm : |m| ≤ 2 ^ 24) (hk : k ≤ 149) (x : ℚ)
    (hx : x = m / 2 ^ k) : f32 x = x :=
  f32_exact x m (-(k : Int)) hm (by omega) (by rw [hx, zpow_neg, zpow_natCast]; ring)

theorem floatToIntSample_undithered (c : AudioConverter) (d : DitherState) (x : ℚ)
    (hrand : d.random = 0) (fb s t dithered : ℚ) (q : Int)
    (h0 : f32 (f32 (d.error - d.errorPrev1) + d.errorPrev2) = fb)
    (hs : f32 (f32 (x * c.maxIntValue) + fb) = s)
    (ht : f32 (s + 1 / 2) = t)
    (hd : clipSample c t = dithered)
    (hq : floatToInt32 dithered = some q) :
    floatToIntSample c d x 0
      = some (sampleToBytes c.bitDepth q,
          { random := 0, errorPrev2 := d.errorPrev1, errorPrev1 := d.error,
            error := f32 (s - f32 q) }) := by
  refine floatToIntSample_eval c d x 0 fb s 0 t dithered q h0 hs ?_ ?_ hd hq
  · rw [zero_mul, f32_zero]
  · rw [hrand, sub_zero, f32_zero, add_zero, f32_idem, ht]

theorem floatToIntFrom_cons (c : AudioConverter) (draws : Nat → ℚ) (i : Nat)
    (states : List DitherState) (x : ℚ) (xs : List ℚ) (d d' : DitherState)
    (dest rest : List Nat) (states' : List DitherState)
    (hd : states[i % c.channelCount]? = some d)
    (hs : floatToIntSample c d x (draws i) = some (dest, d'))
    (hr : floatToIntFrom c draws (i + 1) (states.set (i % c.channelCount) d') xs
      = some (rest, states')) :
    floatToIntFrom c draws i states (x :: xs) = some (dest ++ rest, states') := by
  simp only [floatToIntFrom, hd, hs, hr]

theorem monoCodec16_fields : monoCodec16.bitDepth = 16 ∧ monoCodec16.maxIntValue = 32767 ∧
    monoCodec16.minIntValue = -32768 ∧ monoCodec16.channelCount = 1 ∧
    monoCodec16.bytesPerSample = 2 ∧
    monoCodec16.ditherStates = [{ error := 0, errorPrev1 := 0, errorPrev2 := 0, random := 0 }] := by
  refine ⟨by decide, ?_, ?_, by decide, by decide, ?_⟩
  · show floatLit 32767 = 32767; exact floatLit_32767
  · show floatLit (-32768) = -32768; exact floatLit_neg_32768
  · have h : monoCodec16.ditherStates = [zeroDither] := by
      simp [monoCodec16, initializeConverter, AudioConverter.setBitDepth,
        AudioConverter.setChannelCount, List.replicate]
    rw [h]; unfold zeroDither; rw [floatLit_zero]

/-! ## The sample +2.0 (C14) -/

theorem f32_err_nat (x : ℚ) (k : Nat) (hx : |x| < 2 ^ k) : |f32 x - x| ≤ 2 ^ k / 2 ^ 25 := by
  have h := f32_err_of_lt x k (by omega) (by exact_mod_cast hx)
  rwa [zpow_sub₀ (by norm_num), zpow_natCast, show (2 : ℚ) ^ (25 : Int) = 2 ^ 25 from by norm_cast]
    at h

theorem f32_bounds (x lo hi : ℚ) (k : Nat) (hlo : lo ≤ x) (hhi : x ≤ hi)
    (h1 : -(2 ^ k) < lo) (h2 : hi < 2 ^ k) :
    lo - 2 ^ k / 2 ^ 25 ≤ f32 x ∧ f32 x ≤ hi + 2 ^ k / 2 ^ 25 := by
  have h := abs_le.mp (f32_err_nat x k (abs_lt.mpr ⟨by linarith, by linarith⟩))
  constructor <;> linarith [h.1, h.2]

theorem floatToIntSample_plus_two_aux (c : AudioConverter) (M : Int) (hM1 : 32767 ≤ M)
    (hM2 : M ≤ 8388607) (hmax : c.maxIntValue = M) (hds : |c.ditherScale| ≤ 1 / 4)
    (d : DitherState) (u : ℚ) (hu : |u| ≤ 1 / 2)
    (hfb : |f32 (f32 (d.error - d.errorPrev1) + d.errorPrev2)| ≤ M - 8)
    (hr : |d.random| ≤ 1) :
    ∃ d', floatToIntSample c d 2 u = some (sampleToBytes c.bitDepth M, d') := by
  have hM1q : (32767 : ℚ) ≤ M := by exact_mod_cast hM1
  have hM2q : (M : ℚ) ≤ 8388607 := by exact_mod_cast hM2
  obtain ⟨hfb1, hfb2⟩ := abs_le.mp hfb
  obtain ⟨hr1, hr2⟩ := abs_le.mp hr
  obtain ⟨hu1, hu2⟩ := abs_le.mp hu
  obtain ⟨hd1, hd2⟩ := abs_le.mp hds
  set fb := f32 (f32 (d.error - d.errorPrev1) + d.errorPrev2) with hfbdef
  have hs0 : f32 (2 * c.maxIntValue) = 2 * M := by
    rw [hmax]
    have := f32_intCast (2 * M) (by rw [abs_le]; constructor <;> omega)
    push_cast at this
    exact this
  have hs := f32_bounds (2 * M + fb) (M + 8) (3 * M - 8) 25 (by linarith) (by linarith)
    (by norm_num; linarith) (by norm_num; linarith)
  norm_num at hs
  set s := f32 (2 * M + fb) with hsdef
  have ht := f32_bounds (s + 1 / 2) (M + 15 / 2) (3 * M - 13 / 2) 25 (by linarith [hs.1])
    (by linarith [hs.2]) (by norm_num; linarith) (by norm_num; linarith)
  norm_num at ht
  set t1 := f32 (s + 1 / 2) with ht1def
  have hud : |u * c.ditherScale| ≤ 1 / 8 := by
    rw [abs_mul]
    calc |u| * |c.ditherScale| ≤ 1 / 2 * (1 / 4) :=
          mul_le_mul hu hds (abs_nonneg _) (by norm_num)
      _ = 1 / 8 := by norm_num
  obtain ⟨hud1, hud2⟩ := abs_le.mp hud
  have hrn := f32_bounds (u * c.ditherScale) (-(1 / 8)) (1 / 8) 1 hud1 hud2
    (by norm_num) (by norm_num)
  norm_num at hrn
  set r := f32 (u * c.ditherScale) with hrdef
  have hrr := f32_bounds (r - d.random) (-(3 / 2)) (3 / 2) 2 (by linarith [hrn.1])
    (by linarith [hrn.2]) (by norm_num) (by norm_num)
  norm_num at hrr
  set rr := f32 (r - d.random) with hrrdef
  have hd0 := f32_bounds (t1 + rr) (M + 9 / 2) (3 * M) 26 (by linarith [ht.1, hrr.1])
    (by linarith [ht.2, hrr.2]) (by norm_num; linarith) (by norm_num; linarith)
  norm_num at hd0
  set d0 := f32 (t1 + rr) with hd0def
  have hclip : clipSample c d0 = M := by
    rw [clipSample_of_gt c d0 (by rw [hmax]; linarith [hd0.1]), hmax]
  have hq : floatToInt32 (M : ℚ) = some M :=
    floatToInt32_of_nonneg _ M (by linarith) le_rfl (by linarith) (by omega)
  exact ⟨_, floatToIntSample_eval c d 2 u fb s r d0 M M hfbdef.symm
    (by rw [hs0, hsdef]) hrdef.symm (by rw [hd0def, ht1def, hrrdef]) hclip hq⟩

theorem f32_int (n : Int) (hn : |n| ≤ 2 ^ 24) (x : ℚ) (hx : x = n) : f32 x = x := by
  rw [hx]; exact f32_intCast n hn

theorem monoCodec16_first :
    floatToIntSample monoCodec16 { error := 0, errorPrev1 := 0, errorPrev2 := 0, random := 0 } 2 0
      = some ([0x7F, 0xFF], { error := 32767, errorPrev1 := 0, errorPrev2 := 0, random := 0 }) := by
  obtain ⟨hb, hmax, hmin, -, -, -⟩ := monoCodec16_fields
  have a1 : f32 (65534 : ℚ) = 65534 := f32_int 65534 (by norm_num) 65534 (by norm_num)
  have a2 : f32 (131069 / 2 : ℚ) = 131069 / 2 :=
    f32_dyadic 131069 1 (by norm_num) (by norm_num) _ (by norm_num)
  have a3 : f32 (32767 : ℚ) = 32767 := f32_int 32767 (by norm_num) 32767 (by norm_num)
  have h := floatToIntSample_undithered monoCodec16
    { error := 0, errorPrev1 := 0, errorPrev2 := 0, random := 0 } 2 rfl 0 65534 (131069 / 2)
    32767 32767
    (by norm_num [f32_zero])
    (by rw [hmax]; norm_num [a1])
    (by norm_num [a2])
    (by rw [clipSample_of_gt _ _ (by rw [hmax]; norm_num), hmax])
    (floatToInt32_of_nonneg _ _ (by norm_num) (by norm_num) (by norm_num) (by norm_num))
  rw [h, hb]
  have hbytes : sampleToBytes 16 32767 = [0x7F, 0xFF] := by decide
  rw [hbytes]
  norm_num [a3]

theorem monoCodec16_second :
    floatToIntSample monoCodec16
        { error := 32767, errorPrev1 := 0, errorPrev2 := 0, random := 0 } (-2) 0
      = some ([0x80, 0x02],
          { error := -1, errorPrev1 := 32767, errorPrev2 := 0, random := 0 }) := by
  obtain ⟨hb, hmax, hmin, -, -, -⟩ := monoCodec16_fields
  have a1 : f32 (-65534 : ℚ) = -65534 := f32_int (-65534) (by norm_num) (-65534) (by norm_num)
  have a2 : f32 (-(65533 / 2) : ℚ) = -(65533 / 2) :=
    f32_dyadic (-65533) 1 (by norm_num) (by norm_num) _ (by norm_num)
  have a3 : f32 (32767 : ℚ) = 32767 := f32_int 32767 (by norm_num) 32767 (by norm_num)
  have a4 : f32 (-32767 : ℚ) = -32767 := f32_int (-32767) (by norm_num) (-32767) (by norm_num)
  have a5 : f32 (-32766 : ℚ) = -32766 := f32_int (-32766) (by norm_num) (-32766) (by norm_num)
  have a6 : f32 (-1 : ℚ) = -1 := f32_int (-1) (by norm_num) (-1) (by norm_num)
  have h := floatToIntSample_undithered monoCodec16
    { error := 32767, errorPrev1 := 0, errorPrev2 := 0, random := 0 } (-2) rfl 32767 (-32767)
    (-(65533 / 2)) (-(65533 / 2)) (-32766)
    (by norm_num [a3])
    (by rw [hmax]; norm_num [a1, a4])
    (by norm_num [a2])
    (clipSample_of_mem _ _ (by rw [hmax]; norm_num) (by rw [hmin]; norm_num))
    (floatToInt32_of_neg _ _ (by norm_num) (by norm_num) (by norm_num) (by norm_num))
  rw [h, hb]
  have hbytes : sampleToBytes 16 (-32766) = [0x80, 0x02] := by decide
  rw [hbytes]
  norm_num [a5, a6]

theorem monoCodec16_third :
    floatToIntSample monoCodec16
        { error := -1, errorPrev1 := 32767, errorPrev2 := 0, random := 0 } 2 0
      = some ([0x7F, 0xFE],
          { error := 0, errorPrev1 := -1, errorPrev2 := 32767, random := 0 }) := by
  obtain ⟨hb, hmax, hmin, -, -, -⟩ := monoCodec16_fields
  have a1 : f32 (65534 : ℚ) = 65534 := f32_int 65534 (by norm_num) 65534 (by norm_num)
  have a2 : f32 (65533 / 2 : ℚ) = 65533 / 2 :=
    f32_dyadic 65533 1 (by norm_num) (by norm_num) _ (by norm_num)
  have a3 : f32 (-32768 : ℚ) = -32768 := f32_int (-32768) (by norm_num) (-32768) (by norm_num)
  have a4 : f32 (32766 : ℚ) = 32766 := f32_int 32766 (by norm_num) 32766 (by norm_num)
  have h := floatToIntSample_undithered monoCodec16
    { error := -1, errorPrev1 := 32767, errorPrev2 := 0, random := 0 } 2 rfl (-32768) 32766
    (65533 / 2) (65533 / 2) 32766
    (by norm_num [a3])
    (by rw [hmax]; norm_num [a1, a4])
    (by norm_num [a2])
    (clipSample_of_mem _ _ (by rw [hmax]; norm_num) (by rw [hmin]; norm_num))
    (floatToInt32_of_nonneg _ _ (by norm_num) (by norm_num) (by norm_num) (by norm_num))
  rw [h, hb]
  have hbytes : sampleToBytes 16 32766 = [0x7F, 0xFE] := by decide
  rw [hbytes]
  norm_num [a4, f32_zero]

theorem floatToInt_of_from (c : AudioConverter) (draws : Nat → ℚ) (input : List ℚ)
    (frameCount : Nat) (output : List Nat) (states : List DitherState)
    (hlen : input.length = frameCount * c.channelCount)
    (h : floatToIntFrom c draws 0 c.ditherStates input = some (output, states)) :
    c.floatToInt draws input frameCount
      = some (output, { c with ditherStates := states }) := by
  unfold AudioConverter.floatToInt
  rw [if_neg (by omega), ← hlen, List.take_length, h]

/-- C14 fails as stated: a 16-bit one-channel codec that encodes the samples +2.0,
-2.0, +2.0 in a row (every draw 0) emits 7F FF, 80 02 and then 7F FE: the second
+2.0, met with the dither state the first two samples left, is encoded as 32766 and
not as S_max = 32767. -/
theorem floatToInt_plus_two_after_history :
    (monoCodec16.floatToInt (fun _ => 0) [2, -2, 2] 3).map Prod.fst
      = some [0x7F, 0xFF, 0x80, 0x02, 0x7F, 0xFE] := by
  obtain ⟨hb, hmax, hmin, hch, -, hst⟩ := monoCodec16_fields
  have h3 := floatToIntFrom_cons monoCodec16 (fun _ => 0) 2
    [{ error := -1, errorPrev1 := 32767, errorPrev2 := 0, random := 0 }] 2 [] _ _ _ []
    [{ error := 0, errorPrev1 := -1, errorPrev2 := 32767, random := 0 }]
    (by rw [hch]; rfl) monoCodec16_third (by simp only [floatToIntFrom]; rw [hch]; rfl)
  have h2 := floatToIntFrom_cons monoCodec16 (fun _ => 0) 1
    [{ error := 32767, errorPrev1 := 0, errorPrev2 := 0, random := 0 }] (-2) [2] _ _ _ _ _
    (by rw [hch]; rfl) monoCodec16_second (by rw [hch]; exact h3)
  have h1 := floatToIntFrom_cons monoCodec16 (fun _ => 0) 0
    [{ error := 0, errorPrev1 := 0, errorPrev2 := 0, random := 0 }] 2 [-2, 2] _ _ _ _ _
    (by rw [hch]; rfl) monoCodec16_first (by rw [hch]; exact h2)
  rw [← hst] at h1
  rw [floatToInt_of_from monoCodec16 _ _ 3 _ _ (by rw [hch]; rfl) h1]
  rfl

theorem zeroDither_eq :
    zeroDither = { error := 0, errorPrev1 := 0, errorPrev2 := 0, random := 0 } := by
  unfold zeroDither; rw [floatLit_zero]

theorem zeroDither_feedback :
    f32 (f32 (zeroDither.error - zeroDither.errorPrev1) + zeroDither.errorPrev2) = 0 := by
  rw [zeroDither_eq]; norm_num [f32_zero]

theorem ditherScale_small (M : ℚ) (hM : 32767 ≤ M) : |f32 (4 / M)| ≤ 1 / 4 := by
  have h1 : (0 : ℚ) ≤ 4 / M := by positivity
  have h2 : 4 / M ≤ 1 / 8 := by
    rw [div_le_iff₀ (by linarith)]; linarith
  have h := f32_bounds (4 / M) 0 (1 / 8) 0 h1 h2 (by norm_num) (by norm_num)
  norm_num at h
  rw [abs_le]; constructor <;> linarith [h.1, h.2]

theorem setBitDepth_16_fields (c : AudioConverter) :
    (c.setBitDepth 16).bitDepth = 16 ∧ (c.setBitDepth 16).maxIntValue = 32767 ∧
    (c.setBitDepth 16).minIntValue = -32768 ∧
    (c.setBitDepth 16).ditherScale = f32 (4 / 32767) := by
  simp [AudioConverter.setBitDepth, floatLit_32767, floatLit_neg_32768, floatLit_four]

theorem setBitDepth_24_fields (c : AudioConverter) :
    (c.setBitDepth 24).bitDepth = 24 ∧ (c.setBitDepth 24).maxIntValue = 8388607 ∧
    (c.setBitDepth 24).minIntValue = -8388608 ∧
    (c.setBitDepth 24).ditherScale = f32 (4 / 8388607) := by
  simp [AudioConverter.setBitDepth, floatLit_8388607, floatLit_neg_8388608, floatLit_four]

/-- C14 amended: for B in {16, 24}, every draw u of [-1/2, 1/2] and every dither
state whose noise-shaping term error - errorPrev1 + errorPrev2 (as float arithmetic
evaluates it) has magnitude at most S_max - 8 and whose stored dither value has
magnitude at most 1, floatToInt applied to the sample +2.0 emits the big-endian
bytes 7F FF (FF) of S_max = 2^(B-1) - 1; the all-zero state that the constructor
and setChannelCount write is such a state. -/
theorem floatToIntSample_plus_two (c : AudioConverter) (B : Nat) (hB : B = 16 ∨ B = 24)
    (d : DitherState) (u : ℚ) (hu : |u| ≤ 1 / 2)
    (hfb : |f32 (f32 (d.error - d.errorPrev1) + d.errorPrev2)| ≤ 2 ^ (B - 1) - 9)
    (hr : |d.random| ≤ 1) :
    (∃ d', floatToIntSample (c.setBitDepth B) d 2 u
      = some (0x7F :: List.replicate (B / 8 - 1) 0xFF, d')) ∧
    (∃ d', floatToIntSample (c.setBitDepth B) zeroDither 2 u
      = some (0x7F :: List.replicate (B / 8 - 1) 0xFF, d')) ∧
    bigEndian (0x7F :: List.replicate (B / 8 - 1) 0xFF) = 2 ^ (B - 1) - 1 := by
  have hz1 : |f32 (f32 (zeroDither.error - zeroDither.errorPrev1) + zeroDither.errorPrev2)|
      ≤ 2 ^ (B - 1) - 9 := by
    rw [zeroDither_feedback]
    rcases hB with rfl | rfl <;> norm_num
  have hz2 : |zeroDither.random| ≤ 1 := by rw [zeroDither_eq]; norm_num
  rcases hB with rfl | rfl
  · obtain ⟨hb, hmax, hmin, hds⟩ := setBitDepth_16_fields c
    have hbytes : sampleToBytes 16 32767 = [0x7F, 0xFF] := by decide
    have key : ∀ d : DitherState,
        |f32 (f32 (d.error - d.errorPrev1) + d.errorPrev2)| ≤ 2 ^ (16 - 1) - 9 →
        |d.random| ≤ 1 →
        ∃ d', floatToIntSample (c.setBitDepth 16) d 2 u = some ([0x7F, 0xFF], d') := by
      intro d hfb hr
      obtain ⟨d', h⟩ := floatToIntSample_plus_two_aux (c.setBitDepth 16) 32767 (by norm_num)
        (by norm_num) (by rw [hmax]; norm_num)
        (by rw [hds]; exact ditherScale_small 32767 (by norm_num)) d u hu
        (by norm_num at hfb ⊢; exact hfb) hr
      rw [hb, hbytes] at h
      exact ⟨d', h⟩
    exact ⟨key d hfb hr, key zeroDither hz1 hz2, by decide⟩
  · obtain ⟨hb, hmax, hmin, hds⟩ := setBitDepth_24_fields c
    have hbytes : sampleToBytes 24 8388607 = [0x7F, 0xFF, 0xFF] := by decide
    have key : ∀ d : DitherState,
        |f32 (f32 (d.error - d.errorPrev1) + d.errorPrev2)| ≤ 2 ^ (24 - 1) - 9 →
        |d.random| ≤ 1 →
        ∃ d', floatToIntSample (c.setBitDepth 24) d 2 u = some ([0x7F, 0xFF, 0xFF], d') := by
      intro d hfb hr
      obtain ⟨d', h⟩ := floatToIntSample_plus_two_aux (c.setBitDepth 24) 8388607 (by norm_num)
        (by norm_num) (by rw [hmax]; norm_num)
        (by rw [hds]; exact ditherScale_small 8388607 (by norm_num)) d u hu
        (by norm_num at hfb ⊢; exact hfb) hr
      rw [hb, hbytes] at h
      exact ⟨d', h⟩
    exact ⟨key d hfb hr, key zeroDither hz1 hz2, by decide⟩

/-- Witness of C14 amended: a 24-bit codec, the all-zero dither state and the draw
1/4. -/
theorem floatToIntSample_plus_two_witness :
    (24 = 16 ∨ 24 = 24) ∧ |(1 / 4 : ℚ)| ≤ 1 / 2 ∧
    (∃ d', floatToIntSample (AudioConverter.init.setBitDepth 24) zeroDither 2 (1 / 4)
      = some ([0x7F, 0xFF, 0xFF], d')) :=
  ⟨by decide, by norm_num [abs_le],
    (floatToIntSample_plus_two AudioConverter.init 24 (by decide) zeroDither (1 / 4)
      (by norm_num [abs_le])
      (by rw [zeroDither_feedback]; norm_num)
      (by rw [zeroDither_eq]; norm_num)).1⟩

/-! ## Encode, then decode (C15) -/

theorem and_FF_eq (x : Nat) : x &&& 0xFF = x % 256 :=
  Nat.and_pow_two_sub_one_eq_mod x 8

theorem toUnsigned_cast (q : Int) : ((toUnsigned 32 q : Nat) : Int) = q % 4294967296 := by
  unfold toUnsigned
  rw [Int.toNat_of_nonneg (Int.emod_nonneg _ (by norm_num))]
  norm_num

theorem sampleToBytes_16 (q : Int) :
    sampleToBytes 16 q = [toUnsigned 32 q / 256 % 256, toUnsigned 32 q % 256] := by
  simp [sampleToBytes, and_FF_eq, Nat.shiftRight_eq_div_pow]

theorem sampleToBytes_24 (q : Int) :
    sampleToBytes 24 q
      = [toUnsigned 32 q / 65536 % 256, toUnsigned 32 q / 256 % 256, toUnsigned 32 q % 256] := by
  simp [sampleToBytes, and_FF_eq, Nat.shiftRight_eq_div_pow]

theorem intToFloatValue_sampleToBytes_16 (q : Int) (hlo : -32768 ≤ q) (hhi : q ≤ 32767) :
    intToFloatValue 16 (sampleToBytes 16 q) = q := by
  have hw := toUnsigned_cast q
  rw [sampleToBytes_16, intToFloatValue_16 _ (by
    intro b hb
    simp only [List.mem_cons, List.mem_singleton, List.not_mem_nil, or_false] at hb
    rcases hb with rfl | rfl <;> omega) (by simp)]
  simp only [twosComplementBE, bigEndian, bigEndianFrom, List.take]
  norm_num
  split_ifs <;> omega

theorem intToFloatValue_sampleToBytes_24 (q : Int) (hlo : -8388608 ≤ q) (hhi : q ≤ 8388607) :
    intToFloatValue 24 (sampleToBytes 24 q) = q := by
  have hw := toUnsigned_cast q
  rw [sampleToBytes_24, intToFloatValue_24 _ (by
    intro b hb
    simp only [List.mem_cons, List.mem_singleton, List.not_mem_nil, or_false] at hb
    rcases hb with rfl | rfl | rfl <;> omega) (by simp)]
  simp only [twosComplementBE, bigEndian, bigEndianFrom, List.take]
  norm_num
  split_ifs <;> omega

theorem floatToInt32_total (x : ℚ) (lo hi : Int) (h1 : (lo : ℚ) ≤ x) (h2 : x ≤ hi)
    (hlo : -2147483648 ≤ lo) (hhi : hi ≤ 2147483647) :
    ∃ q : Int, floatToInt32 x = some q ∧ lo ≤ q ∧ q ≤ hi ∧ |(q : ℚ) - x| < 1 := by
  by_cases h0 : 0 ≤ x
  · have hf1 : lo ≤ ⌊x⌋ := Int.le_floor.mpr h1
    have hf2 : ⌊x⌋ ≤ hi := Int.cast_le.mp ((Int.floor_le x).trans h2)
    refine ⟨⌊x⌋, floatToInt32_of_nonneg x ⌊x⌋ h0 (Int.floor_le x) (Int.lt_floor_add_one x)
      (by omega), hf1, hf2, ?_⟩
    rw [abs_lt]; constructor <;> linarith [Int.floor_le x, Int.lt_floor_add_one x]
  · have hf1 : lo ≤ ⌈x⌉ := Int.cast_le.mp (h1.trans (Int.le_ceil x))
    have hf2 : ⌈x⌉ ≤ hi := Int.ceil_le.mpr h2
    refine ⟨⌈x⌉, floatToInt32_of_neg x ⌈x⌉ (not_le.mp h0) ?_ (Int.le_ceil x)
      (by omega), hf1, hf2, ?_⟩
    · linarith [Int.ceil_lt_add_one x]
    · rw [abs_lt]; constructor <;> linarith [Int.le_ceil x, Int.ceil_lt_add_one x]

theorem floatToIntSample_fresh_aux (c : AudioConverter) (M : Int) (hM1 : 32767 ≤ M)
    (hM2 : M ≤ 8388607) (hmax : c.maxIntValue = M) (hmin : c.minIntValue = -(M + 1))
    (hds : |c.ditherScale| ≤ 1 / 4) (x u : ℚ) (hx : |x| ≤ 1) (hu : |u| ≤ 1 / 2) :
    ∃ (q : Int) (d' : DitherState),
      floatToIntSample c zeroDither x u = some (sampleToBytes c.bitDepth q, d') ∧
      -(M + 1) ≤ q ∧ q ≤ M ∧ |(q : ℚ) - x * M| ≤ 12 / 5 := by
  have hM1q : (32767 : ℚ) ≤ M := by exact_mod_cast hM1
  have hM2q : (M : ℚ) ≤ 8388607 := by exact_mod_cast hM2
  obtain ⟨hx1, hx2⟩ := abs_le.mp hx
  have hxM1 : -(M : ℚ) ≤ x * M := by nlinarith
  have hxM2 : x * M ≤ M := by nlinarith
  have hs := f32_bounds (x * M) (x * M) (x * M) 23 le_rfl le_rfl (by norm_num; linarith)
    (by norm_num; linarith)
  norm_num at hs
  set s := f32 (x * M) with hsdef
  have ht := f32_bounds (s + 1 / 2) (s + 1 / 2) (s + 1 / 2) 23 le_rfl le_rfl
    (by norm_num; linarith [hs.1]) (by norm_num; linarith [hs.2])
  norm_num at ht
  set t1 := f32 (s + 1 / 2) with ht1def
  have hud : |u * c.ditherScale| ≤ 1 / 8 := by
    rw [abs_mul]
    calc |u| * |c.ditherScale| ≤ 1 / 2 * (1 / 4) :=
          mul_le_mul hu hds (abs_nonneg _) (by norm_num)
      _ = 1 / 8 := by norm_num
  obtain ⟨hud1, hud2⟩ := abs_le.mp hud
  have hrn := f32_bounds (u * c.ditherScale) (-(1 / 8)) (1 / 8) 1 hud1 hud2
    (by norm_num) (by norm_num)
  norm_num at hrn
  set r := f32 (u * c.ditherScale) with hrdef
  set d0 := f32 (t1 + r) with hd0def
  have hE : ∃ q : Int, floatToInt32 (clipSample c d0) = some q ∧ -(M + 1) ≤ q ∧ q ≤ M ∧
      |(q : ℚ) - x * M| ≤ 12 / 5 := by
    have hqM : floatToInt32 (M : ℚ) = some M :=
      floatToInt32_of_nonneg _ M (by linarith) le_rfl (by linarith) (by omega)
    by_cases hz : t1 + r < 2 ^ 23
    · have hd := f32_bounds (t1 + r) (t1 + r) (t1 + r) 23 le_rfl le_rfl
        (by norm_num; linarith [ht.1, hs.1, hrn.1]) hz
      norm_num at hd
      rw [← hd0def] at hd
      by_cases h1 : d0 > c.maxIntValue
      · rw [clipSample_of_gt c d0 h1, hmax]
        rw [hmax] at h1
        refine ⟨M, hqM, by omega, le_rfl, ?_⟩
        rw [abs_le]; constructor <;> linarith [ht.2, hs.2, hrn.2, hd.2]
      · have h1' : d0 ≤ c.maxIntValue := not_lt.mp h1
        have h2 : c.minIntValue ≤ d0 := by
          rw [hmin]; linarith [ht.1, hs.1, hrn.1, hd.1]
        rw [clipSample_of_mem c d0 h1' h2]
        rw [hmax] at h1'
        rw [hmin] at h2
        obtain ⟨q, hq, hq1, hq2, hq3⟩ := floatToInt32_total d0 (-(M + 1)) M
          (by push_cast; linarith) h1' (by omega) (by omega)
        refine ⟨q, hq, hq1, hq2, ?_⟩
        obtain ⟨hq4, hq5⟩ := abs_lt.mp hq3
        rw [abs_le]
        constructor <;> linarith [ht.1, ht.2, hs.1, hs.2, hrn.1, hrn.2, hd.1, hd.2]
    · have hz' : (2 : ℚ) ^ 23 ≤ t1 + r := not_lt.mp hz
      have hd := f32_bounds (t1 + r) (t1 + r) (t1 + r) 24 le_rfl le_rfl
        (by norm_num; linarith [ht.1, hs.1, hrn.1]) (by norm_num; linarith [ht.2, hs.2, hrn.2])
      norm_num at hd hz'
      rw [← hd0def] at hd
      rw [clipSample_of_gt c d0 (by rw [hmax]; linarith [hd.1]), hmax]
      refine ⟨M, hqM, by omega, le_rfl, ?_⟩
      rw [abs_le]; constructor <;> linarith [ht.2, hs.2, hrn.2, hd.2]
  obtain ⟨q, hq, hq1, hq2, hq3⟩ := hE
  refine ⟨q, _, floatToIntSample_eval c zeroDither x u 0 s r d0 (clipSample c d0) q
    zeroDither_feedback ?_ hrdef.symm ?_ rfl hq, hq1, hq2, hq3⟩
  · rw [hmax, add_zero, f32_idem]
  · rw [zeroDither_eq]
    simp only [sub_zero]
    rw [hrdef, f32_idem]

theorem clampUnit_of_abs_le (x : ℚ) (hx : |x| ≤ 1) : clampUnit x = x := by
  obtain ⟨h1, h2⟩ := abs_le.mp hx
  unfold clampUnit
  rw [min_eq_right h2, max_eq_right h1]

theorem decode_bound_aux (M : ℚ) (q : Int) (x : ℚ) (hM1 : 32767 ≤ M) (hx : |x| ≤ 1)
    (hq : |(q : ℚ) - x * M| ≤ 12 / 5) (hqlo : -(M + 1) ≤ q) (hqhi : (q : ℚ) ≤ M) :
    |clampUnit (f32 ((q : ℚ) / M)) - x| ≤ 1 / 2 ^ 24 + 12 / 5 / M := by
  have hM0 : (0 : ℚ) < M := by linarith
  have h1 : -(3 / 2) ≤ (q : ℚ) / M := by
    rw [le_div_iff₀ hM0]; linarith
  have h2 : (q : ℚ) / M ≤ 1 := by
    rw [div_le_iff₀ hM0]; linarith
  have hv := abs_le.mp (f32_err_nat ((q : ℚ) / M) 1 (abs_lt.mpr ⟨by norm_num; linarith, by
    norm_num; linarith⟩))
  norm_num at hv
  have hqx : |(q : ℚ) / M - x| ≤ 12 / 5 / M := by
    have e : (q : ℚ) / M - x = ((q : ℚ) - x * M) / M := by field_simp; ring
    rw [e, abs_div, abs_of_pos hM0]
    exact div_le_div_of_nonneg_right hq hM0.le
  obtain ⟨hq1, hq2⟩ := abs_le.mp hqx
  calc |clampUnit (f32 ((q : ℚ) / M)) - x|
      = |clampUnit (f32 ((q : ℚ) / M)) - clampUnit x| := by rw [clampUnit_of_abs_le x hx]
    _ ≤ |f32 ((q : ℚ) / M) - x| := clampUnit_lipschitz _ _
    _ ≤ 1 / 2 ^ 24 + 12 / 5 / M := by
      rw [abs_le]; constructor <;> norm_num <;> linarith [hv.1, hv.2]

/-- C15 amended: for B in {16, 24}, every sample x of [-1, +1] and every draw u of
[-1/2, 1/2], encoding x with floatToInt from the all-zero dither state (the first
sample of a channel after the constructor or setChannelCount) writes B/8 bytes that
intToFloat decodes to a value within 6/(2^B - 1) of x. -/
theorem roundtrip_fresh (c : AudioConverter) (B : Nat) (hB : B = 16 ∨ B = 24) (x u : ℚ)
    (hx : |x| ≤ 1) (hu : |u| ≤ 1 / 2) :
    ∃ (dest : List Nat) (d' : DitherState),
      floatToIntSample (c.setBitDepth B) zeroDither x u = some (dest, d') ∧
      dest.length = B / 8 ∧
      |intToFloatSample (c.setBitDepth B) dest - x| ≤ 6 / (2 ^ B - 1) := by
  rcases hB with rfl | rfl
  · obtain ⟨hb, hmax, hmin, hds⟩ := setBitDepth_16_fields c
    obtain ⟨q, d', h, hq1, hq2, hq3⟩ := floatToIntSample_fresh_aux (c.setBitDepth 16) 32767
      (by norm_num) (by norm_num) (by rw [hmax]; norm_num) (by rw [hmin]; norm_num)
      (by rw [hds]; exact ditherScale_small 32767 (by norm_num)) x u hx hu
    rw [hb] at h
    refine ⟨_, d', h, by rw [sampleToBytes_16]; rfl, ?_⟩
    rw [intToFloatSample_16, intToFloatValue_sampleToBytes_16 q (by omega) (by omega),
      f32_intCast q (by rw [abs_le]; constructor <;> omega)]
    have hb := decode_bound_aux 32767 q x (by norm_num) hx (by exact_mod_cast hq3)
      (by norm_num; exact_mod_cast hq1) (by exact_mod_cast hq2)
    refine hb.trans ?_
    norm_num
  · obtain ⟨hb, hmax, hmin, hds⟩ := setBitDepth_24_fields c
    obtain ⟨q, d', h, hq1, hq2, hq3⟩ := floatToIntSample_fresh_aux (c.setBitDepth 24) 8388607
      (by norm_num) (by norm_num) (by rw [hmax]; norm_num) (by rw [hmin]; norm_num)
      (by rw [hds]; exact ditherScale_small 8388607 (by norm_num)) x u hx hu
    rw [hb] at h
    refine ⟨_, d', h, by rw [sampleToBytes_24]; rfl, ?_⟩
    rw [intToFloatSample_24, intToFloatValue_sampleToBytes_24 q (by omega) (by omega),
      f32_intCast q (by rw [abs_le]; constructor <;> omega)]
    have hb := decode_bound_aux 8388607 q x (by norm_num) hx (by exact_mod_cast hq3)
      (by norm_num; exact_mod_cast hq1) (by exact_mod_cast hq2)
    refine hb.trans ?_
    norm_num

/-- Witness of C15 amended: the sample -1/3 at 16 bits with the draw 1/4. -/
theorem roundtrip_fresh_witness :
    (16 = 16 ∨ 16 = 24) ∧ |(-1 / 3 : ℚ)| ≤ 1 ∧ |(1 / 4 : ℚ)| ≤ 1 / 2 ∧
    ∃ (dest : List Nat) (d' : DitherState),
      floatToIntSample (AudioConverter.init.setBitDepth 16) zeroDither (-1 / 3) (1 / 4)
        = some (dest, d') ∧
      dest.length = 2 ∧
      |intToFloatSample (AudioConverter.init.setBitDepth 16) dest - -1 / 3| ≤ 6 / 65535 :=
  ⟨by decide, by norm_num [abs_le], by norm_num [abs_le],
    by
      have h := roundtrip_fresh AudioConverter.init 16 (by decide) (-1 / 3) (1 / 4)
        (by norm_num [abs_le]) (by norm_num [abs_le])
      norm_num at h ⊢
      exact h⟩

theorem monoCodec16_low_first :
    floatToIntSample monoCodec16 { error := 0, errorPrev1 := 0, errorPrev2 := 0, random := 0 }
        (-33 / 64) 0
      = some ([190, 2],
          { error := -95 / 64, errorPrev1 := 0, errorPrev2 := 0, random := 0 }) := by
  obtain ⟨hb, hmax, hmin, -, -, -⟩ := monoCodec16_fields
  have a1 : f32 (-(1081311 / 64) : ℚ) = -(1081311 / 64) :=
    f32_dyadic (-1081311) 6 (by norm_num) (by norm_num) _ (by norm_num)
  have a2 : f32 (-(1081279 / 64) : ℚ) = -(1081279 / 64) :=
    f32_dyadic (-1081279) 6 (by norm_num) (by norm_num) _ (by norm_num)
  have a3 : f32 (-16894 : ℚ) = -16894 := f32_int (-16894) (by norm_num) (-16894) (by norm_num)
  have a4 : f32 (-(95 / 64) : ℚ) = -(95 / 64) :=
    f32_dyadic (-95) 6 (by norm_num) (by norm_num) _ (by norm_num)
  have h := floatToIntSample_undithered monoCodec16
    { error := 0, errorPrev1 := 0, errorPrev2 := 0, random := 0 } (-33 / 64) rfl 0
    (-(1081311 / 64)) (-(1081279 / 64)) (-(1081279 / 64)) (-16894)
    (by norm_num [f32_zero])
    (by rw [hmax]; norm_num [a1])
    (by norm_num [a2])
    (clipSample_of_mem _ _ (by rw [hmax]; norm_num) (by rw [hmin]; norm_num))
    (floatToInt32_of_neg _ _ (by norm_num) (by norm_num) (by norm_num) (by norm_num))
  rw [h, hb]
  have hbytes : sampleToBytes 16 (-16894) = [190, 2] := by decide
  rw [hbytes]
  norm_num [a3, a4]

theorem monoCodec16_low_second :
    floatToIntSample monoCodec16
        { error := -95 / 64, errorPrev1 := 0, errorPrev2 := 0, random := 0 } (3 / 32) 0
      = some ([11, 254],
          { error := 27 / 64, errorPrev1 := -95 / 64, errorPrev2 := 0, random := 0 }) := by
  obtain ⟨hb, hmax, hmin, -, -, -⟩ := monoCodec16_fields
  have a1 : f32 (98301 / 32 : ℚ) = 98301 / 32 :=
    f32_dyadic 98301 5 (by norm_num) (by norm_num) _ (by norm_num)
  have a2 : f32 (196507 / 64 : ℚ) = 196507 / 64 :=
    f32_dyadic 196507 6 (by norm_num) (by norm_num) _ (by norm_num)
  have a3 : f32 (196539 / 64 : ℚ) = 196539 / 64 :=
    f32_dyadic 196539 6 (by norm_num) (by norm_num) _ (by norm_num)
  have a4 : f32 (-(95 / 64) : ℚ) = -(95 / 64) :=
    f32_dyadic (-95) 6 (by norm_num) (by norm_num) _ (by norm_num)
  have a5 : f32 (3070 : ℚ) = 3070 := f32_int 3070 (by norm_num) 3070 (by norm_num)
  have a6 : f32 (27 / 64 : ℚ) = 27 / 64 :=
    f32_dyadic 27 6 (by norm_num) (by norm_num) _ (by norm_num)
  have h := floatToIntSample_undithered monoCodec16
    { error := -95 / 64, errorPrev1 := 0, errorPrev2 := 0, random := 0 } (3 / 32) rfl
    (-(95 / 64)) (196507 / 64) (196539 / 64) (196539 / 64) 3070
    (by norm_num [a4])
    (by rw [hmax]; norm_num [a1, a2])
    (by norm_num [a3])
    (clipSample_of_mem _ _ (by rw [hmax]; norm_num) (by rw [hmin]; norm_num))
    (floatToInt32_of_nonneg _ _ (by norm_num) (by norm_num) (by norm_num) (by norm_num))
  rw [h, hb]
  have hbytes : sampleToBytes 16 3070 = [11, 254] := by decide
  rw [hbytes]
  norm_num [a5, a6]

theorem monoCodec16_low_third :
    floatToIntSample monoCodec16
        { error := 27 / 64, errorPrev1 := -95 / 64, errorPrev2 := 0, random := 0 } (-39 / 64) 0
      = some ([178, 4],
          { error := -95 / 64, errorPrev1 := 27 / 64, errorPrev2 := -95 / 64, random := 0 }) := by
  obtain ⟨hb, hmax, hmin, -, -, -⟩ := monoCodec16_fields
  have a1 : f32 (-(1277913 / 64) : ℚ) = -(1277913 / 64) :=
    f32_dyadic (-1277913) 6 (by norm_num) (by norm_num) _ (by norm_num)
  have a2 : f32 (-(1277791 / 64) : ℚ) = -(1277791 / 64) :=
    f32_dyadic (-1277791) 6 (by norm_num) (by norm_num) _ (by norm_num)
  have a3 : f32 (-(1277759 / 64) : ℚ) = -(1277759 / 64) :=
    f32_dyadic (-1277759) 6 (by norm_num) (by norm_num) _ (by norm_num)
  have a4 : f32 (61 / 32 : ℚ) = 61 / 32 :=
    f32_dyadic 61 5 (by norm_num) (by norm_num) _ (by norm_num)
  have a5 : f32 (-19964 : ℚ) = -19964 := f32_int (-19964) (by norm_num) (-19964) (by norm_num)
  have a6 : f32 (-(95 / 64) : ℚ) = -(95 / 64) :=
    f32_dyadic (-95) 6 (by norm_num) (by norm_num) _ (by norm_num)
  have h := floatToIntSample_undithered monoCodec16
    { error := 27 / 64, errorPrev1 := -95 / 64, errorPrev2 := 0, random := 0 } (-39 / 64) rfl
    (61 / 32) (-(1277791 / 64)) (-(1277759 / 64)) (-(1277759 / 64)) (-19964)
    (by norm_num [a4])
    (by rw [hmax]; norm_num [a1, a2])
    (by norm_num [a3])
    (clipSample_of_mem _ _ (by rw [hmax]; norm_num) (by rw [hmin]; norm_num))
    (floatToInt32_of_neg _ _ (by norm_num) (by norm_num) (by norm_num) (by norm_num))
  rw [h, hb]
  have hbytes : sampleToBytes 16 (-19964) = [178, 4] := by decide
  rw [hbytes]
  norm_num [a5, a6]

theorem monoCodec16_decode_third :
    intToFloatSample monoCodec16 [178, 4] = -(1277735 / 2097152) := by
  have hv : intToFloatValue 16 [178, 4] = -19964 := by decide
  have a1 : f32 (-19964 : ℚ) = -19964 := f32_int (-19964) (by norm_num) (-19964) (by norm_num)
  have a2 : f32 (-(19964 / 32767) : ℚ) = -(1277735 / 2097152) := by
    have := f32_eq (-(19964 / 32767) : ℚ) (-1) (-10221880) (by norm_num)
      (by rw [abs_neg, abs_of_pos (by norm_num)]; norm_num)
      (by rw [abs_neg, abs_of_pos (by norm_num)]; norm_num)
      (by rw [abs_lt]; constructor <;> norm_num)
    rw [this]; norm_num
  have h : intToFloatSample monoCodec16 [178, 4]
      = clampUnit (f32 (f32 (intToFloatValue 16 [178, 4]) / 32767)) :=
    intToFloatSample_16 ((AudioConverter.init.setSampleRate 48000).setChannelCount 1) _
  rw [h, hv]
  push_cast
  rw [a1, show (-19964 : ℚ) / 32767 = -(19964 / 32767) from by norm_num, a2]
  exact clampUnit_of_abs_le (-(1277735 / 2097152)) (by rw [abs_le]; constructor <;> norm_num)

theorem intToFloat_third (c : AudioConverter) (hch : c.channelCount = 1)
    (hbps : c.bytesPerSample = 2) (b0 b1 b2 b3 b4 b5 : Nat) :
    (c.intToFloat [b0, b1, b2, b3, b4, b5] 3).map (fun out => out.getD 2 0)
      = some (intToFloatSample c [b4, b5]) := by
  unfold AudioConverter.intToFloat
  rw [hch, hbps, if_neg (by simp)]
  simp only [Option.map_some', List.getD_eq_getElem?_getD]
  rw [show List.range (3 * 1) = [0, 1, 2] from by decide]
  simp only [List.map_cons, List.map_nil]
  simp only [List.getElem?_cons_succ, List.getElem?_cons_zero, Option.getD_some]
  rfl

/-- C15 fails as stated: a 16-bit one-channel codec that encodes the in-range samples
-33/64, 3/32, -39/64 in a row (every draw 0) writes BE 02, 0B FE, B2 04; the third
sample is encoded as -19964 under the noise-shaping feedback of the first two, and
intToFloat decodes it to -1277735/2097152, which is 217/2097152 away from -39/64:
more than 6/(2^16 - 1). -/
theorem roundtrip_after_history :
    (monoCodec16.floatToInt (fun _ => 0) [-33 / 64, 3 / 32, -39 / 64] 3).map Prod.fst
      = some [190, 2, 11, 254, 178, 4] ∧
    (monoCodec16.intToFloat [190, 2, 11, 254, 178, 4] 3).map (fun out => out.getD 2 0)
      = some (-(1277735 / 2097152)) ∧
    (6 : ℚ) / (2 ^ 16 - 1) < |(-(1277735 / 2097152)) - (-39 / 64)| := by
  obtain ⟨hb, hmax, hmin, hch, hbps, hst⟩ := monoCodec16_fields
  refine ⟨?_, ?_, ?_⟩
  · have h3 := floatToIntFrom_cons monoCodec16 (fun _ => 0) 2
      [{ error := 27 / 64, errorPrev1 := -95 / 64, errorPrev2 := 0, random := 0 }] (-39 / 64)
      [] _ _ _ []
      [{ error := -95 / 64, errorPrev1 := 27 / 64, errorPrev2 := -95 / 64, random := 0 }]
      (by rw [hch]; rfl) monoCodec16_low_third (by simp only [floatToIntFrom]; rw [hch]; rfl)
    have h2 := floatToIntFrom_cons monoCodec16 (fun _ => 0) 1
      [{ error := -95 / 64, errorPrev1 := 0, errorPrev2 := 0, random := 0 }] (3 / 32)
      [-39 / 64] _ _ _ _ _
      (by rw [hch]; rfl) monoCodec16_low_second (by rw [hch]; exact h3)
    have h1 := floatToIntFrom_cons monoCodec16 (fun _ => 0) 0
      [{ error := 0, errorPrev1 := 0, errorPrev2 := 0, random := 0 }] (-33 / 64)
      [3 / 32, -39 / 64] _ _ _ _ _
      (by rw [hch]; rfl) monoCodec16_low_first (by rw [hch]; exact h2)
    rw [← hst] at h1
    rw [floatToInt_of_from monoCodec16 _ _ 3 _ _ (by rw [hch]; rfl) h1]
    rfl
  · rw [intToFloat_third monoCodec16 hch hbps, monoCodec16_decode_third]
  · rw [abs_of_pos (by norm_num)]; norm_num

/-! ## The audio callback in receive mode (C17) -/

/-- In receive mode with networking active and `numFrames < 2^31`, the audio callback
does what its comments say: with fewer than `2 * numFrames` floats queued it zeroes
both outputs and leaves the queue alone; otherwise `output[ch][i] = queue[2*i + ch]`
and the first `2 * numFrames` floats leave the queue. -/
theorem process_receive (b : AES67Bridge) (numFrames : Nat) (source0 source1 : List ℚ)
    (hmode : b.mode = Mode.Receive) (hact : b.networkActive = true)
    (hn : numFrames < 2 ^ 31) :
    b.process numFrames source0 source1 =
      if b.jackBuffer.length < 2 * numFrames then
        some (b, List.replicate numFrames 0, List.replicate numFrames 0)
      else
        some ({ b with jackBuffer := b.jackBuffer.drop (2 * numFrames) },
          (List.range numFrames).map (fun i => b.jackBuffer.getD (2 * i) 0),
          (List.range numFrames).map (fun i => b.jackBuffer.getD (2 * i + 1) 0)) := by
  have e1 : numFrames * 2 % 2 ^ 32 = 2 * numFrames := by omega
  unfold AES67Bridge.process
  rw [if_pos ⟨hmode, hact⟩, e1]
  by_cases hlt : b.jackBuffer.length < 2 * numFrames
  · rw [if_pos hlt, if_pos hlt]
  · rw [if_neg hlt, if_neg hlt]
    have hall : ∀ i < numFrames, (i * 2 + 1) % 2 ^ 32 < b.jackBuffer.length
        ∧ i * 2 % 2 ^ 32 < b.jackBuffer.length := by
      intro i hi
      constructor <;> omega
    rw [if_pos hall]
    congr 2
    congr 1
    · apply List.map_congr_left
      intro i hi
      rw [List.mem_range] at hi
      congr 1
      omega
    · apply List.map_congr_left
      intro i hi
      rw [List.mem_range] at hi
      congr 1
      omega

/-- In receive mode, a callback whose 32-bit product `numFrames * 2` does not exceed
the queue length while some index of the copy loop lies past the queue reads out of
bounds. -/
theorem process_receive_overread (b : AES67Bridge) (numFrames : Nat) (source0 source1 : List ℚ)
    (hmode : b.mode = Mode.Receive) (hact : b.networkActive = true)
    (hlen : ¬ b.jackBuffer.length < numFrames * 2 % 2 ^ 32)
    (i : Nat) (hi : i < numFrames) (hover : b.jackBuffer.length ≤ i * 2 % 2 ^ 32) :
    b.process numFrames source0 source1 = none := by
  unfold AES67Bridge.process
  rw [if_pos ⟨hmode, hact⟩, if_neg hlen, if_neg]
  intro hall
  have := (hall i hi).2
  omega

/-- Why the callback is described for numFrames below 2^31: at numFrames = 2^31 the
32-bit product numFrames * 2 wraps to 0, so with an empty queue the underrun test
0 < 0 is false and the copy loop reads jackBuffer[0] of the empty queue, which is
undefined; at numFrames = 1024 the same bridge takes the underrun branch. -/
theorem process_receive_overflow :
    receiveBridge.mode = Mode.Receive ∧ receiveBridge.networkActive = true ∧
    receiveBridge.jackBuffer = [] ∧
    2147483648 * 2 % 2 ^ 32 = 0 ∧
    receiveBridge.process 2147483648 [] [] = none ∧
    receiveBridge.process 1024 [] []
      = some (receiveBridge, List.replicate 1024 0, List.replicate 1024 0) := by
  refine ⟨rfl, rfl, rfl, by norm_num, ?_, ?_⟩
  · exact process_receive_overread receiveBridge 2147483648 [] [] rfl rfl
      (by simp [receiveBridge, AES67Bridge.init]) 0 (by norm_num)
      (by simp [receiveBridge, AES67Bridge.init])
  · rw [process_receive receiveBridge 1024 [] [] rfl rfl (by norm_num)]
    rw [if_pos (by simp [receiveBridge, AES67Bridge.init])]

/-- C17: in receive mode with networking active, for every queue content and every
numFrames below 2^31 (so that the 32-bit products numFrames * 2 and i * 2 + 1 of the
callback are the exact ones), the audio callback returns with two output buffers of
numFrames samples each and either (queue length < 2 * numFrames) writes zeros to
every output sample and leaves the bridge, and so the queue, unchanged, or
(otherwise) writes the first 2 * numFrames queued floats to the outputs,
de-interleaved so that output[ch][i] = queue[2 * i + ch], and removes exactly those
floats from the head: the queue before the call is these floats followed by the
queue after the call, and nothing else in the bridge changes. -/
theorem process_receive_callback (b : AES67Bridge) (numFrames : Nat) (source0 source1 : List ℚ)
    (hmode : b.mode = Mode.Receive) (hact : b.networkActive = true)
    (hn : numFrames < 2 ^ 31) :
    ∃ b' out0 out1, b.process numFrames source0 source1 = some (b', out0, out1) ∧
      out0.length = numFrames ∧ out1.length = numFrames ∧
      (b.jackBuffer.length < 2 * numFrames →
        b' = b ∧ out0 = List.replicate numFrames 0 ∧ out1 = List.replicate numFrames 0) ∧
      (2 * numFrames ≤ b.jackBuffer.length →
        (∀ i, i < numFrames →
          2 * i + 1 < b.jackBuffer.length ∧
          out0[i]? = b.jackBuffer[2 * i]? ∧ out1[i]? = b.jackBuffer[2 * i + 1]?) ∧
        b' = { b with jackBuffer := b.jackBuffer.drop (2 * numFrames) } ∧
        b.jackBuffer = b.jackBuffer.take (2 * numFrames) ++ b'.jackBuffer ∧
        b'.jackBuffer.length = b.jackBuffer.length - 2 * numFrames) := by
  rw [process_receive b numFrames source0 source1 hmode hact hn]
  by_cases hlt : b.jackBuffer.length < 2 * numFrames
  · rw [if_pos hlt]
    refine ⟨_, _, _, rfl, List.length_replicate _ _, List.length_replicate _ _,
      fun _ => ⟨rfl, rfl, rfl⟩, fun hge => absurd hlt (not_lt.mpr hge)⟩
  · rw [if_neg hlt]
    refine ⟨_, _, _, rfl, by rw [List.length_map, List.length_range],
      by rw [List.length_map, List.length_range], fun h => absurd h hlt, fun _ => ?_⟩
    refine ⟨?_, rfl, (List.take_append_drop _ _).symm, List.length_drop _ _⟩
    intro i hi
    have h1 : 2 * i + 1 < b.jackBuffer.length := by omega
    have h0 : 2 * i < b.jackBuffer.length := by omega
    refine ⟨h1, ?_, ?_⟩
    · rw [List.getElem?_map, List.getElem?_range hi, Option.map_some',
        List.getD_eq_getElem?_getD, List.getElem?_eq_getElem h0, Option.getD_some]
    · rw [List.getElem?_map, List.getElem?_range hi, Option.map_some',
        List.getD_eq_getElem?_getD, List.getElem?_eq_getElem h1, Option.getD_some]

/-- Witness of C17: the receive bridge whose queue holds 1, 2, 3, and a callback of
one frame, which takes 1 and 2 and leaves 3. -/
theorem process_receive_callback_witness :
    smallReceiveBridge.mode = Mode.Receive ∧ smallReceiveBridge.networkActive = true ∧
    1 < 2 ^ 31 ∧
    ∃ b' out0 out1, smallReceiveBridge.process 1 [] [] = some (b', out0, out1) ∧
      out0.length = 1 ∧ out1.length = 1 ∧
      b' = { smallReceiveBridge with jackBuffer := smallReceiveBridge.jackBuffer.drop (2 * 1) } := by
  obtain ⟨b', out0, out1, h, hl0, hl1, -, hpop⟩ :=
    process_receive_callback smallReceiveBridge 1 [] [] rfl rfl (by norm_num)
  exact ⟨rfl, rfl, by norm_num, b', out0, out1, h, hl0, hl1,
    (hpop (by simp [smallReceiveBridge])).2.1⟩

/-! ## Queue capacity (C18) -/

theorem interleave_length (xs ys : List ℚ) (h : xs.length = ys.length) :
    (interleave xs ys).length = 2 * xs.length := by
  induction xs generalizing ys with
  | nil => cases ys <;> simp [interleave]
  | cons x xs ih =>
    cases ys with
    | nil => simp at h
    | cons y ys =>
      simp only [interleave, List.length_cons]
      rw [ih ys (by simpa using h)]
      ring

/-- In transmit mode with networking active the audio callback appends the
`2 * numFrames` input samples to the queue, whatever the queue holds. -/
theorem process_transmit (b : AES67Bridge) (numFrames : Nat) (source0 source1 : List ℚ)
    (hmode : b.mode = Mode.Transmit) (hact : b.networkActive = true)
    (h0 : numFrames ≤ source0.length) (h1 : numFrames ≤ source1.length) :
    ∃ b', b.process numFrames source0 source1
        = some (b', source0.take numFrames, source1.take numFrames) ∧
      b'.jackBuffer.length = b.jackBuffer.length + 2 * numFrames := by
  unfold AES67Bridge.process
  rw [if_neg (by rw [hmode]; simp), if_neg (by omega), if_pos ⟨hmode, hact⟩]
  refine ⟨_, rfl, ?_⟩
  simp only [List.length_append]
  rw [interleave_length _ _ (by simp [List.length_take, h0, h1]), List.length_take,
    Nat.min_eq_left h0]

theorem process_receive_shrinks (b : AES67Bridge) (numFrames : Nat) (source0 source1 : List ℚ)
    (hmode : b.mode = Mode.Receive) (hact : b.networkActive = true)
    (hn : numFrames < 2 ^ 31) :
    ∃ b' out, b.process numFrames source0 source1 = some (b', out) ∧
      b'.jackBuffer.length ≤ b.jackBuffer.length ∧ b'.mode = b.mode ∧
      b'.networkActive = b.networkActive ∧ b'.bufferSize = b.bufferSize := by
  rw [process_receive b numFrames source0 source1 hmode hact hn]
  by_cases hlt : b.jackBuffer.length < 2 * numFrames
  · rw [if_pos hlt]
    exact ⟨_, _, rfl, le_rfl, rfl, rfl, rfl⟩
  · rw [if_neg hlt]
    exact ⟨_, _, rfl, by simp, rfl, rfl, rfl⟩

theorem enqueueReceived_length (b : AES67Bridge) (audioBuffer : List ℚ) :
    (b.enqueueReceived audioBuffer).jackBuffer.length ≤ 2 * b.bufferSize ∧
    (b.enqueueReceived audioBuffer).mode = b.mode ∧
    (b.enqueueReceived audioBuffer).networkActive = b.networkActive ∧
    (b.enqueueReceived audioBuffer).bufferSize = b.bufferSize := by
  refine ⟨?_, rfl, rfl, rfl⟩
  have hmod : b.bufferSize * 2 % 2 ^ SIZE_BITS ≤ 2 * b.bufferSize := by
    rw [Nat.mul_comm]; exact Nat.mod_le _ _
  unfold AES67Bridge.enqueueReceived
  simp only
  split
  · rw [List.length_take]
    exact (Nat.min_le_left _ _).trans hmod
  · rename_i h
    exact (not_lt.mp h).trans hmod

theorem steps_receive_bounded (steps : List BridgeStep) :
    ∀ b : AES67Bridge, b.mode = Mode.Receive → b.networkActive = true →
      b.jackBuffer.length ≤ 2 * b.bufferSize →
      (∀ numFrames source0 source1,
        BridgeStep.callback numFrames source0 source1 ∈ steps → numFrames < 2 ^ 31) →
      ∃ b', b.steps steps = some b' ∧ b'.jackBuffer.length ≤ 2 * b.bufferSize ∧
        b'.bufferSize = b.bufferSize := by
  induction steps with
  | nil => intro b _ _ hq _; exact ⟨b, rfl, hq, rfl⟩
  | cons s rest ih =>
    intro b hmode hact hq hsteps
    have hrest : ∀ numFrames source0 source1,
        BridgeStep.callback numFrames source0 source1 ∈ rest → numFrames < 2 ^ 31 :=
      fun n s0 s1 hm => hsteps n s0 s1 (List.mem_cons_of_mem _ hm)
    cases s with
    | callback numFrames source0 source1 =>
      obtain ⟨b1, out, hp, hlen, hm1, ha1, hs1⟩ := process_receive_shrinks b numFrames
        source0 source1 hmode hact (hsteps numFrames source0 source1 (List.mem_cons_self _ _))
      obtain ⟨b', hb', hlen', hs'⟩ := ih b1 (hm1.trans hmode) (ha1.trans hact)
        (by rw [hs1]; exact hlen.trans hq) hrest
      refine ⟨b', ?_, by rw [← hs1]; exact hlen', hs'.trans hs1⟩
      simp only [AES67Bridge.steps, AES67Bridge.step, hp, Option.map_some']
      exact hb'
    | received audioBuffer =>
      obtain ⟨hlen, hm1, ha1, hs1⟩ := enqueueReceived_length b audioBuffer
      obtain ⟨b', hb', hlen', hs'⟩ := ih (b.enqueueReceived audioBuffer) (hm1.trans hmode)
        (ha1.trans hact) (by rw [hs1]; exact hlen) hrest
      refine ⟨b', ?_, by rw [← hs1]; exact hlen', hs'.trans hs1⟩
      simp only [AES67Bridge.steps, AES67Bridge.step]
      exact hb'

/-- C18 fails as stated: in transmit mode with networking active, N = 48 and the
queue sized for 20 packets (bufferSize = 960, C_q = 20 * 48 * 2 = 1920 floats), one
audio callback of 1024 frames on the empty queue leaves 2048 floats queued. -/
theorem transmit_queue_exceeds_capacity :
    transmitBridge.mode = Mode.Transmit ∧ transmitBridge.networkActive = true ∧
    transmitBridge.bufferSize = 20 * 48 ∧ transmitBridge.jackBuffer.length = 0 ∧
    ∃ b', transmitBridge.steps
        [BridgeStep.callback 1024 (List.replicate 1024 0) (List.replicate 1024 0)] = some b' ∧
      b'.jackBuffer.length = 2048 ∧ 20 * 48 * 2 < b'.jackBuffer.length := by
  refine ⟨rfl, rfl, rfl, rfl, ?_⟩
  obtain ⟨b', hp, hlen⟩ := process_transmit transmitBridge 1024 (List.replicate 1024 0)
    (List.replicate 1024 0) rfl rfl (by rw [List.length_replicate]) (by rw [List.length_replicate])
  have h0 : transmitBridge.jackBuffer.length = 0 := rfl
  rw [h0] at hlen
  refine ⟨b', ?_, by omega, by omega⟩
  simp only [AES67Bridge.steps, AES67Bridge.step, hp, Option.map_some']

/-- C18 amended: in receive mode with networking active and the queue sized for 20
packets of N frames (bufferSize = 20 * N), from a queue of at most C_q = 20 * N * 2
floats, every interleaving of audio-callback steps (numFrames below 2^31) and
receive-worker steps is defined and leaves at most C_q floats queued. (In transmit
mode the callback appends 2 * numFrames floats at every step and nothing caps the
queue.) -/
theorem receive_queue_bounded (b : AES67Bridge) (N : Nat) (steps : List BridgeStep)
    (hmode : b.mode = Mode.Receive) (hact : b.networkActive = true)
    (hsize : b.bufferSize = 20 * N) (hq : b.jackBuffer.length ≤ 20 * N * 2)
    (hsteps : ∀ numFrames source0 source1,
      BridgeStep.callback numFrames source0 source1 ∈ steps → numFrames < 2 ^ 31) :
    ∃ b', b.steps steps = some b' ∧ b'.jackBuffer.length ≤ 20 * N * 2 := by
  obtain ⟨b', hb', hlen, -⟩ := steps_receive_bounded steps b hmode hact
    (by rw [hsize]; omega) hsteps
  exact ⟨b', hb', by rw [hsize] at hlen; omega⟩

/-- Witness of C18 amended: the receive bridge sized for N = 48, one packet of two
decoded samples and one callback of one frame. -/
theorem receive_queue_bounded_witness :
    receiveBridge.mode = Mode.Receive ∧ receiveBridge.networkActive = true ∧
    receiveBridge.bufferSize = 20 * 48 ∧ receiveBridge.jackBuffer.length ≤ 20 * 48 * 2 ∧
    ∃ b', receiveBridge.steps [BridgeStep.received [1 / 2, -1 / 2], BridgeStep.callback 1 [] []]
        = some b' ∧ b'.jackBuffer.length ≤ 20 * 48 * 2 :=
  ⟨rfl, rfl, rfl, by decide,
    receive_queue_bounded receiveBridge 48
      [BridgeStep.received [1 / 2, -1 / 2], BridgeStep.callback 1 [] []] rfl rfl rfl (by decide)
      (by
        intro n s0 s1 hm
        simp only [List.mem_cons, List.mem_singleton, List.not_mem_nil, or_false] at hm
        rcases hm with h | h
        · cases h
        · cases h; norm_num)⟩

/-! ## Trimming the queue (C19) -/

theorem enqueueReceived_eq (b : AES67Bridge) (audioBuffer : List ℚ)
    (hcap : b.bufferSize * 2 < 2 ^ SIZE_BITS) :
    (b.enqueueReceived audioBuffer).jackBuffer
      = (b.jackBuffer ++ audioBuffer).take (2 * b.bufferSize) := by
  have hmod : b.bufferSize * 2 % 2 ^ SIZE_BITS = 2 * b.bufferSize := by
    rw [Nat.mod_eq_of_lt hcap, Nat.mul_comm]
  unfold AES67Bridge.enqueueReceived
  simp only [hmod]
  split
  · rfl
  · rename_i h
    rw [List.take_of_length_le (not_lt.mp h)]

/-- C19 fails as stated: with bufferSize = 2 (at most 4 floats) and the queue 1, 2, 3,
the receive worker that appends the decoded samples 4, 5 leaves the queue 1, 2, 3, 4:
the oldest sample 1 is kept and the newest sample 5 is dropped, where truncation
from the front would have left 2, 3, 4, 5. -/
theorem enqueueReceived_drops_newest :
    smallReceiveBridge.bufferSize = 2 ∧ smallReceiveBridge.jackBuffer = [1, 2, 3] ∧
    (smallReceiveBridge.enqueueReceived [4, 5]).jackBuffer = [1, 2, 3, 4] ∧
    (smallReceiveBridge.enqueueReceived [4, 5]).jackBuffer ≠ [2, 3, 4, 5] ∧
    ¬ List.IsSuffix [4, 5] (smallReceiveBridge.enqueueReceived [4, 5]).jackBuffer := by
  have h : (smallReceiveBridge.enqueueReceived [4, 5]).jackBuffer = [1, 2, 3, 4] := by
    rw [enqueueReceived_eq smallReceiveBridge [4, 5] (by decide)]
    rfl
  refine ⟨rfl, rfl, h, ?_, ?_⟩
  · rw [h]; intro hc; simp at hc
  · rw [h]
    intro hc
    obtain ⟨t, ht⟩ := hc
    have hl : t.length = 2 := by
      have := congrArg List.length ht
      simp at this; omega
    match t, hl, ht with
    | [a, b], _, ht => simp at ht

/-- C19 amended: in the receive worker, whenever appending the decoded samples makes
the queue exceed 2 * bufferSize floats, the queue is cut back to its first
2 * bufferSize floats: it is truncated from the back, the oldest samples are
retained at the head and the overflow, the most recently appended samples, is
dropped; a queue that was within the limit keeps all its samples and takes only the
first of the new ones. -/
theorem enqueueReceived_truncates (b : AES67Bridge) (audioBuffer : List ℚ)
    (hcap : b.bufferSize * 2 < 2 ^ SIZE_BITS)
    (hover : 2 * b.bufferSize < b.jackBuffer.length + audioBuffer.length) :
    (b.enqueueReceived audioBuffer).jackBuffer
      = (b.jackBuffer ++ audioBuffer).take (2 * b.bufferSize) ∧
    (b.enqueueReceived audioBuffer).jackBuffer.length = 2 * b.bufferSize ∧
    (b.jackBuffer.length ≤ 2 * b.bufferSize →
      (b.enqueueReceived audioBuffer).jackBuffer
        = b.jackBuffer ++ audioBuffer.take (2 * b.bufferSize - b.jackBuffer.length)) := by
  have h := enqueueReceived_eq b audioBuffer hcap
  refine ⟨h, ?_, ?_⟩
  · rw [h, List.length_take, List.length_append]
    omega
  · intro hle
    rw [h, List.take_append_eq_append_take, List.take_of_length_le hle]

/-- Witness of C19 amended: bufferSize = 2, the queue 1, 2, 3 and the new samples
4, 5. -/
theorem enqueueReceived_truncates_witness :
    smallReceiveBridge.bufferSize * 2 < 2 ^ SIZE_BITS ∧
    2 * smallReceiveBridge.bufferSize < smallReceiveBridge.jackBuffer.length + 2 ∧
    (smallReceiveBridge.enqueueReceived [4, 5]).jackBuffer.length = 4 :=
  ⟨by decide, by decide,
    (enqueueReceived_truncates smallReceiveBridge [4, 5] (by decide) (by decide)).2.1⟩

/-! ## The transmit worker (C20) -/

theorem clipSample_mem (c : AudioConverter) (t : ℚ) (h : c.minIntValue ≤ c.maxIntValue) :
    c.minIntValue ≤ clipSample c t ∧ clipSample c t ≤ c.maxIntValue := by
  by_cases h1 : t > c.maxIntValue
  · rw [clipSample_of_gt c t h1]; exact ⟨h, le_rfl⟩
  · by_cases h2 : t < c.minIntValue
    · rw [clipSample_of_lt c t (not_lt.mp h1) h2]; exact ⟨le_rfl, h⟩
    · rw [clipSample_of_mem c t (not_lt.mp h1) (not_lt.mp h2)]
      exact ⟨not_lt.mp h2, not_lt.mp h1⟩

theorem floatToIntSample_defined (c : AudioConverter) (hc : c.Ready) (d : DitherState)
    (x u : ℚ) : ∃ r, floatToIntSample c d x u = some r := by
  obtain ⟨-, -, h1, h2, h3⟩ := hc
  have key : ∀ t : ℚ, ∃ q : Int, floatToInt32 (clipSample c t) = some q := by
    intro t
    obtain ⟨hlo, hhi⟩ := clipSample_mem c t h2
    obtain ⟨q, hq, -⟩ := floatToInt32_total (clipSample c t) (-2147483648) 2147483647
      (by push_cast; linarith) (by push_cast; linarith) le_rfl le_rfl
    exact ⟨q, hq⟩
  obtain ⟨q, hq⟩ := key (f32 (f32 (f32 (f32 (x * c.maxIntValue)
    + f32 (f32 (d.error - d.errorPrev1) + d.errorPrev2)) + 1 / 2)
    + f32 (f32 (u * c.ditherScale) - d.random)))
  exact ⟨_, floatToIntSample_eval c d x u _ _ _ _ _ q rfl rfl rfl rfl rfl hq⟩

theorem floatToIntFrom_defined (c : AudioConverter) (hc : c.Ready) (draws : Nat → ℚ)
    (xs : List ℚ) :
    ∀ (i : Nat) (states : List DitherState), states.length = c.channelCount →
      ∃ out states', floatToIntFrom c draws i states xs = some (out, states') ∧
        states'.length = c.channelCount := by
  induction xs with
  | nil => intro i states hlen; exact ⟨[], states, by simp only [floatToIntFrom], hlen⟩
  | cons x xs ih =>
    intro i states hlen
    have hi : i % c.channelCount < states.length := by
      rw [hlen]; exact Nat.mod_lt _ hc.1
    obtain ⟨⟨dest, d'⟩, hs⟩ := floatToIntSample_defined c hc (states.get ⟨_, hi⟩) x (draws i)
    obtain ⟨rest, states', hr, hlen'⟩ := ih (i + 1) (states.set (i % c.channelCount) d')
      (by rw [List.length_set]; exact hlen)
    exact ⟨dest ++ rest, states', floatToIntFrom_cons c draws i states x xs _ d' dest rest
      states' (by rw [List.getElem?_eq_getElem hi]; rfl) hs hr, hlen'⟩

theorem processFloatToInt_defined (c : AudioConverter) (hc : c.Ready) (draws : Nat → ℚ)
    (input : List ℚ) :
    ∃ out c', c.processFloatToInt draws input = some (out, c') ∧ c'.Ready := by
  unfold AudioConverter.processFloatToInt
  by_cases he : input.isEmpty = true
  · rw [if_pos he]; exact ⟨[], c, rfl, hc⟩
  · rw [if_neg he, if_neg (by have := hc.1; omega)]
    unfold AudioConverter.floatToInt
    rw [if_neg (by
      have := Nat.div_mul_le_self input.length c.channelCount
      omega)]
    obtain ⟨out, states', h, hlen⟩ := floatToIntFrom_defined c hc draws
      (input.take (input.length / c.channelCount * c.channelCount)) 0 c.ditherStates hc.2.1
    rw [h]
    exact ⟨out, _, rfl, hc.1, hlen, hc.2.2⟩

theorem init_ready : AudioConverter.init.Ready := by
  refine ⟨by decide, by decide, ?_, ?_, ?_⟩
  · show -2147483648 ≤ floatLit (-8388608); rw [floatLit_neg_8388608]; norm_num
  · show floatLit (-8388608) ≤ floatLit 8388607
    rw [floatLit_neg_8388608, floatLit_8388607]; norm_num
  · show floatLit 8388607 ≤ 2147483647; rw [floatLit_8388607]; norm_num

theorem htons_mod (v : Nat) : htons (v % 65536) = htons v := by
  unfold htons
  rw [show v % 65536 / 256 % 256 = v / 256 % 256 by omega,
    show v % 65536 % 256 = v % 256 by omega]

theorem htonl_mod (v : Nat) : htonl (v % 4294967296) = htonl v := by
  unfold htonl
  rw [show v % 4294967296 / 16777216 % 256 = v / 16777216 % 256 by omega,
    show v % 4294967296 / 65536 % 256 = v / 65536 % 256 by omega,
    show v % 4294967296 / 256 % 256 = v / 256 % 256 by omega,
    show v % 4294967296 % 256 = v % 256 by omega]

theorem land_7F_mod (pt : Nat) : (pt &&& 0x7F) % 256 = pt % 128 := by
  have h : pt &&& 0x7F = pt % 128 := Nat.and_pow_two_sub_one_eq_mod pt 7
  rw [h]; omega

theorem transmitPass_idle (draws : Nat → ℚ) (N : Nat) (b : AES67Bridge) (hN : N < 2 ^ 31)
    (hlen : b.jackBuffer.length < 2 * N) : b.transmitPass draws N = some (b, none) := by
  have e : N * 2 % 2 ^ SIZE_BITS = 2 * N := by unfold SIZE_BITS; omega
  unfold AES67Bridge.transmitPass
  rw [e, if_neg (by omega)]

theorem transmitPass_emits (draws : Nat → ℚ) (N : Nat) (b : AES67Bridge) (hN0 : 0 < N)
    (hN : N < 2 ^ 31) (hrate : -1 < b.sampleRate ∧ b.sampleRate < 2 ^ 32)
    (hready : b.converter.Ready) (hlen : 2 * N ≤ b.jackBuffer.length) :
    ∃ b', b.transmitPass draws N
        = some (b', some (rtpPacket b.rtp.payloadType b.rtp.sequenceNumber b.rtp.timestamp
            b.rtp.ssrc (sampleBytes ((b.jackBuffer.take (2 * N)).map f32Bits)))) ∧
      b'.jackBuffer = b.jackBuffer.drop (2 * N) ∧ b'.sampleRate = b.sampleRate ∧
      b'.converter.Ready ∧
      b'.rtp.sequenceNumber = (b.rtp.sequenceNumber + 1) % 65536 ∧
      b'.rtp.timestamp = (b.rtp.timestamp + N) % 2 ^ 32 ∧
      b'.rtp.ssrc = b.rtp.ssrc ∧ b'.rtp.payloadType = b.rtp.payloadType := by
  have e : N * 2 % 2 ^ SIZE_BITS = 2 * N := by unfold SIZE_BITS; omega
  obtain ⟨out, c', hconv, hc'⟩ := processFloatToInt_defined b.converter hready draws
    (b.jackBuffer.take (2 * N))
  have htake : (b.jackBuffer.take (2 * N)).length = 2 * N := by
    rw [List.length_take]; omega
  have hgood : ¬ invalidInput
      { samples := (b.jackBuffer.take (2 * N)).map f32Bits, channelCount := 2,
        sampleRate := ⌊max b.sampleRate 0⌋.toNat, frameCount := N % 2 ^ 32 } := by
    unfold invalidInput
    simp only [not_or]
    refine ⟨?_, by norm_num, by omega⟩
    intro h
    have := congrArg List.length h
    simp only [List.length_map, htake, List.length_nil] at this
    omega
  have hpay : payloadSizeOf
      { samples := (b.jackBuffer.take (2 * N)).map f32Bits, channelCount := 2,
        sampleRate := ⌊max b.sampleRate 0⌋.toNat, frameCount := N % 2 ^ 32 } = 8 * N := by
    unfold payloadSizeOf SIZE_BITS
    simp only
    omega
  have hbytes : (sampleBytes ((b.jackBuffer.take (2 * N)).map f32Bits)).length = 8 * N := by
    rw [sampleBytes_length, List.length_map, htake]; ring
  have hcp := createPacket_valid b.rtp
    { samples := (b.jackBuffer.take (2 * N)).map f32Bits, channelCount := 2,
      sampleRate := ⌊max b.sampleRate 0⌋.toNat, frameCount := N % 2 ^ 32 } [] hgood
  rw [hpay, if_pos (by rw [hbytes]), ← hbytes, List.take_length] at hcp
  unfold AES67Bridge.transmitPass
  rw [e, if_pos (by omega)]
  simp only [floatToUInt32, if_pos hrate, hconv, hcp]
  unfold rtpPacket
  rw [← land_7F_mod b.rtp.payloadType]
  refine ⟨_, rfl, rfl, rfl, hc', rfl, ?_, rfl, rfl⟩
  show (b.rtp.timestamp + N % 2 ^ 32) % 2 ^ 32 = _
  omega

theorem rtpPacket_mod (pt seq ts ssrc : Nat) (payload : List Nat) :
    rtpPacket pt (seq % 65536) (ts % 2 ^ 32) ssrc payload = rtpPacket pt seq ts ssrc payload := by
  unfold rtpPacket
  rw [htons_mod, show (2 : Nat) ^ 32 = 4294967296 by norm_num, htonl_mod]

theorem transmitRun_spec (N : Nat) (hN0 : 0 < N) (hN : N < 2 ^ 31) :
    ∀ (n : Nat) (draws : Nat → Nat → ℚ) (b : AES67Bridge),
      (-1 < b.sampleRate ∧ b.sampleRate < 2 ^ 32) → b.converter.Ready →
      b.jackBuffer.length / (2 * N) ≤ n →
      ∃ b', b.transmitRun draws N n
          = some (b', (List.range (b.jackBuffer.length / (2 * N))).map (fun k =>
              rtpPacket b.rtp.payloadType ((b.rtp.sequenceNumber + k) % 65536)
                ((b.rtp.timestamp + k * N) % 2 ^ 32) b.rtp.ssrc
                (sampleBytes (((b.jackBuffer.drop (2 * N * k)).take (2 * N)).map f32Bits)))) ∧
        b'.jackBuffer = b.jackBuffer.drop (2 * N * (b.jackBuffer.length / (2 * N))) := by
  intro n
  induction n with
  | zero =>
    intro draws b _ _ hn
    have hK : b.jackBuffer.length / (2 * N) = 0 := Nat.eq_zero_of_le_zero hn
    rw [hK]
    exact ⟨b, by simp only [AES67Bridge.transmitRun, List.range_zero, List.map_nil], by simp⟩
  | succ n ih =>
    intro draws b hrate hready hn
    by_cases hlen : 2 * N ≤ b.jackBuffer.length
    · obtain ⟨b1, hpass, hq1, hsr1, hrd1, hseq1, hts1, hssrc1, hpt1⟩ :=
        transmitPass_emits (draws 0) N b hN0 hN hrate hready hlen
      have hK : b.jackBuffer.length / (2 * N)
          = (b.jackBuffer.length - 2 * N) / (2 * N) + 1 := by
        have h1 := Nat.sub_mul_div b.jackBuffer.length (2 * N) 1 (by omega)
        have h2 : 0 < b.jackBuffer.length / (2 * N) :=
          Nat.div_pos hlen (by omega)
        rw [Nat.mul_one] at h1
        omega
      have hlen1 : b1.jackBuffer.length = b.jackBuffer.length - 2 * N := by
        rw [hq1, List.length_drop]
      obtain ⟨b', hrun, hq'⟩ := ih (fun k => draws (k + 1)) b1 (by rw [hsr1]; exact hrate) hrd1
        (by rw [hlen1]; omega)
      refine ⟨b', ?_, ?_⟩
      · simp only [AES67Bridge.transmitRun, hpass, hrun, Option.toList]
        rw [hK, hlen1, List.range_succ_eq_map, List.map_cons, List.map_map]
        simp only [List.singleton_append, Nat.zero_mul, Nat.mul_zero, Nat.add_zero,
          List.drop_zero]
        rw [rtpPacket_mod]
        congr 3
        apply List.map_congr_left
        intro k _
        simp only [Function.comp, hpt1, hseq1, hts1, hssrc1, hq1, List.drop_drop]
        have hs : ((b.rtp.sequenceNumber + 1) % 65536 + k) % 65536
            = (b.rtp.sequenceNumber + k.succ) % 65536 := by omega
        have ht : ((b.rtp.timestamp + N) % 2 ^ 32 + k * N) % 2 ^ 32
            = (b.rtp.timestamp + k.succ * N) % 2 ^ 32 := by
          rw [Nat.succ_mul]; omega
        have hp : 2 * N + 2 * N * k = 2 * N * k.succ := by
          rw [Nat.mul_succ]; omega
        rw [hs, ht, hp]
      · rw [hq', hlen1, hq1, List.drop_drop, hK]
        congr 1
        ring
    · have hK : b.jackBuffer.length / (2 * N) = 0 := Nat.div_eq_of_lt (by omega)
      obtain ⟨b', hrun, hq'⟩ := ih (fun k => draws (k + 1)) b hrate hready (by omega)
      rw [hK] at hrun hq' ⊢
      refine ⟨b', ?_, hq'⟩
      simp only [AES67Bridge.transmitRun, transmitPass_idle (draws 0) N b hN (by omega), hrun,
        Option.toList, List.range_zero, List.map_nil, List.nil_append]

theorem ntohs_rtpPacket (pt seq ts ssrc : Nat) (payload : List Nat) (h : seq < 65536) :
    ntohs (rtpPacket pt seq ts ssrc payload) 2 = seq := by
  simp only [ntohs, rtpPacket, htons, htonl, List.cons_append, List.nil_append,
    List.getD_eq_getElem?_getD, List.getElem?_cons_succ, List.getElem?_cons_zero,
    Option.getD_some]
  omega

theorem ntohl_rtpPacket (pt seq ts ssrc : Nat) (payload : List Nat) (h : ts < 4294967296) :
    ntohl (rtpPacket pt seq ts ssrc payload) 4 = ts := by
  simp only [ntohl, rtpPacket, htons, htonl, List.cons_append, List.nil_append,
    List.getD_eq_getElem?_getD, List.getElem?_cons_succ, List.getElem?_cons_zero,
    Option.getD_some]
  omega

theorem f32_natCast (n : Nat) (hn : n ≤ 2 ^ 24) : f32 (n : ℚ) = n := by
  have := f32_intCast (n : Int) (by rw [abs_of_nonneg (by positivity)]; exact_mod_cast hn)
  exact_mod_cast this

theorem calculatePacketSamples_48k (b : AES67Bridge) (hpt : b.packetTime = 1000)
    (hsr : b.sampleRate = 48000) : b.calculatePacketSamples = some 48 := by
  have a1 : f32 (1000 : ℚ) = 1000 := by exact_mod_cast f32_natCast 1000 (by norm_num)
  have a2 : f32 (48000000 : ℚ) = 48000000 :=
    f32_exact 48000000 46875 10 (by norm_num) (by norm_num) (by norm_num)
  have a3 : f32 (1000000 : ℚ) = 1000000 := by
    exact_mod_cast f32_natCast 1000000 (by norm_num)
  have a4 : f32 (48 : ℚ) = 48 := by exact_mod_cast f32_natCast 48 (by norm_num)
  unfold AES67Bridge.calculatePacketSamples
  rw [hpt, hsr]
  norm_num [a1, a2, a3, a4]
  unfold floatToSize SIZE_BITS
  rw [if_pos (by norm_num)]
  norm_num
  rfl

theorem ntohs_rtpPacket_mod (pt seq ts ssrc : Nat) (payload : List Nat) :
    ntohs (rtpPacket pt (seq % 65536) ts ssrc payload) 2 = seq % 65536 :=
  ntohs_rtpPacket pt _ ts ssrc payload (Nat.mod_lt _ (by norm_num))

theorem ntohl_rtpPacket_mod (pt seq ts ssrc : Nat) (payload : List Nat) :
    ntohl (rtpPacket pt seq (ts % 2 ^ 32) ssrc payload) 4 = ts % 2 ^ 32 :=
  ntohl_rtpPacket pt seq _ ssrc payload (Nat.mod_lt _ (by norm_num))

theorem transmitBridgeWith_run (queue : List ℚ) (hlen : queue.length = 960)
    (draws : Nat → Nat → ℚ) (n : Nat) :
    (transmitBridgeWith queue).calculatePacketSamples = some 48 ∧
    ∃ b' packets, (transmitBridgeWith queue).transmitRun draws 48 (10 + n) = some (b', packets) ∧
      packets.length = 10 ∧ b'.jackBuffer = [] ∧
      packets.map (fun p => ntohs p 2) = [0, 1, 2, 3, 4, 5, 6, 7, 8, 9] ∧
      packets.map (fun p => ntohl p 4) = [0, 48, 96, 144, 192, 240, 288, 336, 384, 432] := by
  have hq : (transmitBridgeWith queue).jackBuffer = queue := rfl
  have hK : (transmitBridgeWith queue).jackBuffer.length / (2 * 48) = 10 := by
    rw [hq, hlen]
  obtain ⟨b', hrun, hq'⟩ := transmitRun_spec 48 (by norm_num) (by norm_num) (10 + n) draws
    (transmitBridgeWith queue)
    (by
      have : (transmitBridgeWith queue).sampleRate = 48000 := rfl
      rw [this]; norm_num)
    init_ready (by rw [hK]; omega)
  rw [hK] at hrun hq'
  refine ⟨calculatePacketSamples_48k _ rfl rfl, b', _, hrun, ?_, ?_, ?_, ?_⟩
  · rw [List.length_map, List.length_range]
  · rw [hq', hq]
    exact List.drop_of_length_le (by rw [hlen])
  · rw [List.map_map]
    have : ((fun p => ntohs p 2) ∘ fun k =>
        rtpPacket (transmitBridgeWith queue).rtp.payloadType
          (((transmitBridgeWith queue).rtp.sequenceNumber + k) % 65536)
          (((transmitBridgeWith queue).rtp.timestamp + k * 48) % 2 ^ 32)
          (transmitBridgeWith queue).rtp.ssrc
          (sampleBytes (((transmitBridgeWith queue).jackBuffer.drop (2 * 48 * k)).take
            (2 * 48) |>.map f32Bits)))
        = fun k => (0 + k) % 65536 := by
      funext k
      exact ntohs_rtpPacket_mod _ _ _ _ _
    rw [this]
    decide
  · rw [List.map_map]
    have : ((fun p => ntohl p 4) ∘ fun k =>
        rtpPacket (transmitBridgeWith queue).rtp.payloadType
          (((transmitBridgeWith queue).rtp.sequenceNumber + k) % 65536)
          (((transmitBridgeWith queue).rtp.timestamp + k * 48) % 2 ^ 32)
          (transmitBridgeWith queue).rtp.ssrc
          (sampleBytes (((transmitBridgeWith queue).jackBuffer.drop (2 * 48 * k)).take
            (2 * 48) |>.map f32Bits)))
        = fun k => (0 + k * 48) % 2 ^ 32 := by
      funext k
      exact ntohl_rtpPacket_mod _ _ _ _ _
    rw [this]
    decide

/-- C20: for N samples per packet (1 <= N < 2^31) and a queue of L floats with no
further input, a run of n >= floor(L / (2*N)) passes of the transmit worker (sample
rate within uint32_t; codec with at least one channel, a dither state for each and
clip limits within int32_t, as at 16 and 24 bits) sends exactly
floor(L / (2*N)) packets; packet k carries the sequence number (seq + k) mod 2^16,
the timestamp (ts + k*N) mod 2^32 and, as payload, the floats 2*N*k .. 2*N*(k+1) - 1
of the queue; the floats left in the queue are those after the first
2*N*floor(L / (2*N)). In particular the bridge at 48 kHz and 1 ms has N = 48, and
from 960 queued floats it sends exactly 10 packets with sequence numbers 0, ..., 9
and timestamps 0, 48, 96, ..., 432, leaving the queue empty. -/
theorem transmitRun_emits (N : Nat) (b : AES67Bridge) (draws : Nat → Nat → ℚ) (n : Nat)
    (hN0 : 0 < N) (hN : N < 2 ^ 31)
    (hrate : -1 < b.sampleRate ∧ b.sampleRate < 2 ^ 32) (hready : b.converter.Ready)
    (hn : b.jackBuffer.length / (2 * N) ≤ n) :
    (∃ b', b.transmitRun draws N n
        = some (b', (List.range (b.jackBuffer.length / (2 * N))).map (fun k =>
            rtpPacket b.rtp.payloadType ((b.rtp.sequenceNumber + k) % 65536)
              ((b.rtp.timestamp + k * N) % 2 ^ 32) b.rtp.ssrc
              (sampleBytes (((b.jackBuffer.drop (2 * N * k)).take (2 * N)).map f32Bits)))) ∧
      b'.jackBuffer = b.jackBuffer.drop (2 * N * (b.jackBuffer.length / (2 * N)))) ∧
    (∀ queue : List ℚ, queue.length = 960 →
      (transmitBridgeWith queue).calculatePacketSamples = some 48 ∧
      ∃ b' packets,
        (transmitBridgeWith queue).transmitRun draws 48 (10 + n) = some (b', packets) ∧
        packets.length = 10 ∧ b'.jackBuffer = [] ∧
        packets.map (fun p => ntohs p 2) = [0, 1, 2, 3, 4, 5, 6, 7, 8, 9] ∧
        packets.map (fun p => ntohl p 4) = [0, 48, 96, 144, 192, 240, 288, 336, 384, 432]) :=
  ⟨transmitRun_spec N hN0 hN n draws b hrate hready hn,
    fun queue hlen => transmitBridgeWith_run queue hlen draws n⟩

/-- Witness of C20: N = 1, the queue 1/2, -1/2, 1/4 and two passes: one packet is
sent and 1/4 stays queued. -/
theorem transmitRun_emits_witness :
    0 < 1 ∧ 1 < 2 ^ 31 ∧
    (-1 < (transmitBridgeWith [1 / 2, -1 / 2, 1 / 4]).sampleRate ∧
      (transmitBridgeWith [1 / 2, -1 / 2, 1 / 4]).sampleRate < 2 ^ 32) ∧
    (transmitBridgeWith [1 / 2, -1 / 2, 1 / 4]).converter.Ready ∧
    (transmitBridgeWith [1 / 2, -1 / 2, 1 / 4]).jackBuffer.length / (2 * 1) ≤ 2 ∧
    ∃ b' packets,
      (transmitBridgeWith [1 / 2, -1 / 2, 1 / 4]).transmitRun (fun _ _ => 0) 1 2
        = some (b', packets) ∧ packets.length = 1 ∧ b'.jackBuffer = [1 / 4] := by
  have hsr : (transmitBridgeWith [1 / 2, -1 / 2, 1 / 4]).sampleRate = 48000 := rfl
  have hrate : -1 < (transmitBridgeWith [1 / 2, -1 / 2, 1 / 4]).sampleRate ∧
      (transmitBridgeWith [1 / 2, -1 / 2, 1 / 4]).sampleRate < 2 ^ 32 := by
    rw [hsr]; norm_num
  have hlen : (transmitBridgeWith [1 / 2, -1 / 2, 1 / 4]).jackBuffer.length / (2 * 1) ≤ 2 := by
    decide
  obtain ⟨b', hrun, hq⟩ := (transmitRun_emits 1 (transmitBridgeWith [1 / 2, -1 / 2, 1 / 4])
    (fun _ _ => 0) 2 (by norm_num) (by norm_num) hrate init_ready hlen).1
  exact ⟨by norm_num, by norm_num, hrate, init_ready, hlen, b', _, hrun,
    by rw [List.length_map, List.length_range]; rfl, by rw [hq]; rfl⟩

/-! ## The dither state after a sample (C27) -/

/-- C27 fails as stated: a 16-bit codec whose channel has encoded -33/64 (error
e_0 = -95/64 left in its dither state) encodes the sample 3/32 as q = 3070 and stores
e_0 = 27/64, the noise-shaped value 196507/64 minus q; the scaled input
x = 3/32 * 32767 = 98301/32 minus q is 61/32. -/
theorem floatToInt_error_is_noise_shaped :
    floatToIntSample monoCodec16
        { error := 0, errorPrev1 := 0, errorPrev2 := 0, random := 0 } (-33 / 64) 0
      = some ([190, 2],
          { error := -95 / 64, errorPrev1 := 0, errorPrev2 := 0, random := 0 }) ∧
    floatToIntSample monoCodec16
        { error := -95 / 64, errorPrev1 := 0, errorPrev2 := 0, random := 0 } (3 / 32) 0
      = some ([11, 254],
          { error := 27 / 64, errorPrev1 := -95 / 64, errorPrev2 := 0, random := 0 }) ∧
    intToFloatValue 16 [11, 254] = 3070 ∧
    f32 (f32 (3 / 32 * monoCodec16.maxIntValue) - f32 3070) = 61 / 32 ∧
    (61 / 32 : ℚ) ≠ 27 / 64 := by
  refine ⟨monoCodec16_low_first, monoCodec16_low_second, by decide, ?_, by norm_num⟩
  have a1 : f32 (98301 / 32 : ℚ) = 98301 / 32 :=
    f32_dyadic 98301 5 (by norm_num) (by norm_num) _ (by norm_num)
  have a2 : f32 (3070 : ℚ) = 3070 := f32_int 3070 (by norm_num) 3070 (by norm_num)
  have a3 : f32 (61 / 32 : ℚ) = 61 / 32 :=
    f32_dyadic 61 5 (by norm_num) (by norm_num) _ (by norm_num)
  rw [monoCodec16_fields.2.1]
  norm_num [a1, a2, a3]

/-- C27 amended: for every sample, draw and dither state of a codec whose clip limits
are int32_t values, floatToInt quantises the sample to an integer q and updates the
channel's dither state to e_{-2} := old e_{-1}, e_{-1} := old e_0,
e_0 := x' - q and r_{-1} := the scaled draw, where x' is the noise-shaped value
sample * S_max + (e_0 - e_{-1} + e_{-2}) (before the bias 1/2 and the dither term are
added), all in float arithmetic; from the all-zero state x' is the scaled input
sample * S_max. -/
theorem floatToIntSample_update (c : AudioConverter) (hc : c.Ready) (d : DitherState)
    (sample u : ℚ) :
    (∃ q : Int,
      floatToInt32 (clipSample c
        (f32 (f32 (f32 (f32 (sample * c.maxIntValue)
            + f32 (f32 (d.error - d.errorPrev1) + d.errorPrev2)) + 1 / 2)
          + f32 (f32 (u * c.ditherScale) - d.random)))) = some q ∧
      floatToIntSample c d sample u
        = some (sampleToBytes c.bitDepth q,
            { errorPrev2 := d.errorPrev1, errorPrev1 := d.error,
              error := f32 (f32 (f32 (sample * c.maxIntValue)
                + f32 (f32 (d.error - d.errorPrev1) + d.errorPrev2)) - f32 q),
              random := f32 (u * c.ditherScale) })) ∧
    (∃ q : Int,
      floatToIntSample c zeroDither sample u
        = some (sampleToBytes c.bitDepth q,
            { errorPrev2 := 0, errorPrev1 := 0,
              error := f32 (f32 (sample * c.maxIntValue) - f32 q),
              random := f32 (u * c.ditherScale) })) := by
  have key : ∀ d : DitherState, ∃ q : Int,
      floatToInt32 (clipSample c
        (f32 (f32 (f32 (f32 (sample * c.maxIntValue)
            + f32 (f32 (d.error - d.errorPrev1) + d.errorPrev2)) + 1 / 2)
          + f32 (f32 (u * c.ditherScale) - d.random)))) = some q ∧
      floatToIntSample c d sample u
        = some (sampleToBytes c.bitDepth q,
            { errorPrev2 := d.errorPrev1, errorPrev1 := d.error,
              error := f32 (f32 (f32 (sample * c.maxIntValue)
                + f32 (f32 (d.error - d.errorPrev1) + d.errorPrev2)) - f32 q),
              random := f32 (u * c.ditherScale) }) := by
    intro d
    have hq : ∀ t : ℚ, ∃ q : Int, floatToInt32 (clipSample c t) = some q := by
      intro t
      obtain ⟨hlo, hhi⟩ := clipSample_mem c t hc.2.2.2.1
      obtain ⟨q, hq, -⟩ := floatToInt32_total (clipSample c t) (-2147483648) 2147483647
        (by push_cast; linarith [hc.2.2.1]) (by push_cast; linarith [hc.2.2.2.2]) le_rfl le_rfl
      exact ⟨q, hq⟩
    obtain ⟨q, hq⟩ := hq (f32 (f32 (f32 (f32 (sample * c.maxIntValue)
            + f32 (f32 (d.error - d.errorPrev1) + d.errorPrev2)) + 1 / 2)
          + f32 (f32 (u * c.ditherScale) - d.random)))
    exact ⟨q, hq, floatToIntSample_eval c d sample u _ _ _ _ _ q rfl rfl rfl rfl rfl hq⟩
  refine ⟨key d, ?_⟩
  obtain ⟨q, -, h⟩ := key zeroDither
  refine ⟨q, ?_⟩
  rw [h, zeroDither_eq]
  simp only [sub_zero, add_zero, f32_zero, f32_idem]

/-- Witness of C27 amended: the codec the constructor builds (24 bits), whose clip
limits are int32_t values. -/
theorem floatToIntSample_update_witness :
    AudioConverter.init.Ready ∧
    ∃ q : Int,
      floatToIntSample AudioConverter.init zeroDither (1 / 2) (1 / 4)
        = some (sampleToBytes AudioConverter.init.bitDepth q,
            { errorPrev2 := 0, errorPrev1 := 0,
              error := f32 (f32 (1 / 2 * AudioConverter.init.maxIntValue) - f32 q),
              random := f32 (1 / 4 * AudioConverter.init.ditherScale) }) :=
  ⟨init_ready, (floatToIntSample_update AudioConverter.init init_ready zeroDither
    (1 / 2) (1 / 4)).2⟩

/-! ## Packing and unpacking a quantised value (C30) -/

theorem sampleToBytes_32 (q : Int) :
    sampleToBytes 32 q
      = [toUnsigned 32 q / 16777216 % 256, toUnsigned 32 q / 65536 % 256,
          toUnsigned 32 q / 256 % 256, toUnsigned 32 q % 256] := by
  simp [sampleToBytes, and_FF_eq, Nat.shiftRight_eq_div_pow]

theorem intToFloatValue_sampleToBytes_32 (q : Int) (hlo : -2147483648 ≤ q)
    (hhi : q ≤ 2147483647) : intToFloatValue 32 (sampleToBytes 32 q) = q := by
  have hw := toUnsigned_cast q
  rw [sampleToBytes_32, intToFloatValue_32 _ (by
    intro b hb
    simp only [List.mem_cons, List.mem_singleton, List.not_mem_nil, or_false] at hb
    rcases hb with rfl | rfl | rfl | rfl <;> omega) (by simp)]
  simp only [twosComplementBE, bigEndian, bigEndianFrom, List.take]
  norm_num
  split_ifs <;> omega

/-- C30: for every B in {16, 24, 32} and every integer q with
-2^(B-1) <= q <= 2^(B-1) - 1, the switch of floatToInt writes B/8 bytes for the
quantised value q, and the switch of intToFloat rebuilds exactly q from them. -/
theorem intToFloatValue_sampleToBytes (B : Nat) (hB : B = 16 ∨ B = 24 ∨ B = 32) (q : Int)
    (hlo : -2 ^ (B - 1) ≤ q) (hhi : q ≤ 2 ^ (B - 1) - 1) :
    (sampleToBytes B q).length = B / 8 ∧ (∀ b ∈ sampleToBytes B q, b < 256) ∧
    intToFloatValue B (sampleToBytes B q) = q := by
  rcases hB with rfl | rfl | rfl
  · refine ⟨by rw [sampleToBytes_16]; rfl, ?_, intToFloatValue_sampleToBytes_16 q
      (by norm_num at hlo; exact hlo) (by norm_num at hhi; exact hhi)⟩
    intro b hb
    rw [sampleToBytes_16] at hb
    simp only [List.mem_cons, List.mem_singleton, List.not_mem_nil, or_false] at hb
    rcases hb with rfl | rfl <;> omega
  · refine ⟨by rw [sampleToBytes_24]; rfl, ?_, intToFloatValue_sampleToBytes_24 q
      (by norm_num at hlo; exact hlo) (by norm_num at hhi; exact hhi)⟩
    intro b hb
    rw [sampleToBytes_24] at hb
    simp only [List.mem_cons, List.mem_singleton, List.not_mem_nil, or_false] at hb
    rcases hb with rfl | rfl | rfl <;> omega
  · refine ⟨by rw [sampleToBytes_32]; rfl, ?_, intToFloatValue_sampleToBytes_32 q
      (by norm_num at hlo; exact hlo) (by norm_num at hhi; exact hhi)⟩
    intro b hb
    rw [sampleToBytes_32] at hb
    simp only [List.mem_cons, List.mem_singleton, List.not_mem_nil, or_false] at hb
    rcases hb with rfl | rfl | rfl | rfl <;> omega

/-- Witness of C30: B = 24 and the most negative value q = -8388608, written as
80 00 00. -/
theorem intToFloatValue_sampleToBytes_witness :
    (24 = 16 ∨ 24 = 24 ∨ 24 = 32) ∧ (-2 ^ (24 - 1) ≤ (-8388608 : Int)) ∧
    ((-8388608 : Int) ≤ 2 ^ (24 - 1) - 1) ∧
    sampleToBytes 24 (-8388608) = [0x80, 0, 0] ∧
    intToFloatValue 24 (sampleToBytes 24 (-8388608)) = -8388608 :=
  ⟨by decide, by norm_num, by norm_num, by decide,
    (intToFloatValue_sampleToBytes 24 (by decide) (-8388608) (by norm_num) (by norm_num)).2.2⟩

/-! ## Setters while networking is active (C22) -/

/-- C22: whenever networking is active, setMode, setNetworkAddress and
setNetworkInterface return failure, setBitDepth and setPacketTime return without
effect, and each of the five leaves the whole bridge, so mode, bitDepth, packetTime
and bufferSize, unchanged. -/
theorem setters_fail_when_active (b : AES67Bridge) (hact : b.networkActive = true)
    (transmit : Bool) (bits microseconds port : Int) (address interface : String)
    (networkStatus : Bool) :
    b.setMode transmit = (false, b) ∧
    b.setBitDepth bits = b ∧
    b.setPacketTime microseconds = some b ∧
    b.setNetworkAddress address port = (false, b) ∧
    b.setNetworkInterface interface networkStatus = (false, b) := by
  refine ⟨?_, ?_, ?_, ?_, ?_⟩
  · unfold AES67Bridge.setMode; rw [if_pos hact]
  · unfold AES67Bridge.setBitDepth; rw [if_pos hact]
  · unfold AES67Bridge.setPacketTime; rw [if_pos hact]
  · unfold AES67Bridge.setNetworkAddress; rw [if_pos hact]
  · unfold AES67Bridge.setNetworkInterface; rw [if_pos hact]

/-- Witness of C22: the receive bridge with networking active, asked to switch to
transmit mode. -/
theorem setters_fail_when_active_witness :
    receiveBridge.networkActive = true ∧
    receiveBridge.setMode true = (false, receiveBridge) ∧
    (receiveBridge.setMode true).2.mode = Mode.Receive :=
  have h := setters_fail_when_active receiveBridge rfl true 16 125 5004 "239.69.83.133" "eth0"
    true
  ⟨rfl, h.1, by rw [h.1]; rfl⟩

/-! ## PTP timestamps in samples (C24) -/

theorem shl8_or (acc b : Nat) (hb : b < 256) : (acc <<< 8) ||| b = acc * 256 + b := by
  have := shl_or_eq acc b 8 (by simpa using hb)
  simpa using this

theorem shl8_or_mod64 (acc b : Nat) (hacc : acc < 2 ^ 56) (hb : b < 256) :
    ((acc <<< 8) % 2 ^ 64) ||| b = acc * 256 + b := by
  have h := shl8_or acc b hb
  rw [Nat.shiftLeft_eq] at h ⊢
  rw [Nat.mod_eq_of_lt (by omega)]
  exact h

theorem shl8_or_mod32 (acc b : Nat) (hacc : acc < 2 ^ 24) (hb : b < 256) :
    (((acc <<< 8) % 2 ^ 32) ||| b) % 2 ^ 32 = acc * 256 + b := by
  have h := shl8_or acc b hb
  rw [Nat.shiftLeft_eq] at h ⊢
  rw [Nat.mod_eq_of_lt (show acc * 2 ^ 8 < 2 ^ 32 by omega), h]
  exact Nat.mod_eq_of_lt (by omega)

theorem ptpSeconds_eq (b0 b1 b2 b3 b4 b5 : Nat) (rest : List Nat)
    (h0 : b0 < 256) (h1 : b1 < 256) (h2 : b2 < 256) (h3 : b3 < 256) (h4 : b4 < 256)
    (h5 : b5 < 256) :
    ptpSeconds (b0 :: b1 :: b2 :: b3 :: b4 :: b5 :: rest)
      = ((((b0 * 256 + b1) * 256 + b2) * 256 + b3) * 256 + b4) * 256 + b5 := by
  have hr : List.range 6 = [0, 1, 2, 3, 4, 5] := by decide
  unfold ptpSeconds
  rw [hr]
  simp only [List.foldl_cons, List.foldl_nil, List.getD_eq_getElem?_getD,
    List.getElem?_cons_succ, List.getElem?_cons_zero, Option.getD_some]
  rw [shl8_or_mod64 0 b0 (by norm_num) h0, Nat.zero_mul, Nat.zero_add,
    shl8_or_mod64 b0 b1 (by omega) h1,
    shl8_or_mod64 (b0 * 256 + b1) b2 (by omega) h2,
    shl8_or_mod64 ((b0 * 256 + b1) * 256 + b2) b3 (by omega) h3,
    shl8_or_mod64 (((b0 * 256 + b1) * 256 + b2) * 256 + b3) b4 (by omega) h4,
    shl8_or_mod64 ((((b0 * 256 + b1) * 256 + b2) * 256 + b3) * 256 + b4) b5 (by omega) h5]

theorem ptpNanoseconds_eq (b0 b1 b2 b3 b4 b5 b6 b7 b8 b9 : Nat) (rest : List Nat)
    (h6 : b6 < 256) (h7 : b7 < 256) (h8 : b8 < 256) (h9 : b9 < 256) :
    ptpNanoseconds (b0 :: b1 :: b2 :: b3 :: b4 :: b5 :: b6 :: b7 :: b8 :: b9 :: rest)
      = ((b6 * 256 + b7) * 256 + b8) * 256 + b9 := by
  have hr : List.range 4 = [0, 1, 2, 3] := by decide
  unfold ptpNanoseconds
  rw [hr]
  simp only [List.foldl_cons, List.foldl_nil, List.getD_eq_getElem?_getD,
    List.getElem?_cons_succ, List.getElem?_cons_zero, Option.getD_some, Nat.add_zero,
    Nat.reduceAdd]
  rw [shl8_or_mod32 0 b6 (by norm_num) h6, Nat.zero_mul, Nat.zero_add,
    shl8_or_mod32 b6 b7 (by omega) h7,
    shl8_or_mod32 (b6 * 256 + b7) b8 (by omega) h8,
    shl8_or_mod32 ((b6 * 256 + b7) * 256 + b8) b9 (by omega) h9]

theorem exists_ten_of_length (ts : List Nat) (h : ts.length = 10) :
    ∃ b0 b1 b2 b3 b4 b5 b6 b7 b8 b9, ts = [b0, b1, b2, b3, b4, b5, b6, b7, b8, b9] := by
  match ts, h with
  | [b0, b1, b2, b3, b4, b5, b6, b7, b8, b9], _ => exact ⟨_, _, _, _, _, _, _, _, _, _, rfl⟩

/-- C24: for every 10-byte PTP timestamp, with s the big-endian value of its first six
bytes and n that of its last four, and every sample rate R (a uint32_t) for which
s*R + floor(n*R / 10^9) fits in 64 unsigned bits, ptpToSamples returns exactly
s*R + floor(n*R / 10^9). -/
theorem ptpToSamples_exact (R : Nat) (hR : R < 2 ^ 32) (ts : List Nat)
    (hlen : ts.length = 10) (hbytes : ∀ b ∈ ts, b < 256)
    (hfit : bigEndian (ts.take 6) * R + bigEndian ((ts.drop 6).take 4) * R / 10 ^ 9 < 2 ^ 64) :
    ptpToSamples R ts
      = bigEndian (ts.take 6) * R + bigEndian ((ts.drop 6).take 4) * R / 10 ^ 9 := by
  obtain ⟨b0, b1, b2, b3, b4, b5, b6, b7, b8, b9, rfl⟩ := exists_ten_of_length ts hlen
  have h0 : b0 < 256 := hbytes b0 (by simp)
  have h1 : b1 < 256 := hbytes b1 (by simp)
  have h2 : b2 < 256 := hbytes b2 (by simp)
  have h3 : b3 < 256 := hbytes b3 (by simp)
  have h4 : b4 < 256 := hbytes b4 (by simp)
  have h5 : b5 < 256 := hbytes b5 (by simp)
  have h6 : b6 < 256 := hbytes b6 (by simp)
  have h7 : b7 < 256 := hbytes b7 (by simp)
  have h8 : b8 < 256 := hbytes b8 (by simp)
  have h9 : b9 < 256 := hbytes b9 (by simp)
  have es : bigEndian (List.take 6 [b0, b1, b2, b3, b4, b5, b6, b7, b8, b9])
      = ((((b0 * 256 + b1) * 256 + b2) * 256 + b3) * 256 + b4) * 256 + b5 := by
    simp [bigEndian, bigEndianFrom]
  have en : bigEndian (List.take 4 (List.drop 6 [b0, b1, b2, b3, b4, b5, b6, b7, b8, b9]))
      = ((b6 * 256 + b7) * 256 + b8) * 256 + b9 := by
    simp [bigEndian, bigEndianFrom]
  rw [es, en] at hfit ⊢
  unfold ptpToSamples
  rw [ptpSeconds_eq b0 b1 b2 b3 b4 b5 _ h0 h1 h2 h3 h4 h5,
    ptpNanoseconds_eq b0 b1 b2 b3 b4 b5 b6 b7 b8 b9 [] h6 h7 h8 h9]
  have hn : (((b6 * 256 + b7) * 256 + b8) * 256 + b9) * R < 2 ^ 64 := by
    have hn1 : ((b6 * 256 + b7) * 256 + b8) * 256 + b9 < 2 ^ 32 := by omega
    calc (((b6 * 256 + b7) * 256 + b8) * 256 + b9) * R
        < 2 ^ 32 * 2 ^ 32 := Nat.mul_lt_mul'' hn1 hR
      _ = 2 ^ 64 := by norm_num
  have hs : (((((b0 * 256 + b1) * 256 + b2) * 256 + b3) * 256 + b4) * 256 + b5) * R < 2 ^ 64 :=
    lt_of_le_of_lt (Nat.le_add_right _ _) hfit
  simp only
  have h9 : (10 : Nat) ^ 9 = 1000000000 := by norm_num
  rw [h9] at hfit ⊢
  rw [Nat.mod_eq_of_lt hs, Nat.mod_eq_of_lt hn, Nat.mod_eq_of_lt hfit]

/-- Witness of C24: 48 kHz and the timestamp 1 s + 350 000 000 ns, which is
48000 + 16800 samples. -/
theorem ptpToSamples_exact_witness :
    48000 < 2 ^ 32 ∧ [0, 0, 0, 0, 0, 1, 0x14, 0xDC, 0x93, 0x80].length = 10 ∧
    ptpToSamples 48000 [0, 0, 0, 0, 0, 1, 0x14, 0xDC, 0x93, 0x80] = 64800 :=
  ⟨by decide, by decide,
    (ptpToSamples_exact 48000 (by decide) [0, 0, 0, 0, 0, 1, 0x14, 0xDC, 0x93, 0x80]
      (by decide) (by decide) (by decide)).trans (by decide)⟩

/-! ## The clock offset after a Delay-Response (C23) -/

/-- C23, the failing input: after two exchanges with a two-step grandmaster the
general loop holds t1 = 0 and t2 = 4800, and sendDelayRequest has sent the
Delay-Request with sequence 1 and recorded its send time 9600 in this->t3. The
Delay-Resp with sequence 1 and timestamp 350 ms (t4 = 16800) then publishes the
offset 10800 = ((4800 - 0) + (16800 - 0)) / 2: the loop subtracts its own local t3,
which nothing ever assigns and is still 0. The claimed value
((4800 - 0) + (16800 - 9600)) / 2 is 6000. -/
theorem delayResp_offset_ignores_send_time :
    ptpRun ptpStarted DelayLocals.init twoStepExchange
      = some ({ ptpStarted with
                synchronized := true,
                masterClockId := formatClockId (syncTwoStep 7),
                masterTimestamp := 0, localTimestamp := 4800, syncSequence := 8,
                delaySequence := 1, t3 := 9600 },
              { t1 := 0, t2 := 4800, t3 := 0, t4 := 0 },
              [delayRequestHeader 1]) ∧
    ptpToSamples 48000 ((delayResp 1 0 350000000).drop PTP_HEADER_SIZE) = 16800 ∧
    ptpRun ptpStarted DelayLocals.init
        (twoStepExchange ++ [PTPEvent.general (delayResp 1 0 350000000) 300000 true 300000])
      = some ({ ptpStarted with
                synchronized := true,
                masterClockId := formatClockId (syncTwoStep 7),
                masterTimestamp := 0, localTimestamp := 4800, syncSequence := 8,
                delaySequence := 1, t3 := 9600, clockOffset := 10800 },
              { t1 := 0, t2 := 4800, t3 := 0, t4 := 16800 },
              [delayRequestHeader 1]) ∧
    delayOffset 0 4800 9600 16800 = some 6000 := by
  decide

/-! ## A Sync from a new master (C25) -/

/-- C25 fails as stated: the started PTP slave, which knows no master yet, receives
a one-step Sync of 52 bytes from the grandmaster 00-1D-C1-FF-FE-00-00-01; after the
Sync has been processed the master identity is the new one and synchronized is
true. -/
theorem oneStep_sync_from_new_master :
    ptpAccepted (syncOneStep 7 0 0) = true ∧
    formatClockId (syncOneStep 7 0 0) ≠ ptpStarted.masterClockId ∧
    ntohs (syncOneStep 7 0 0) 6 &&& 0x0200 = 0 ∧
    ptpStarted.eventStep (syncOneStep 7 0 0) 100000 true 100000
      = some ({ ptpStarted with
                masterClockId := formatClockId (syncOneStep 7 0 0),
                masterTimestamp := 0, localTimestamp := 4800, synchronized := true }, []) := by
  decide

theorem eventStep_sync (p : PTPSync) (msg : List Nat) (now : Nat) (sendOk : Bool)
    (sendNow : Nat) (hacc : ptpAccepted msg = true) (htype : msg.getD 0 0 &&& 0x0F = 0)
    (hnew : formatClockId msg ≠ p.masterClockId) :
    p.eventStep msg now sendOk sendNow =
      if ntohs msg 6 &&& 0x0200 ≠ 0 then
        some ({ p with masterClockId := formatClockId msg, synchronized := false,
                       syncSequence := ntohs msg 30 }, [])
      else if msg.length ≥ PTP_HEADER_SIZE + PTP_TIMESTAMP_SIZE then
        match clockSamples now p.sampleRate with
        | none => none
        | some local0 =>
          some ({ p with masterClockId := formatClockId msg,
                         masterTimestamp := ptpToSamples p.sampleRate (msg.drop PTP_HEADER_SIZE),
                         localTimestamp := local0, synchronized := true }, [])
      else some ({ p with masterClockId := formatClockId msg, synchronized := false }, []) := by
  have hne : (p.masterClockId != formatClockId msg) = true := by
    rw [bne_iff_ne]; exact fun h => hnew h.symm
  unfold PTPSync.eventStep
  simp only [hacc, Bool.not_true, Bool.false_eq_true, if_false, htype, beq_self_eq_true,
    if_true, hne]
  by_cases h2 : ntohs msg 6 &&& 0x0200 = 0
  · simp only [h2, bne_self_eq_false, Bool.false_eq_true, if_false, ne_eq, not_true_eq_false]
    by_cases hl : msg.length ≥ PTP_HEADER_SIZE + PTP_TIMESTAMP_SIZE
    · simp only [hl, if_true]
      cases hc : clockSamples now p.sampleRate with
      | none => rfl
      | some t => simp [PTPSync.sendDelayRequest]
    · simp only [hl, if_false]
  · have : (ntohs msg 6 &&& 0x0200 != 0) = true := by rw [bne_iff_ne]; exact h2
    simp only [this, if_true, ne_eq, h2, not_false_eq_true]

/-- C25 amended: for every PTP state and every valid Sync message (version 2, domain
0) whose clock identity differs from the current master identity, after the Sync has
been processed the master identity is the new one; synchronized is false when the
Sync is two-step, and when it is one-step and shorter than
sizeof(PTPHeader) + sizeof(PTPTimestamp); when it is one-step and carries a full
timestamp, the one-step branch takes the timestamp, sends no Delay-Request
(synchronized is false at that moment) and then sets synchronized to true. -/
theorem sync_from_new_master (p : PTPSync) (msg : List Nat) (now : Nat) (sendOk : Bool)
    (sendNow : Nat) (hacc : ptpAccepted msg = true) (htype : msg.getD 0 0 &&& 0x0F = 0)
    (hnew : formatClockId msg ≠ p.masterClockId) :
    (ntohs msg 6 &&& 0x0200 ≠ 0 ∨ msg.length < PTP_HEADER_SIZE + PTP_TIMESTAMP_SIZE →
      ∃ p', p.eventStep msg now sendOk sendNow = some (p', []) ∧
        p'.masterClockId = formatClockId msg ∧ p'.synchronized = false) ∧
    (ntohs msg 6 &&& 0x0200 = 0 → PTP_HEADER_SIZE + PTP_TIMESTAMP_SIZE ≤ msg.length →
      now * p.sampleRate < 2 ^ 63 →
      ∃ p', p.eventStep msg now sendOk sendNow = some (p', []) ∧
        p'.masterClockId = formatClockId msg ∧ p'.synchronized = true ∧
        p'.delaySequence = p.delaySequence ∧
        p'.masterTimestamp = ptpToSamples p.sampleRate (msg.drop PTP_HEADER_SIZE)) := by
  rw [eventStep_sync p msg now sendOk sendNow hacc htype hnew]
  constructor
  · intro h
    by_cases h2 : ntohs msg 6 &&& 0x0200 ≠ 0
    · rw [if_pos h2]; exact ⟨_, rfl, rfl, rfl⟩
    · rw [if_neg h2]
      rcases h with h | h
      · exact absurd h h2
      · rw [if_neg (by omega)]; exact ⟨_, rfl, rfl, rfl⟩
  · intro h2 hl hnow
    rw [if_neg (by rw [h2]; simp), if_pos hl]
    unfold clockSamples
    rw [if_pos hnow]
    exact ⟨_, rfl, rfl, rfl, rfl, rfl⟩

/-- Witness of C25 amended: the started slave and the two-step Sync 7 of the
grandmaster. -/
theorem sync_from_new_master_witness :
    ptpAccepted (syncTwoStep 7) = true ∧ (syncTwoStep 7).getD 0 0 &&& 0x0F = 0 ∧
    formatClockId (syncTwoStep 7) ≠ ptpStarted.masterClockId ∧
    ntohs (syncTwoStep 7) 6 &&& 0x0200 ≠ 0 ∧
    ∃ p', ptpStarted.eventStep (syncTwoStep 7) 40000 true 40000 = some (p', []) ∧
      p'.masterClockId = formatClockId (syncTwoStep 7) ∧ p'.synchronized = false :=
  ⟨by decide, by decide, by decide, by decide,
    (sync_from_new_master ptpStarted (syncTwoStep 7) 40000 true 40000 (by decide) (by decide)
      (by decide)).1 (Or.inl (by decide))⟩

/-! ## A matching Follow-Up (C29) -/

/-- C29 fails as stated: the started PTP slave (synchronized false, remembered Sync
sequence 0) receives a Follow-Up with sequence 0 and a full timestamp; it records
t1 = 48000 and t2 = 4800 and becomes synchronized, but sends no Delay-Request and
leaves delaySequence at 0. -/
theorem followUp_unsynchronized_sends_nothing :
    ptpStarted.synchronized = false ∧ ntohs (followUp 0 1 0) 30 = ptpStarted.syncSequence ∧
    ptpStarted.generalStep DelayLocals.init (followUp 0 1 0) 100000 true 200000
      = some ({ ptpStarted with
                masterTimestamp := 48000, localTimestamp := 4800, synchronized := true,
                delaySequence := 0 },
              { t1 := 48000, t2 := 4800, t3 := 0, t4 := 0 }, []) := by
  decide

theorem generalStep_followUp (p : PTPSync) (loc : DelayLocals) (msg : List Nat)
    (now : Nat) (sendOk : Bool) (sendNow : Nat) (hacc : ptpAccepted msg = true)
    (htype : msg.getD 0 0 &&& 0x0F = 8) (hseq : ntohs msg 30 = p.syncSequence)
    (hlen : PTP_HEADER_SIZE + PTP_TIMESTAMP_SIZE ≤ msg.length)
    (hnow : now * p.sampleRate < 2 ^ 63) :
    p.generalStep loc msg now sendOk sendNow =
      match ({ p with
          masterTimestamp := ptpToSamples p.sampleRate (msg.drop PTP_HEADER_SIZE),
          localTimestamp := now * p.sampleRate / 1000000 }).sendDelayRequest sendOk sendNow with
      | none => none
      | some (p2, sent) =>
        some ({ p2 with synchronized := true },
          { loc with t1 := ptpToSamples p.sampleRate (msg.drop PTP_HEADER_SIZE),
                     t2 := now * p.sampleRate / 1000000 }, sent) := by
  unfold PTPSync.generalStep
  simp only [hacc, Bool.not_true, Bool.false_eq_true, if_false, htype, beq_self_eq_true,
    if_true, hseq, ge_iff_le, hlen, clockSamples, hnow]

/-- C29 amended: for every PTP state, processing a Follow-Up whose sequenceId equals
the remembered Sync sequence and which carries a full timestamp records its
timestamp as t1 (and as masterTimestamp), the receipt time as t2 (and as
localTimestamp) and leaves synchronized = true. A Delay-Request is sent, and
delaySequence advances by one, only when synchronized was already true before the
Follow-Up: sendDelayRequest returns at once while synchronized is false, and then
nothing is sent and delaySequence keeps its value. -/
theorem followUp_processed (p : PTPSync) (loc : DelayLocals) (msg : List Nat)
    (now : Nat) (sendOk : Bool) (sendNow : Nat) (hacc : ptpAccepted msg = true)
    (htype : msg.getD 0 0 &&& 0x0F = 8) (hseq : ntohs msg 30 = p.syncSequence)
    (hlen : PTP_HEADER_SIZE + PTP_TIMESTAMP_SIZE ≤ msg.length)
    (hnow : now * p.sampleRate < 2 ^ 63) (hsend : sendNow * p.sampleRate < 2 ^ 63) :
    ∃ p' loc' sent, p.generalStep loc msg now sendOk sendNow = some (p', loc', sent) ∧
      loc'.t1 = ptpToSamples p.sampleRate (msg.drop PTP_HEADER_SIZE) ∧
      p'.masterTimestamp = ptpToSamples p.sampleRate (msg.drop PTP_HEADER_SIZE) ∧
      loc'.t2 = now * p.sampleRate / 1000000 ∧
      p'.localTimestamp = now * p.sampleRate / 1000000 ∧
      p'.synchronized = true ∧
      (p.synchronized = false → sent = [] ∧ p'.delaySequence = p.delaySequence) ∧
      (p.synchronized = true →
        p'.delaySequence = (p.delaySequence + 1) % 65536 ∧
        sent = if sendOk then [delayRequestHeader ((p.delaySequence + 1) % 65536)] else []) := by
  rw [generalStep_followUp p loc msg now sendOk sendNow hacc htype hseq hlen hnow]
  cases hs : p.synchronized with
  | false =>
    simp only [PTPSync.sendDelayRequest, hs, Bool.not_false, if_true]
    exact ⟨_, _, _, rfl, rfl, rfl, rfl, rfl, rfl, fun _ => ⟨rfl, rfl⟩, fun h => by simp at h⟩
  | true =>
    cases sendOk with
    | false =>
      simp only [PTPSync.sendDelayRequest, hs, Bool.not_true, Bool.false_eq_true, if_false,
        Bool.not_false, if_true]
      exact ⟨_, _, _, rfl, rfl, rfl, rfl, rfl, rfl, fun h => by simp at h,
        fun _ => ⟨rfl, rfl⟩⟩
    | true =>
      simp only [PTPSync.sendDelayRequest, hs, Bool.not_true, Bool.false_eq_true, if_false,
        clockSamples, hsend, if_true]
      exact ⟨_, _, _, rfl, rfl, rfl, rfl, rfl, rfl, fun h => by simp at h,
        fun _ => ⟨rfl, rfl⟩⟩

/-- Witness of C29 amended: the started slave, not yet synchronized, and the
Follow-Up with sequence 0 and timestamp 1 s. -/
theorem followUp_processed_witness :
    ptpAccepted (followUp 0 1 0) = true ∧ (followUp 0 1 0).getD 0 0 &&& 0x0F = 8 ∧
    ntohs (followUp 0 1 0) 30 = ptpStarted.syncSequence ∧
    PTP_HEADER_SIZE + PTP_TIMESTAMP_SIZE ≤ (followUp 0 1 0).length ∧
    100000 * ptpStarted.sampleRate < 2 ^ 63 ∧ 200000 * ptpStarted.sampleRate < 2 ^ 63 ∧
    ∃ p' loc' sent,
      ptpStarted.generalStep DelayLocals.init (followUp 0 1 0) 100000 true 200000
        = some (p', loc', sent) ∧ loc'.t1 = 48000 ∧ p'.synchronized = true := by
  obtain ⟨p', loc', sent, h, h1, -, -, -, h5, -⟩ :=
    followUp_processed ptpStarted DelayLocals.init (followUp 0 1 0) 100000 true 200000
      (by decide) (by decide) (by decide) (by decide) (by decide) (by decide)
  exact ⟨by decide, by decide, by decide, by decide, by decide, by decide, p', loc', sent, h,
    h1.trans (by decide), h5⟩

/-! ## The receive worker (C21) -/

theorem getD_of_all_eq {α : Type} (l : List α) (a : α) (hl : ∀ x ∈ l, x = a) (i : Nat) :
    l.getD i a = a := by
  rw [List.getD_eq_getElem?_getD]
  cases h : l[i]? with
  | none => rfl
  | some x =>
    obtain ⟨hi, hx⟩ := List.getElem?_eq_some_iff.mp h
    exact hl x (hx ▸ List.getElem_mem hi)

theorem intToFloatSample_of_zeros (c : AudioConverter) (l : List Nat) (hl : ∀ x ∈ l, x = 0) :
    intToFloatSample c l = 0 := by
  have hv : intToFloatValue c.bitDepth l = 0 := by
    unfold intToFloatValue
    simp only [getD_of_all_eq l 0 hl]
    split_ifs <;> simp [toInt16, toInt32] at *
  unfold intToFloatSample
  simp only [hv, Int.cast_zero, f32_zero, zero_div, floatLit_one, floatLit_neg_one]
  norm_num

theorem l24Packet_length (seq frames : Nat) : (l24Packet seq frames).length = 12 + 6 * frames := by
  simp [l24Packet, rtpPacket, htons, htonl, halfPayloadL24, List.length_flatten]
  omega


theorem frames_le (n ch : Nat) : n / (ch * 3) * ch ≤ n / 3 := by
  rw [Nat.le_div_iff_mul_le (by norm_num)]
  calc n / (ch * 3) * ch * 3 = (ch * 3) * (n / (ch * 3)) := by ring
    _ ≤ n := Nat.mul_div_le n (ch * 3)

theorem resizeFloats_length (v : List ℚ) (n : Nat) : (resizeFloats v n).length = n := by
  simp only [resizeFloats, List.length_append, List.length_take, List.length_replicate]
  omega

/-- The closed form of a pass of the receive worker for a datagram that fits the
buffer, parses, and whose decode stays inside the buffer. -/
theorem receivePass_accept (b : AES67Bridge) (w : ReceiveWorker) (d : List Nat)
    (hd : 12 ≤ d.length) (hbuf : w.packetBuffer.length = 2048) (hfit : d.length ≤ 2048)
    (hv : d.getD 0 0 &&& 0xC0 = 0x80) (hC : 1 ≤ b.rtp.channelCount)
    (hcc : b.converter.channelCount = b.rtp.channelCount)
    (hread : SIZEOF_RTPHANDLER + (d.length - 12) / (b.rtp.channelCount * 3)
      * b.rtp.channelCount * b.converter.bytesPerSample ≤ 2048) :
    b.receivePass w (some d) =
      some (({ b with rtp :=
          { b.rtp with
            outOfOrderPackets :=
              if ntohs d 2 = b.rtp.expectedSequence then b.rtp.outOfOrderPackets
              else (b.rtp.outOfOrderPackets + 1) % 2 ^ 32,
            expectedSequence := (ntohs d 2 + 1) % 65536,
            packetCount := (b.rtp.packetCount + 1) % 2 ^ 32 } }).enqueueReceived
          ((List.range ((d.length - 12) / (b.rtp.channelCount * 3) * b.rtp.channelCount)).map
            fun i => intToFloatSample b.converter
              (((d ++ w.packetBuffer.drop d.length).drop SIZEOF_RTPHANDLER).drop
                (i * b.converter.bytesPerSample))),
        { packetBuffer := d ++ w.packetBuffer.drop d.length,
          audioBuffer :=
            (List.range ((d.length - 12) / (b.rtp.channelCount * 3) * b.rtp.channelCount)).map
              fun i => intToFloatSample b.converter
                (((d ++ w.packetBuffer.drop d.length).drop SIZEOF_RTPHANDLER).drop
                  (i * b.converter.bytesPerSample)) }) := by
  have hmin : min d.length w.packetBuffer.length = d.length := by rw [hbuf]; omega
  have hF := frames_le (d.length - 12) b.rtp.channelCount
  have hF1 : (d.length - 12) / (b.rtp.channelCount * 3) ≤ (d.length - 12) / 3 :=
    le_trans (Nat.le_mul_of_pos_right _ hC) hF
  have hFm : (d.length - 12) / (b.rtp.channelCount * 3) % 2 ^ 32
      = (d.length - 12) / (b.rtp.channelCount * 3) := Nat.mod_eq_of_lt (by omega)
  have hFCm : (d.length - 12) / (b.rtp.channelCount * 3) * b.rtp.channelCount % 2 ^ 32
      = (d.length - 12) / (b.rtp.channelCount * 3) * b.rtp.channelCount :=
    Nat.mod_eq_of_lt (by omega)
  have hlen : ((d ++ w.packetBuffer.drop d.length).drop SIZEOF_RTPHANDLER).length
      = 2048 - SIZEOF_RTPHANDLER := by
    rw [List.length_drop, List.length_append, List.length_drop, hbuf]
    omega
  unfold AES67Bridge.receivePass
  simp only [hmin, List.take_length, List.take_left]
  rw [parsePacket_accept b.rtp d emptyAudio hd hv hC]
  simp only [hFm, hFCm]
  unfold AudioConverter.intToFloat
  rw [hlen, hcc, if_neg (by omega)]
  simp only [resizeFloats_length, List.length_map, List.length_range, lt_irrefl, if_false]
  rw [List.drop_of_length_le (l := resizeFloats _ _) (by rw [resizeFloats_length]),
    List.append_nil]

theorem decoded_zero (c : AudioConverter) (d rest : List Nat) (n k : Nat)
    (hd : d.length ≤ k) (hrest : ∀ x ∈ rest, x = 0) :
    ((List.range n).map fun i =>
      intToFloatSample c (((d ++ rest).drop k).drop (i * c.bytesPerSample)))
      = List.replicate n 0 := by
  rw [List.eq_replicate_iff]
  refine ⟨by rw [List.length_map, List.length_range], ?_⟩
  intro s hs
  obtain ⟨i, -, rfl⟩ := List.mem_map.mp hs
  apply intToFloatSample_of_zeros
  intro x hx
  have hx1 := List.mem_of_mem_drop hx
  rw [List.drop_append_eq_append_drop, List.drop_of_length_le hd, List.nil_append] at hx1
  exact hrest x (List.mem_of_mem_drop hx1)

theorem receiveBridge_fields :
    receiveBridge.mode = Mode.Receive ∧ receiveBridge.networkActive = true ∧
    receiveBridge.bufferSize = 960 ∧ receiveBridge.jackBuffer = [] ∧
    receiveBridge.rtp = RTPHandler.init 1 0 ∧ receiveBridge.converter = AudioConverter.init :=
  ⟨rfl, rfl, rfl, rfl, rfl, rfl⟩

/-- What a pass of the receive worker leaves, for a datagram that fits the buffer,
parses, and whose decode stays inside the buffer. -/
theorem receivePass_appends (b : AES67Bridge) (w : ReceiveWorker) (d : List Nat)
    (hd : 12 ≤ d.length) (hbuf : w.packetBuffer.length = 2048) (hfit : d.length ≤ 2048)
    (hv : d.getD 0 0 &&& 0xC0 = 0x80) (hC : 1 ≤ b.rtp.channelCount)
    (hcc : b.converter.channelCount = b.rtp.channelCount)
    (hread : SIZEOF_RTPHANDLER + (d.length - 12) / (b.rtp.channelCount * 3)
      * b.rtp.channelCount * b.converter.bytesPerSample ≤ 2048)
    (hcap : b.bufferSize * 2 < 2 ^ SIZE_BITS) :
    ∃ b1 w1 decoded, b.receivePass w (some d) = some (b1, w1) ∧
      decoded = ((List.range
          ((d.length - 12) / (b.rtp.channelCount * 3) * b.rtp.channelCount)).map
        fun i => intToFloatSample b.converter
          (((d ++ w.packetBuffer.drop d.length).drop SIZEOF_RTPHANDLER).drop
            (i * b.converter.bytesPerSample))) ∧
      b1.jackBuffer = (b.jackBuffer ++ decoded).take (2 * b.bufferSize) ∧
      w1.packetBuffer = d ++ w.packetBuffer.drop d.length ∧ w1.audioBuffer = decoded ∧
      b1.mode = b.mode ∧ b1.networkActive = b.networkActive ∧
      b1.bufferSize = b.bufferSize ∧ b1.converter = b.converter ∧
      b1.rtp = { b.rtp with
        outOfOrderPackets :=
          if ntohs d 2 = b.rtp.expectedSequence then b.rtp.outOfOrderPackets
          else (b.rtp.outOfOrderPackets + 1) % 2 ^ 32,
        expectedSequence := (ntohs d 2 + 1) % 65536,
        packetCount := (b.rtp.packetCount + 1) % 2 ^ 32 } :=
  ⟨_, _, _, receivePass_accept b w d hd hbuf hfit hv hC hcc hread, rfl,
    enqueueReceived_eq _ _ hcap, rfl, rfl, rfl, rfl, rfl, rfl, rfl⟩

/-- C21, the failing input: the receive bridge (48 kHz, stereo, 24 bit, empty queue)
and a worker whose 2048-byte buffer is still zeroed receive the 300-byte packet with
seq = 42, ts = 0, ssrc = 0xDEADBEEF and 48 stereo frames of 3F FF FF. The pass parses
48 frames, but decodes from byte sizeof(RTPHandler) = 1104 of the buffer, past the
packet, where the buffer holds zeros: the 96 samples it queues are all 0.0, and the
audio callback of 48 frames hands 48 zeros to each output channel, none of them
within [0.4999, 0.5001]. -/
theorem receivePass_decodes_past_packet :
    (l24Packet 42 48).length = 300 ∧
    ∃ b1 w1 b2,
      receiveBridge.receivePass ReceiveWorker.init (some (l24Packet 42 48)) = some (b1, w1) ∧
      b1.rtp.packetCount = 1 ∧ b1.rtp.expectedSequence = 43 ∧
      b1.jackBuffer = List.replicate 96 0 ∧
      b1.process 48 [] [] = some (b2, List.replicate 48 0, List.replicate 48 0) ∧
      b2.jackBuffer = [] := by
  have hlen : (l24Packet 42 48).length = 300 := l24Packet_length 42 48
  obtain ⟨b1, w1, decoded, h1, hdec, hq, -, -, hmode, hact, -, -, hrtp⟩ :=
    receivePass_appends receiveBridge ReceiveWorker.init (l24Packet 42 48)
      (by rw [hlen]; decide) (List.length_replicate _ _) (by rw [hlen]; decide) (by decide)
      (by decide) rfl (by rw [hlen]; decide) (by decide)
  rw [decoded_zero receiveBridge.converter (l24Packet 42 48)
    (List.drop (l24Packet 42 48).length ReceiveWorker.init.packetBuffer)
    (((l24Packet 42 48).length - 12) / (receiveBridge.rtp.channelCount * 3)
      * receiveBridge.rtp.channelCount) SIZEOF_RTPHANDLER (by rw [hlen]; decide)
    (fun x hx => List.eq_of_mem_replicate (List.mem_of_mem_drop hx))] at hdec
  have hn : ((l24Packet 42 48).length - 12) / (receiveBridge.rtp.channelCount * 3)
      * receiveBridge.rtp.channelCount = 96 := by rw [hlen]; decide
  rw [hn] at hdec
  have hjb : b1.jackBuffer = List.replicate 96 0 := by
    rw [hq, hdec]
    exact List.take_of_length_le (by
      rw [List.length_append, List.length_replicate]; decide)
  have hproc := process_receive b1 48 [] [] hmode hact (by norm_num)
  rw [if_neg (by rw [hjb, List.length_replicate]; decide)] at hproc
  have hout : ∀ k : Nat, ((List.range 48).map fun i => b1.jackBuffer.getD (2 * i + k) 0)
      = List.replicate 48 0 := by
    intro k
    rw [List.eq_replicate_iff]
    refine ⟨by rw [List.length_map, List.length_range], ?_⟩
    intro s hs
    obtain ⟨i, -, rfl⟩ := List.mem_map.mp hs
    exact getD_of_all_eq _ 0 (fun x hx => List.eq_of_mem_replicate (hjb ▸ hx)) _
  rw [hout 1] at hproc
  have hout0 := hout 0
  simp only [Nat.add_zero] at hout0
  rw [hout0] at hproc
  refine ⟨hlen, b1, w1, _, h1, ?_, ?_, hjb, hproc, ?_⟩
  · rw [hrtp]; rfl
  · rw [hrtp]
    show (ntohs (l24Packet 42 48) 2 + 1) % 65536 = 43
    decide
  · show List.drop (2 * 48) b1.jackBuffer = []
    rw [hjb]
    exact List.drop_of_length_le (by rw [List.length_replicate])

/-! ## Arrival order and the reorder buffer (C26) -/

theorem ntohs_l24Packet (seq frames : Nat) (h : seq < 65536) :
    ntohs (l24Packet seq frames) 2 = seq :=
  ntohs_rtpPacket 96 seq 0 0xDEADBEEF _ h

theorem l24Packet_version (seq frames : Nat) :
    (l24Packet seq frames).getD 0 0 &&& 0xC0 = 0x80 := by
  simp only [l24Packet, rtpPacket, List.cons_append, List.getD_cons_zero]
  decide

/-- C26 fails as stated: the receive bridge expects sequence number 0, and the packet
with sequence number 1 (one stereo frame) arrives before the packet with sequence
number 0 (two stereo frames), both inside the reorder window. The pass for packet 1
queues its 2 samples at once, while packet 0 has not arrived, and counts one
out-of-order packet; the pass for packet 0 appends its 4 samples behind them. The
queue holds the samples in arrival order, and no pass touches the reorder buffer. -/
theorem receivePass_bypasses_reorder :
    receiveBridge.rtp.expectedSequence = 0 ∧
    ntohs (l24Packet 1 1) 2 = 1 ∧ ntohs (l24Packet 0 2) 2 = 0 ∧
    ∃ b1 w1 b2 w2,
      receiveBridge.receivePass ReceiveWorker.init (some (l24Packet 1 1)) = some (b1, w1) ∧
      b1.jackBuffer.length = 2 ∧ b1.rtp.outOfOrderPackets = 1 ∧
      b1.rtp.packetBuffer = receiveBridge.rtp.packetBuffer ∧
      b1.receivePass w1 (some (l24Packet 0 2)) = some (b2, w2) ∧
      b2.jackBuffer.length = 6 ∧ b2.jackBuffer.take 2 = b1.jackBuffer ∧
      b2.rtp.packetBuffer = receiveBridge.rtp.packetBuffer := by
  have hl1 : (l24Packet 1 1).length = 18 := l24Packet_length 1 1
  have hl2 : (l24Packet 0 2).length = 24 := l24Packet_length 0 2
  have hs1 : ntohs (l24Packet 1 1) 2 = 1 := ntohs_l24Packet 1 1 (by decide)
  have hs2 : ntohs (l24Packet 0 2) 2 = 0 := ntohs_l24Packet 0 2 (by decide)
  obtain ⟨b1, w1, dec1, h1, hd1, hq1, hw1, -, -, -, hbs1, hconv1, hrtp1⟩ :=
    receivePass_appends receiveBridge ReceiveWorker.init (l24Packet 1 1)
      (by rw [hl1]; decide) (List.length_replicate _ _) (by rw [hl1]; decide)
      (l24Packet_version 1 1) (by decide) rfl (by rw [hl1]; decide) (by decide)
  have hch1 : b1.rtp.channelCount = 2 := by rw [hrtp1]; rfl
  have hbuf1 : w1.packetBuffer.length = 2048 := by
    have hinit : ReceiveWorker.init.packetBuffer.length = 2048 := List.length_replicate _ _
    rw [hw1, List.length_append, List.length_drop, hl1, hinit]
  obtain ⟨b2, w2, dec2, h2, hd2, hq2, -, -, -, -, -, -, hrtp2⟩ :=
    receivePass_appends b1 w1 (l24Packet 0 2)
      (by rw [hl2]; decide) hbuf1 (by rw [hl2]; decide)
      (l24Packet_version 0 2) (by rw [hch1]; decide) (by rw [hconv1, hch1]; rfl)
      (by rw [hl2, hch1, hconv1]; decide) (by rw [hbs1]; decide)
  have hlen1 : dec1.length = 2 := by
    rw [hd1, List.length_map, List.length_range, hl1]; rfl
  have hlen2 : dec2.length = 4 := by
    rw [hd2, List.length_map, List.length_range, hl2, hch1]
  have hj1 : b1.jackBuffer = dec1 := by
    rw [hq1]
    exact List.take_of_length_le (by
      rw [List.length_append, hlen1]; decide)
  have hj2 : b2.jackBuffer = dec1 ++ dec2 := by
    rw [hq2, hj1, hbs1]
    exact List.take_of_length_le (by
      rw [List.length_append, hlen1, hlen2]; decide)
  refine ⟨rfl, hs1, hs2, b1, w1, b2, w2, h1, ?_, ?_, ?_, h2, ?_, ?_, ?_⟩
  · rw [hj1, hlen1]
  · rw [hrtp1, hs1]; rfl
  · rw [hrtp1]
  · rw [hj2, List.length_append, hlen1, hlen2]
  · rw [hj2, hj1, List.take_left' hlen1]
  · rw [hrtp2]
    show b1.rtp.packetBuffer = _
    rw [hrtp1]

/-- C26 amended: for every bridge and every datagram that fits the 2048-byte buffer,
parses (at least 12 bytes, version 2) and whose decode stays inside the buffer, the
pass of the receive worker that received it appends the packet's
frameCount * channelCount decoded samples to the tail of the sample queue (and then
trims the queue to 2 * bufferSize), so the queue takes the samples in arrival order.
The pass leaves the reorder buffer as it was: the receive worker calls parsePacket,
never addPacketToBuffer. A sequence number other than the expected one is counted in
outOfOrderPackets and becomes the new reference, nothing is held back for it. -/
theorem receivePass_queues_on_arrival (b : AES67Bridge) (w : ReceiveWorker) (d : List Nat)
    (hd : 12 ≤ d.length) (hbuf : w.packetBuffer.length = 2048) (hfit : d.length ≤ 2048)
    (hv : d.getD 0 0 &&& 0xC0 = 0x80) (hC : 1 ≤ b.rtp.channelCount)
    (hcc : b.converter.channelCount = b.rtp.channelCount)
    (hread : SIZEOF_RTPHANDLER + (d.length - 12) / (b.rtp.channelCount * 3)
      * b.rtp.channelCount * b.converter.bytesPerSample ≤ 2048)
    (hcap : b.bufferSize * 2 < 2 ^ SIZE_BITS) :
    ∃ b1 w1 decoded, b.receivePass w (some d) = some (b1, w1) ∧
      decoded.length = (d.length - 12) / (b.rtp.channelCount * 3) * b.rtp.channelCount ∧
      b1.jackBuffer = (b.jackBuffer ++ decoded).take (2 * b.bufferSize) ∧
      b1.rtp.packetBuffer = b.rtp.packetBuffer ∧
      b1.rtp.expectedSequence = (ntohs d 2 + 1) % 65536 ∧
      b1.rtp.outOfOrderPackets =
        (if ntohs d 2 = b.rtp.expectedSequence then b.rtp.outOfOrderPackets
         else (b.rtp.outOfOrderPackets + 1) % 2 ^ 32) := by
  obtain ⟨b1, w1, decoded, h1, hdec, hq, -, -, -, -, -, -, hrtp⟩ :=
    receivePass_appends b w d hd hbuf hfit hv hC hcc hread hcap
  refine ⟨b1, w1, decoded, h1, ?_, hq, ?_, ?_, ?_⟩
  · rw [hdec, List.length_map, List.length_range]
  · rw [hrtp]
  · rw [hrtp]
  · rw [hrtp]

/-- Witness of C26 amended: the receive bridge, a fresh worker and the packet with
sequence number 1 and one stereo frame. -/
theorem receivePass_queues_on_arrival_witness :
    12 ≤ (l24Packet 1 1).length ∧ ReceiveWorker.init.packetBuffer.length = 2048 ∧
    (l24Packet 1 1).length ≤ 2048 ∧ (l24Packet 1 1).getD 0 0 &&& 0xC0 = 0x80 ∧
    1 ≤ receiveBridge.rtp.channelCount ∧
    receiveBridge.converter.channelCount = receiveBridge.rtp.channelCount ∧
    SIZEOF_RTPHANDLER + ((l24Packet 1 1).length - 12) / (receiveBridge.rtp.channelCount * 3)
      * receiveBridge.rtp.channelCount * receiveBridge.converter.bytesPerSample ≤ 2048 ∧
    receiveBridge.bufferSize * 2 < 2 ^ SIZE_BITS ∧
    ∃ b1 w1 decoded,
      receiveBridge.receivePass ReceiveWorker.init (some (l24Packet 1 1)) = some (b1, w1) ∧
      decoded.length = 2 ∧
      b1.jackBuffer = (receiveBridge.jackBuffer ++ decoded).take (2 * receiveBridge.bufferSize) ∧
      b1.rtp.packetBuffer = receiveBridge.rtp.packetBuffer := by
  have hl1 : (l24Packet 1 1).length = 18 := l24Packet_length 1 1
  obtain ⟨b1, w1, decoded, h1, hlen, hq, hpb, -, -⟩ :=
    receivePass_queues_on_arrival receiveBridge ReceiveWorker.init (l24Packet 1 1)
      (by rw [hl1]; decide) (List.length_replicate _ _) (by rw [hl1]; decide)
      (l24Packet_version 1 1) (by decide) rfl (by rw [hl1]; decide) (by decide)
  exact ⟨by rw [hl1]; decide, List.length_replicate _ _, by rw [hl1]; decide,
    l24Packet_version 1 1, by decide, rfl, by rw [hl1]; decide, by decide, b1, w1, decoded, h1,
    hlen.trans (by rw [hl1]; rfl), hq, hpb⟩

/-! ## Two packets for one slot (C28) -/

/-- C28, the failing input: a fresh receiver expecting 100 is given packet 116
(difference +16, slot 116 mod 32 = 20) and then packet 84 (difference -16, the same
slot 20), both inside the window. The claim has packet 116 stored in slot 20, then
overwritten by packet 84 and counted as dropped for it: droppedPackets = 1, with
expectedSequence still 100. The code counts packet 116 as too old and does not store
it, so slot 20 is still empty when packet 84 arrives; packet 84 then takes the
too-far-ahead branch: the buffer is cleared, expectedSequence moves back to 84,
droppedPackets becomes 2, and the packet is stored and released at once. -/
theorem addPackets_same_slot_scenario :
    seqDiffOf (freshReceiver 100) (seqPacket 116) = 16 ∧
    getBufferIndex 116 = 20 ∧ getBufferIndex 84 = 20 ∧
    addPacketToBuffer (freshReceiver 100) (seqPacket 116)
      = ({ freshReceiver 100 with droppedPackets := 1 }, []) ∧
    (addPacketToBuffer (freshReceiver 100) (seqPacket 116)).1.packetBuffer.getD 20 emptyEntry
      = emptyEntry ∧
    seqDiffOf (addPacketToBuffer (freshReceiver 100) (seqPacket 116)).1 (seqPacket 84) = -16 ∧
    addPackets (freshReceiver 100) [seqPacket 116, seqPacket 84]
      = ({ freshReceiver 100 with
           expectedSequence := 85, droppedPackets := 2,
           packetBuffer := (List.replicate 32 emptyEntry).set 20
             { data := seqPacket 84, sequenceNumber := 84, valid := false } },
         [{ data := seqPacket 84, sequenceNumber := 84, valid := true }]) := by
  decide

end aes67
